import Mathlib

/-! # hiLevelMexC — the MEX gateway in front of the REFPROP high-level interface

A shallow embedding of `src/utilities/hiLevelMexC.cpp`.

Conventions of the embedding

* A C string (`const char *`, `char[255]`, `std::string`) is the `List Char` of
  its characters before the terminator.
* A `double` is the rational number it denotes (NaN and the infinities are left
  out); a floating literal is the binary64 value nearest to it; the one
  arithmetic operation on doubles in the file, `inputDouble - 0.01`, is the
  exact difference rounded to binary64, to nearest with ties to even.
* `mexErrMsgIdAndTxt` hands control back to the host at the point where it is
  called; nothing that follows it in the text of the function is executed.
* Behaviour the language or the MEX interface leaves open (conversion of a
  double outside the range of `int`, `mxGetScalar` of an empty array, a read or
  write outside an array) is reported as `undefined`, never given a value.
* The REFPROP library is a parameter: a record of transition functions over an
  arbitrary state type.
-/

namespace HiLevelMexC

/-! ## Host arrays -/

/-- Host array as far as this file looks at it: a character array, a real
double array, or an array of any other class. `mxGetM * mxGetN` is the number
of elements for every array, so the shape is not kept. -/
inductive mxArray where
  | char (text : List Char)
  | double (pr : List ℚ)
  | other
  deriving DecidableEq, Repr

/-- Class test `mxIsChar`. -/
def mxIsChar : mxArray → Bool
  | .char _ => true
  | _ => false

/-- Class test `mxIsDouble`. -/
def mxIsDouble : mxArray → Bool
  | .double _ => true
  | _ => false

/-- First element as a double, `mxGetScalar`; indeterminate on an empty array. -/
def mxGetScalar : mxArray → Option ℚ
  | .double (d :: _) => some d
  | .char (c :: _) => some (c.toNat : ℚ)
  | _ => none

/-- Conversion `int(d)` of a double: truncation toward zero, defined only when
the truncated value fits a 32-bit `int`. -/
def toInt (d : ℚ) : Option Int :=
  let t : Int := if 0 ≤ d then ⌊d⌋ else ⌈d⌉
  if -2147483648 ≤ t ∧ t ≤ 2147483647 then some t else none

/-! ## Errors raised through `mexErrMsgIdAndTxt` -/

/-- One constructor per call site of `mexErrMsgIdAndTxt`, carrying the values
handed to the format string. -/
inductive MexError where
  | nlhs
  | nrhs (numInArg expectedIn : Int)
  | prhsType (text : String)
  | prhsDecimal (name : String) (inputDouble : ℚ)
  | prhsInvalid (name : String) (shown : ℚ)
  | fluidFailed (fluid : List Char) (ierr : Int)
  | enumFailed (unit_char : List Char) (ierr : Int) (herr : List Char)
  | refpropFailed (site : Nat) (unit_char : List Char) (ierr : Int) (herr : List Char)
  deriving DecidableEq, Repr

/-- Message identifier passed as first argument of `mexErrMsgIdAndTxt`. -/
def MexError.id : MexError → String
  | .nlhs => "MyToolbox:arrayProduct:nlhs"
  | .nrhs _ _ => "MyToolbox:arrayProduct:nrhs"
  | _ => "MyToolbox:arrayProduct:prhs"

/-- How `checkArguments` ends. -/
inductive Check where
  | pass
  | raise (e : MexError)
  | undefined
  deriving DecidableEq, Repr

/-! ## Binary64 arithmetic -/

/-- Nearest integer to `q`, a halfway case going to the even neighbour. -/
def roundHalfEven (q : ℚ) : Int :=
  if q - ⌊q⌋ < 1 / 2 then ⌊q⌋
  else if 1 / 2 < q - ⌊q⌋ then ⌊q⌋ + 1
  else if ⌊q⌋ % 2 = 0 then ⌊q⌋
  else ⌊q⌋ + 1

/-- Exponent of the spacing of the binary64 values at the magnitude of `x`: 52
below the binary exponent of `x`, which is held at -1022 in the subnormal
range. -/
def ulpExponent (x : ℚ) : Int := max (Int.log 2 |x|) (-1022) - 52

/-- Rounding of the exact result of an operation to binary64: to the nearest
multiple of the spacing at `x`, ties to even. (No overflow to infinity: the
one operation rounded here has operands below 2^31 + 1 in magnitude.) -/
def roundDouble (x : ℚ) : ℚ :=
  (roundHalfEven (x / 2 ^ ulpExponent x) : ℚ) * 2 ^ ulpExponent x

/-- The literal `0.01` of lines 120 and 136: the binary64 value nearest to
1/100, `0x1.47ae147ae147bp-7`. -/
def literal_0_01 : ℚ := 5764607523034235 / 2 ^ 59

/-- The literal `0.000000001` of the debug loops: the binary64 value nearest to
1/10^9, `0x1.12e0be826d695p-30`. -/
def literal_0_000000001 : ℚ := 4835703278458517 / 2 ^ 82

/-! ## `checkArguments` -/

def expectedOut : Int := 1

def expectedIn : Int := 10

/-- Lines 118–129: the value test of `MassOrMolar`. The difference
`inputDouble - 0.01` is a binary64 subtraction, `double(inputInt)` is exact. -/
def checkMassOrMolar (input : mxArray) : Check :=
  match mxGetScalar input with
  | none => .undefined
  | some inputDouble =>
    match toInt inputDouble with
    | none => .undefined
    | some inputInt =>
      if (inputInt : ℚ) < roundDouble (inputDouble - literal_0_01) then
        .raise (.prhsDecimal "MassOrMolar" inputDouble)
      else if inputInt ≠ 0 ∧ inputInt ≠ 1 then
        .raise (.prhsInvalid "MassOrMolar" (inputInt : ℚ))
      else .pass

/-- Lines 134–145: the value test of `DebugOutput`. The second message is given
`inputDouble`, not `inputInt`, as in the source. -/
def checkDebugOutput (input : mxArray) : Check :=
  match mxGetScalar input with
  | none => .undefined
  | some inputDouble =>
    match toInt inputDouble with
    | none => .undefined
    | some inputInt =>
      if (inputInt : ℚ) < roundDouble (inputDouble - literal_0_01) then
        .raise (.prhsDecimal "DebugOutput" inputDouble)
      else if inputInt ≠ 0 ∧ inputInt ≠ 1 then
        .raise (.prhsInvalid "DebugOutput" inputDouble)
      else .pass

/-- Function `checkArguments` (lines 46–148). `inputs` is the array of argument
pointers, read only at the indices 0..9 and only once `numInArg` is 10. -/
def checkArguments (numOutArg numInArg : Int) (inputs : Nat → mxArray) : Check :=
  if numOutArg ≠ expectedOut then .raise .nlhs
  else if numInArg ≠ expectedIn then .raise (.nrhs numInArg expectedIn)
  else if !mxIsChar (inputs 0) then
    .raise (.prhsType "Input variable propReq expected to be of type CHAR.")
  else if !mxIsChar (inputs 1) then
    .raise (.prhsType "Input variable spec expected to be of type CHAR.")
  else if !mxIsDouble (inputs 2) then
    .raise (.prhsType "Input variable value1 expected to be of type DOUBLE.")
  else if !mxIsDouble (inputs 3) then
    .raise (.prhsType "Input variable value2 expected to be of type DOUBLE.")
  else if !mxIsChar (inputs 4) then
    .raise (.prhsType "Input variable substance (or mixture) expected to be of type CHAR.")
  else if !mxIsDouble (inputs 5) then
    .raise (.prhsType "Input variable MassOrMolar expected to be of type DOUBLE with values of 0 or 1.")
  else if !mxIsDouble (inputs 6) then
    .raise (.prhsType "Input variable Composition expected to be of type DOUBLE with values betwen 0 and 1.")
  else if !mxIsChar (inputs 7) then
    .raise (.prhsType "Input variable DesiredUnits expected to be of type CHAR.")
  else if !mxIsChar (inputs 8) then
    .raise (.prhsType "Input variable PathToRefPropDll expected to be of type CHAR.")
  else if !mxIsDouble (inputs 9) then
    .raise (.prhsType "Input variable DebugOutput expected to be of type DOUBLE with values of 0 or 1.")
  else
    match checkMassOrMolar (inputs 5) with
    | .pass => checkDebugOutput (inputs 9)
    | r => r

/-! ### Vocabulary for statements about `checkArguments` -/

/-- A rational that is a binary64 value: rounding leaves it in place. -/
def isDouble (d : ℚ) : Prop := roundDouble d = d

instance (d : ℚ) : Decidable (isDouble d) :=
  inferInstanceAs (Decidable (roundDouble d = d))

/-- The binary64 value nearest to 1.01, `0x1.028f5c28f5c29p+0`. -/
def double_1_01 : ℚ := 4548635623644201 / 2 ^ 52

/-- The binary64 value nearest to 0.005, `0x1.47ae147ae147bp-8`. -/
def double_0_005 : ℚ := 5764607523034235 / 2 ^ 60

/-- The binary64 value nearest to 1.005, `0x1.0147ae147ae14p+0`. -/
def double_1_005 : ℚ := 4526117625507348 / 2 ^ 52

/-- Class the header comment of the source asks of argument `i`. -/
def typeOk (i : Nat) (a : mxArray) : Bool :=
  if i = 0 ∨ i = 1 ∨ i = 4 ∨ i = 7 ∨ i = 8 then mxIsChar a else mxIsDouble a

/-- All ten arguments have the class asked of them. -/
def typesOk (inputs : Nat → mxArray) : Prop := ∀ i < 10, typeOk i (inputs i) = true

instance (inputs : Nat → mxArray) : Decidable (typesOk inputs) :=
  inferInstanceAs (Decidable (∀ i < 10, typeOk i (inputs i) = true))

/-- The type error the source raises for argument `i`. -/
def typeError : Nat → MexError
  | 0 => .prhsType "Input variable propReq expected to be of type CHAR."
  | 1 => .prhsType "Input variable spec expected to be of type CHAR."
  | 2 => .prhsType "Input variable value1 expected to be of type DOUBLE."
  | 3 => .prhsType "Input variable value2 expected to be of type DOUBLE."
  | 4 => .prhsType "Input variable substance (or mixture) expected to be of type CHAR."
  | 5 => .prhsType "Input variable MassOrMolar expected to be of type DOUBLE with values of 0 or 1."
  | 6 => .prhsType "Input variable Composition expected to be of type DOUBLE with values betwen 0 and 1."
  | 7 => .prhsType "Input variable DesiredUnits expected to be of type CHAR."
  | 8 => .prhsType "Input variable PathToRefPropDll expected to be of type CHAR."
  | _ => .prhsType "Input variable DebugOutput expected to be of type DOUBLE with values of 0 or 1."

/-- The ten positional arguments of a call, as the array `inputs`. -/
def args (propReq spec : List Char) (value1 value2 : List ℚ) (fluid : List Char)
    (massOrMolar composition : List ℚ) (desiredUnits path : List Char)
    (debugOutput : List ℚ) : Nat → mxArray
  | 0 => .char propReq
  | 1 => .char spec
  | 2 => .double value1
  | 3 => .double value2
  | 4 => .char fluid
  | 5 => .double massOrMolar
  | 6 => .double composition
  | 7 => .char desiredUnits
  | 8 => .char path
  | 9 => .double debugOutput
  | _ => .other

/-! ## Strings -/

/-- Size of `size_t` arithmetic: values wrap modulo `2^64`. -/
def SIZE_MOD : Nat := 2 ^ 64

/-- Constant `std::string::npos`. -/
def npos : Nat := SIZE_MOD - 1

/-- C `tolower` on one character (C locale): only `A`..`Z` change. -/
def tolower (c : Char) : Char :=
  if 65 ≤ c.toNat ∧ c.toNat ≤ 90 then Char.ofNat (c.toNat + 32) else c

/-- Operation `s.rfind(pat)`: the highest position at which `pat` occurs in
`s`, `npos` when there is none. -/
def rfind (s pat : List Char) : Nat :=
  match (List.range (s.length + 1)).reverse.find? (fun i => pat.isPrefixOf (s.drop i)) with
  | some i => i
  | none => npos

/-- Operation `s.find(pat, pos)`: the lowest position not below `pos` at which
`pat` occurs in `s`, `npos` when there is none. -/
def find (s pat : List Char) (pos : Nat) : Nat :=
  match (List.range (s.length + 1)).find? (fun i => decide (pos ≤ i) && pat.isPrefixOf (s.drop i)) with
  | some i => i
  | none => npos

/-- Operation `s.substr(pos, count)`: at most `count` characters from position
`pos`; throws (`none`) when `pos` lies beyond the end. -/
def substr (s : List Char) (pos count : Nat) : Option (List Char) :=
  if pos ≤ s.length then some ((s.drop pos).take count) else none

/-- Call `strncpy(dst, src, n)` into a buffer of `cap` characters: the string
found in `dst` afterwards. Not defined when the `n` characters written do not
fit the buffer, or when `src` has `n` or more characters so that no terminator
is written. -/
def strncpy (cap : Nat) (src : List Char) (n : Nat) : Option (List Char) :=
  if n ≤ cap ∧ src.length < n then some src else none

/-! ## The REFPROP library -/

/-- Arguments `REFPROPdll` reads. -/
structure RefpropIn where
  hFld : List Char
  hIn : List Char
  hOut : List Char
  iUnits : Int
  iMass : Int
  iFlag : Int
  a : ℚ
  b : ℚ
  z : List ℚ
  deriving DecidableEq, Repr

/-- Arguments `REFPROPdll` writes. `hOutput` stands for the 200 output values;
slot 0 is read as `hOutput.getD 0 0`. -/
structure RefpropOut where
  hOutput : List ℚ
  hUnits : List Char
  iUCode : Int
  x : List ℚ
  y : List ℚ
  x3 : List ℚ
  q : ℚ
  ierr : Int
  herr : List Char
  deriving DecidableEq, Repr

/-- The entry points of the library used by the gateway, as transitions of a
library state `σ`. -/
structure Refprop (σ : Type) where
  load_REFPROP : σ → List Char → List Char → Bool × σ
  SETPATHdll : σ → List Char → σ
  SETMIXTUREdll : σ → List Char → List ℚ → (List ℚ × Int) × σ
  SETFLUIDSdll : σ → List Char → Int × σ
  GETENUMdll : σ → Int → List Char → (Int × Int × List Char) × σ
  REFPROPdll : σ → RefpropIn → RefpropOut × σ
  unload_REFPROP : σ → Bool × σ

/-- What the gateway does that can be seen from outside: calls into the
library, with arguments and results, and text written to the console. -/
inductive Event where
  | load_REFPROP (path DLL_name : List Char) (loaded : Bool)
  | SETPATHdll (path : List Char)
  | SETMIXTUREdll (fluid : List Char) (z zOut : List ℚ) (ierr : Int)
  | SETFLUIDSdll (fluid : List Char) (ierr : Int)
  | GETENUMdll (iFlag : Int) (unit_char : List Char) (iUnits ierr : Int) (herr : List Char)
  | REFPROPdll (inp : RefpropIn) (out : RefpropOut)
  | unload_REFPROP (unloaded : Bool)
  | mexPrintf (text : String)
  | printf (text : String)
  | printfLoad (path DLL_name : List Char)
  | printfValue (row col : Nat) (ierr : Int) (herr fluid hIn : List Char) (a b : ℚ)
      (hOut : List Char) (value : ℚ) (hUnits : List Char)
  | printfFor (name : List Char)
  | printfLiquid (v : ℚ)
  | printfVapor (v : ℚ)
  | printf2ndLiquid (v : ℚ)
  deriving DecidableEq, Repr

/-- The matrix `outputs[0]`, stored column by column. -/
structure Matrix where
  m : Nat
  n : Nat
  data : List ℚ
  deriving DecidableEq, Repr

/-- How a call of `mexFunction` ends: it returns, and the host receives
`outputs[0]`; or it raises an error through `mexErrMsgIdAndTxt`, and the host
receives the error and no output; or it runs into undefined behaviour. -/
inductive Outcome where
  | returned (outputs0 : Matrix)
  | raised (e : MexError)
  | undefined
  deriving DecidableEq, Repr

/-- A finished call: what happened, in order, and how it ended. -/
structure Run where
  trace : List Event
  outcome : Outcome
  deriving DecidableEq, Repr

/-! ## `mexFunction` -/

/-- Text of a character argument, `mxArrayToString` (a null pointer, here the
empty text, for another class; not reached once `checkArguments` has passed). -/
def mxArrayToString : mxArray → List Char
  | .char text => text
  | _ => []

/-- Data of a double argument, `mxGetPr` (no data for another class). -/
def mxGetPr : mxArray → List ℚ
  | .double pr => pr
  | _ => []

/-- Product `mxGetM * mxGetN`: the number of elements of the array. -/
def mxGetMN : mxArray → Nat
  | .char text => text.length
  | .double pr => pr.length
  | .other => 0

/-- Element count `mxGetNumberOfElements`. -/
def mxGetNumberOfElements : mxArray → Nat
  | .char text => text.length
  | .double pr => pr.length
  | .other => 0

/-- The variables of `mexFunction` that stay fixed while the grid is walked. -/
structure Env where
  fluid : List Char
  unit_char : List Char
  value1 : List ℚ
  value2 : List ℚ
  numelVal1 : Nat
  numelVal2 : Nat
  iMass : Int
  DebugOut : Bool
  iUnits : Int
  mixFlag : Int
  z : List ℚ
  hIn : List Char
  hOut : List Char
  deriving DecidableEq, Repr

/-- The variables that change while the grid is walked. -/
structure Session (σ : Type) where
  lib : σ
  trace : List Event
  propReqOut : List ℚ
  hFld : List Char

/-- Lines 337–343 (403–409, 470–476): what one pass of the loop over the
composition prints. -/
def componentLines (name : List Char) (x y x3 : List ℚ) (itrcmp : Nat) : List Event :=
  [Event.printfFor name, .printfLiquid (x.getD itrcmp 0), .printfVapor (y.getD itrcmp 0)] ++
    (if x3.getD itrcmp 0 > literal_0_000000001 then [Event.printf2ndLiquid (x3.getD itrcmp 0)] else [])

/-- The `while` loop over the composition (lines 331–347, 397–413, 464–480),
entered with `itrcmp = 20 - fuel`. `none`: a read of `z` past its end, or
`substr` throwing. -/
def compositionLoop (parsed : List Char) (z x y x3 : List ℚ) :
    (fuel : Nat) → (itrcmp bgn : Nat) → Option (List Event)
  | 0, _, _ => some []
  | fuel + 1, itrcmp, bgn =>
    match z[itrcmp]? with
    | none => none
    | some zi =>
      if zi > literal_0_000000001 then
        let nnd := find parsed [';'] bgn
        match substr parsed bgn nnd with
        | none => none
        | some name =>
          match compositionLoop parsed z x y x3 fuel (itrcmp + 1) ((nnd + 1) % SIZE_MOD) with
          | none => none
          | some more => some (componentLines name x y x3 itrcmp ++ more)
      else some []

/-- The block `if (DebugOut == TRUE)` after an evaluation (lines 323–348,
389–414, 456–481). -/
def debugBlock (env : Env) (itr itc : Nat) (inp : RefpropIn) (out : RefpropOut) :
    Option (List Event) :=
  match compositionLoop env.fluid env.z out.x out.y out.x3 20 0 0 with
  | none => none
  | some lines =>
    some (Event.printfValue (itr + 1) (itc + 1) out.ierr out.herr env.fluid env.hIn inp.a inp.b
      env.hOut (out.hOutput.getD 0 0) out.hUnits :: lines)

/-- One evaluation: `b = value2[itc]`, the call of `REFPROPdll`, the test of
`ierr`, the store into `propReqOut[numelVal1 * itc + itr]`, the debug block.
`site` is the digit that opens the error message (1: first cell, lines
305–348; 2: rest of the first row, lines 362–414; 3: the other rows, lines
429–481). The `unload_REFPROP` and `return` written after `mexErrMsgIdAndTxt`
are not reached. -/
def evaluate {σ : Type} (R : Refprop σ) (env : Env) (site itr itc : Nat) (a : ℚ)
    (s : Session σ) : Except Run (Session σ) :=
  match env.value2[itc]? with
  | none => .error ⟨s.trace, .undefined⟩
  | some b =>
    let inp : RefpropIn :=
      ⟨s.hFld, env.hIn, env.hOut, env.iUnits, env.iMass, env.mixFlag, a, b, env.z⟩
    let res := R.REFPROPdll s.lib inp
    let trace := s.trace ++ [Event.REFPROPdll inp res.1]
    if res.1.ierr ≠ 0 then
      .error ⟨trace, .raised (.refpropFailed site env.unit_char res.1.ierr res.1.herr)⟩
    else if env.numelVal1 * itc + itr < s.propReqOut.length then
      let buf := s.propReqOut.set (env.numelVal1 * itc + itr) (res.1.hOutput.getD 0 0)
      if env.DebugOut then
        match debugBlock env itr itc inp res.1 with
        | none => .error ⟨trace, .undefined⟩
        | some lines => .ok ⟨res.2, trace ++ lines, buf, s.hFld⟩
      else .ok ⟨res.2, trace, buf, s.hFld⟩
    else .error ⟨trace, .undefined⟩

/-- A `for` loop over `itc` with `itr` and `a` fixed, given the values `itc`
takes in order. -/
def colLoop {σ : Type} (R : Refprop σ) (env : Env) (site itr : Nat) (a : ℚ) :
    List Nat → Session σ → Except Run (Session σ)
  | [], s => .ok s
  | itc :: rest, s =>
    match evaluate R env site itr itc a s with
    | .error r => .error r
    | .ok s1 => colLoop R env site itr a rest s1

/-- The `for` loop over `itr` (lines 420–483), given the values `itr` takes. -/
def rowLoop {σ : Type} (R : Refprop σ) (env : Env) :
    List Nat → Session σ → Except Run (Session σ)
  | [], s => .ok s
  | itr :: rest, s =>
    match env.value1[itr]? with
    | none => .error ⟨s.trace, .undefined⟩
    | some a =>
      match colLoop R env 3 itr a (List.range env.numelVal2) s with
      | .error r => .error r
      | .ok s1 => rowLoop R env rest s1

/-- Lines 305–496: the first cell, the blanking of `hFld`, the rest of the
first row, the other rows, the unloading of the library. -/
def grid {σ : Type} (R : Refprop σ) (env : Env) (s : Session σ) : Run :=
  match env.value1[0]? with
  | none => ⟨s.trace, .undefined⟩
  | some a =>
    match evaluate R env 1 0 0 a s with
    | .error r => r
    | .ok s1 =>
      match colLoop R env 2 0 a (List.range' 1 (env.numelVal2 - 1)) { s1 with hFld := [' '] } with
      | .error r => r
      | .ok s2 =>
        match rowLoop R env (List.range' 1 (env.numelVal1 - 1)) s2 with
        | .error r => r
        | .ok s3 =>
          let unloaded := (R.unload_REFPROP s3.lib).1
          ⟨s3.trace
            ++ (if env.DebugOut then [Event.printf "\n************************************\n"] else [])
            ++ [Event.unload_REFPROP unloaded]
            ++ (if unloaded then [] else [Event.printf "REFPROP failed to unload properly."]),
           .returned ⟨env.numelVal1, env.numelVal2, s3.propReqOut⟩⟩

/-- An array after a callee has written `written` over its leading entries;
the array keeps its extent. -/
def overwrite (array written : List ℚ) : List ℚ :=
  written.take array.length ++ array.drop written.length

/-- Result of lines 240–269: the mixture flag, the composition and the error
code after the fluid has been set. -/
structure FluidSet (σ : Type) where
  lib : σ
  events : List Event
  mixFlag : Int
  z : List ℚ
  ierr : Int

/-- Lines 240–269: classification of the fluid text and the call that sets
the fluid. -/
def setFluid {σ : Type} (R : Refprop σ) (lib : σ) (fluid : List Char) (z : List ℚ) :
    FluidSet σ :=
  let mix_string_search := fluid.map tolower
  let mixFound := rfind mix_string_search ['.', 'm', 'i', 'x']
  if mix_string_search.length > 4 ∧ (mixFound + 4) % SIZE_MOD = mix_string_search.length then
    let res := R.SETMIXTUREdll lib fluid z
    ⟨res.2, [Event.mexPrintf "Found Mixture from .MIX file\n",
        Event.SETMIXTUREdll fluid z res.1.1 res.1.2], 1, overwrite z res.1.1, res.1.2⟩
  else
    let mixFound := rfind mix_string_search [';']
    let res := R.SETFLUIDSdll lib fluid
    if mixFound < mix_string_search.length then
      ⟨res.2, [Event.mexPrintf "Found Mixture passed in as arguement\n",
        Event.SETFLUIDSdll fluid res.1], 1, z, res.1⟩
    else
      ⟨res.2, [Event.SETFLUIDSdll fluid res.1], 0, z, res.1⟩

/-- Name of the library file, `DLL_name`. -/
def DLL_name : List Char := "REFPRP64.DLL".toList

/-- The local variables of `mexFunction` filled from the arguments (lines
160–178). -/
structure Arguments where
  propReq : List Char
  specSum : List Char
  value1 : List ℚ
  value2 : List ℚ
  fluid : List Char
  iMass : Int
  z : List ℚ
  unit_char : List Char
  path : List Char
  DebugOut : Bool
  propReq_len : Nat
  spec_len : Nat
  numelVal1 : Nat
  numelVal2 : Nat
  fluid_len : Nat
  deriving DecidableEq, Repr

/-- Lines 183–498 of `mexFunction`: the result matrix is created, the library
loaded, the fluid and the units set, the grid walked. -/
def gridEvaluator {σ : Type} (R : Refprop σ) (lib : σ) (v : Arguments) : Run :=
  let outputs0 : Matrix :=
    ⟨v.numelVal1, v.numelVal2, List.replicate (v.numelVal1 * v.numelVal2) 0⟩
  let loaded := R.load_REFPROP lib v.path DLL_name
  let t1 := [Event.load_REFPROP v.path DLL_name loaded.1]
  if !loaded.1 then
    ⟨t1 ++ [Event.printfLoad v.path DLL_name], .returned outputs0⟩
  else
    let lib2 := R.SETPATHdll loaded.2 v.path
    let t2 := t1 ++ [Event.SETPATHdll v.path]
    let fs := setFluid R lib2 v.fluid v.z
    let t3 := t2 ++ fs.events
    if fs.ierr ≠ 0 then
      ⟨t3, .raised (.fluidFailed v.fluid fs.ierr)⟩
    else
      let en := R.GETENUMdll fs.lib 0 v.unit_char
      let t4 := t3 ++ [Event.GETENUMdll 0 v.unit_char en.1.1 en.1.2.1 en.1.2.2]
      if en.1.2.1 ≠ 0 then
        ⟨t4, .raised (.enumFailed v.unit_char en.1.2.1 en.1.2.2)⟩
      else
        match strncpy 255 v.fluid v.fluid_len, strncpy 255 v.specSum v.spec_len,
            strncpy 255 v.propReq v.propReq_len with
        | some hFld, some hIn, some hOut =>
          grid R
            ⟨v.fluid, v.unit_char, v.value1, v.value2, v.numelVal1, v.numelVal2, v.iMass,
              v.DebugOut, en.1.1, fs.mixFlag, fs.z, hIn, hOut⟩
            ⟨en.2, t4, outputs0.data, hFld⟩
        | _, _, _ => ⟨t4, .undefined⟩

/-- Lines 160–178: the arguments as local variables, read after
`checkArguments` has passed. -/
def unpack (inputs : Nat → mxArray) : Option Arguments :=
  match (mxGetScalar (inputs 5)).bind toInt, mxGetScalar (inputs 9) with
  | some iMass, some debugDouble =>
    some
      { propReq := mxArrayToString (inputs 0)
        specSum := mxArrayToString (inputs 1)
        value1 := mxGetPr (inputs 2)
        value2 := mxGetPr (inputs 3)
        fluid := mxArrayToString (inputs 4)
        iMass := iMass
        z := mxGetPr (inputs 6)
        unit_char := mxArrayToString (inputs 7)
        path := mxArrayToString (inputs 8)
        DebugOut := decide (debugDouble ≠ 0)
        propReq_len := mxGetMN (inputs 0) + 1
        spec_len := mxGetMN (inputs 1) + 1
        numelVal1 := mxGetNumberOfElements (inputs 2)
        numelVal2 := mxGetNumberOfElements (inputs 3)
        fluid_len := mxGetMN (inputs 4) + 1 }
  | _, _ => none

/-- Function `mexFunction` (lines 150–499), run against the library `R` in
state `lib`. -/
def mexFunction {σ : Type} (R : Refprop σ) (lib : σ) (numOutArg numInArg : Int)
    (inputs : Nat → mxArray) : Run :=
  match checkArguments numOutArg numInArg inputs with
  | .raise e => ⟨[], .raised e⟩
  | .undefined => ⟨[], .undefined⟩
  | .pass =>
    match unpack inputs with
    | some v => gridEvaluator R lib v
    | none => ⟨[], .undefined⟩

/-! ### Vocabulary for statements about `mexFunction` -/

/-- The evaluation calls of a trace, in order. -/
def refpropCalls : List Event → List (RefpropIn × RefpropOut)
  | [] => []
  | .REFPROPdll inp out :: t => (inp, out) :: refpropCalls t
  | _ :: t => refpropCalls t

/-- The unload calls of a trace. -/
def unloadCalls : List Event → Nat
  | [] => 0
  | .unload_REFPROP _ :: t => unloadCalls t + 1
  | _ :: t => unloadCalls t

/-- A library call that reported failure: a load that did not succeed or a
non-zero `ierr`. -/
def Event.failed : Event → Bool
  | .load_REFPROP _ _ loaded => !loaded
  | .SETMIXTUREdll _ _ _ ierr => ierr != 0
  | .SETFLUIDSdll _ ierr => ierr != 0
  | .GETENUMdll _ _ _ ierr _ => ierr != 0
  | .REFPROPdll _ out => out.ierr != 0
  | _ => false


/-- The scenario of the specification (density of water at 300 K and
101325 Pa, SI units), with the `MassOrMolar` and `DebugOutput` arrays left
open. -/
def waterCall (massOrMolar debugOutput : List ℚ) : Nat → mxArray :=
  args "D".toList "TP".toList [300] [101325] "WATER".toList massOrMolar [1] "SI".toList
    "refprop".toList debugOutput

/-- The call `waterCall [2] [3 / 2]` with `value2` and `MassOrMolar` passed as
text instead of numbers. -/
def wrongTypeCall : Nat → mxArray
  | 3 => .char "101325".toList
  | 5 => .char "2".toList
  | i => waterCall [2] [3 / 2] i

/-- Console output. -/
def Event.isPrint : Event → Bool
  | .mexPrintf _ => true
  | .printf _ => true
  | .printfLoad _ _ => true
  | .printfValue _ _ _ _ _ _ _ _ _ _ _ => true
  | .printfFor _ => true
  | .printfLiquid _ => true
  | .printfVapor _ => true
  | .printf2ndLiquid _ => true
  | _ => false

/-- The arguments handed to `REFPROPdll` for given `hFld`, `a` and `b`. -/
def callIn (env : Env) (hFld : List Char) (a b : ℚ) : RefpropIn :=
  ⟨hFld, env.hIn, env.hOut, env.iUnits, env.iMass, env.mixFlag, a, b, env.z⟩

/-- A buffer after a sequence of stores `buf[i] = v`. -/
def stores (buf : List ℚ) : List (Nat × ℚ) → List ℚ
  | [] => buf
  | (i, v) :: rest => stores (buf.set i v) rest

/-- The trace at the end of a piece of the walk, finished or not. -/
def resultTrace {σ : Type} : Except Run (Session σ) → List Event
  | .ok s => s.trace
  | .error r => r.trace

/-- What a piece of the walk over the grid has done, started in `s` and meant
to visit `cells` (for each cell the arguments of its evaluation and the index
of its slot in the result buffer): the evaluations made are those of a leading
part of `cells`, in order; nothing is unloaded; a finished piece has evaluated
every cell with success and stored every first output value; an unfinished one
has stopped at the first evaluation with a non-zero `ierr`, or in undefined
behaviour after successful evaluations only. -/
def Summary {σ : Type} (env : Env) (s : Session σ) (cells : List (RefpropIn × Nat))
    (res : Except Run (Session σ)) : Prop :=
  ∃ L : List (RefpropIn × RefpropOut),
    refpropCalls (resultTrace res) = refpropCalls s.trace ++ L ∧
    unloadCalls (resultTrace res) = unloadCalls s.trace ∧
    L.map Prod.fst <+: cells.map Prod.fst ∧
    match res with
    | .ok s1 =>
      L.length = cells.length ∧ (∀ io ∈ L, io.2.ierr = 0) ∧
      (∀ c ∈ cells, c.2 < s.propReqOut.length) ∧
      s1.propReqOut =
        stores s.propReqOut ((cells.map Prod.snd).zip (L.map fun io => io.2.hOutput.getD 0 0))
    | .error r =>
      match r.outcome with
      | .undefined => ∀ io ∈ L, io.2.ierr = 0
      | .raised e =>
        ∃ L0 io site, L = L0 ++ [io] ∧ (∀ x ∈ L0, x.2.ierr = 0) ∧ io.2.ierr ≠ 0 ∧
          e = .refpropFailed site env.unit_char io.2.ierr io.2.herr
      | .returned _ => False

/-- The cells of the grid in the order in which `grid` visits them: the first
cell, evaluated with `hFld`, the rest of the first row and then the other
rows, evaluated with the blank `hFld`. -/
def gridCells (env : Env) (hFld : List Char) : List (RefpropIn × Nat) :=
  [(callIn env hFld (env.value1.getD 0 0) (env.value2.getD 0 0), env.numelVal1 * 0 + 0)] ++
    ((List.range' 1 (env.numelVal2 - 1)).map fun c =>
      (callIn env [' '] (env.value1.getD 0 0) (env.value2.getD c 0), env.numelVal1 * c + 0)) ++
    ((List.range' 1 (env.numelVal1 - 1)).flatMap fun r =>
      (List.range env.numelVal2).map fun c =>
        (callIn env [' '] (env.value1.getD r 0) (env.value2.getD c 0), env.numelVal1 * c + r))

/-- What a walk over the whole grid, started in `s`, has done when it hands
control back: as `Summary`, and the library is unloaded, once, exactly when
the walk returns the matrix. -/
def GridSummary {σ : Type} (env : Env) (s : Session σ) (run : Run) : Prop :=
  ∃ L : List (RefpropIn × RefpropOut),
    refpropCalls run.trace = refpropCalls s.trace ++ L ∧
    L.map Prod.fst <+: (gridCells env s.hFld).map Prod.fst ∧
    match run.outcome with
    | .returned mat =>
      L.length = (gridCells env s.hFld).length ∧ (∀ io ∈ L, io.2.ierr = 0) ∧
      (∀ c ∈ gridCells env s.hFld, c.2 < s.propReqOut.length) ∧
      unloadCalls run.trace = unloadCalls s.trace + 1 ∧
      mat = ⟨env.numelVal1, env.numelVal2,
        stores s.propReqOut (((gridCells env s.hFld).map Prod.snd).zip
          (L.map fun io => io.2.hOutput.getD 0 0))⟩
    | .undefined => (∀ io ∈ L, io.2.ierr = 0) ∧ unloadCalls run.trace = unloadCalls s.trace
    | .raised e =>
      (∃ L0 io site, L = L0 ++ [io] ∧ (∀ x ∈ L0, x.2.ierr = 0) ∧ io.2.ierr ≠ 0 ∧
        e = .refpropFailed site env.unit_char io.2.ierr io.2.herr) ∧
      unloadCalls run.trace = unloadCalls s.trace

/-- The fluid as set by `gridEvaluator` (after the loading of the library and
`SETPATHdll`). -/
def setupFluid {σ : Type} (R : Refprop σ) (lib : σ) (v : Arguments) : FluidSet σ :=
  setFluid R (R.SETPATHdll (R.load_REFPROP lib v.path DLL_name).2 v.path) v.fluid v.z

/-- The answer of `GETENUMdll` in `gridEvaluator`. -/
def setupEnum {σ : Type} (R : Refprop σ) (lib : σ) (v : Arguments) :
    (Int × Int × List Char) × σ :=
  R.GETENUMdll (setupFluid R lib v).lib 0 v.unit_char

/-- The trace of `gridEvaluator` when the walk over the grid begins. -/
def setupTrace {σ : Type} (R : Refprop σ) (lib : σ) (v : Arguments) : List Event :=
  [Event.load_REFPROP v.path DLL_name (R.load_REFPROP lib v.path DLL_name).1] ++
    [Event.SETPATHdll v.path] ++ (setupFluid R lib v).events ++
    [Event.GETENUMdll 0 v.unit_char (setupEnum R lib v).1.1 (setupEnum R lib v).1.2.1
      (setupEnum R lib v).1.2.2]

/-- The fixed variables with which `gridEvaluator` walks the grid. -/
def gridEnv {σ : Type} (R : Refprop σ) (lib : σ) (v : Arguments) : Env :=
  ⟨v.fluid, v.unit_char, v.value1, v.value2, v.numelVal1, v.numelVal2, v.iMass, v.DebugOut,
    (setupEnum R lib v).1.1, (setupFluid R lib v).mixFlag, (setupFluid R lib v).z, v.specSum,
    v.propReq⟩

/-- The changing variables with which `gridEvaluator` begins the walk. -/
def gridSession {σ : Type} (R : Refprop σ) (lib : σ) (v : Arguments) : Session σ :=
  ⟨(setupEnum R lib v).2, setupTrace R lib v,
    List.replicate (v.numelVal1 * v.numelVal2) 0, v.fluid⟩

/-- The local variables `v` are those `mexFunction` fills from `inputs`, each
text and array with its own length. -/
structure Unpacked (inputs : Nat → mxArray) (v : Arguments) : Prop where
  propReq : v.propReq = mxArrayToString (inputs 0)
  specSum : v.specSum = mxArrayToString (inputs 1)
  value1 : v.value1 = mxGetPr (inputs 2)
  value2 : v.value2 = mxGetPr (inputs 3)
  fluid : v.fluid = mxArrayToString (inputs 4)
  iMass : (mxGetScalar (inputs 5)).bind toInt = some v.iMass
  z : v.z = mxGetPr (inputs 6)
  unit_char : v.unit_char = mxArrayToString (inputs 7)
  path : v.path = mxArrayToString (inputs 8)
  DebugOut : ∃ d, mxGetScalar (inputs 9) = some d ∧ v.DebugOut = decide (d ≠ 0)
  propReq_len : v.propReq_len = v.propReq.length + 1
  spec_len : v.spec_len = v.specSum.length + 1
  numelVal1 : v.numelVal1 = v.value1.length
  numelVal2 : v.numelVal2 = v.value2.length
  fluid_len : v.fluid_len = v.fluid.length + 1

/-- A stand-in for the library, for examples: every call succeeds, except that
the evaluation number `failAt` (counted from 0), if any, reports error 1. The
state counts the evaluations; the first output value is `a`, the second `b`. -/
def sampleLib (failAt : Option Nat) : Refprop Nat where
  load_REFPROP := fun n _ _ => (true, n)
  SETPATHdll := fun n _ => n
  SETMIXTUREdll := fun n _ z => ((z, 0), n)
  SETFLUIDSdll := fun n _ => (0, n)
  GETENUMdll := fun n _ _ => ((0, 0, []), n)
  REFPROPdll := fun n inp =>
    (⟨[inp.a, inp.b], [], 0, [1], [1], [0], 1, if failAt = some n then 1 else 0, []⟩, n + 1)
  unload_REFPROP := fun n => (true, n)

/-- The stand-in library with given error codes for the setting of the fluid
and for the look-up of the units. -/
def faultyLib (fluidErr enumErr : Int) : Refprop Nat :=
  { sampleLib none with
    SETMIXTUREdll := fun n _ z => ((z, fluidErr), n)
    SETFLUIDSdll := fun n _ => (fluidErr, n)
    GETENUMdll := fun n _ _ => ((0, enumErr, []), n) }

/-- The scenario of the specification on a grid: water, SI units, molar basis,
no debug output, with `value1` and `value2` left open. -/
def waterGrid (value1 value2 : List ℚ) : Nat → mxArray :=
  args "D".toList "TP".toList value1 value2 "WATER".toList [0] [1] "SI".toList
    "refprop".toList [0]

/-- The local variables of `mexFunction` for `waterGrid value1 value2`. -/
def waterArguments (value1 value2 : List ℚ) : Arguments :=
  { propReq := "D".toList, specSum := "TP".toList, value1 := value1, value2 := value2,
    fluid := "WATER".toList, iMass := 0, z := [1], unit_char := "SI".toList,
    path := "refprop".toList, DebugOut := false, propReq_len := 2, spec_len := 3,
    numelVal1 := value1.length, numelVal2 := value2.length, fluid_len := 6 }

/-- A call inside the domain of the gateway: accepted by `checkArguments`, with
at least one value in `value1` and in `value2`, with texts that fit the
255-character buffers `hOut`, `hIn` and `hFld`, and with debug output off or a
composition array of the full 20 entries. -/
structure ValidCall (numOutArg numInArg : Int) (inputs : Nat → mxArray) : Prop where
  check : checkArguments numOutArg numInArg inputs = .pass
  rows : 1 ≤ (mxGetPr (inputs 2)).length
  cols : 1 ≤ (mxGetPr (inputs 3)).length
  propReq : (mxArrayToString (inputs 0)).length < 255
  specSum : (mxArrayToString (inputs 1)).length < 255
  fluid : (mxArrayToString (inputs 4)).length < 255
  debug : mxGetScalar (inputs 9) = some 0 ∨ 20 ≤ (mxGetPr (inputs 6)).length

/-- The stand-in library when the library file cannot be loaded. -/
def noLoadLib : Refprop Nat :=
  { sampleLib none with load_REFPROP := fun n _ _ => (false, n) }

/-- A call on the 1-by-1 grid (300, 101325) with the fluid text, the
composition and the debug flag left open. -/
def plainCall (fluid : List Char) (composition : List ℚ) (debugOutput : ℚ) : Nat → mxArray :=
  args "D".toList "TP".toList [300] [101325] fluid [0] composition "SI".toList
    "refprop".toList [debugOutput]

/-- The local variables of `mexFunction` for `plainCall fluid composition d`,
with `DebugOut` the truth value of `d`. -/
def plainArguments (fluid : List Char) (composition : List ℚ) (DebugOut : Bool) : Arguments :=
  { propReq := "D".toList, specSum := "TP".toList, value1 := [300], value2 := [101325],
    fluid := fluid, iMass := 0, z := composition, unit_char := "SI".toList,
    path := "refprop".toList, DebugOut := DebugOut, propReq_len := 2, spec_len := 3,
    numelVal1 := 1, numelVal2 := 1, fluid_len := fluid.length + 1 }

/-- A composition of three components in an array of the full 20 entries. -/
def threeComponents : List ℚ := [1 / 2, 3 / 10, 1 / 5] ++ List.replicate 17 0

/-- The names printed after `For:` in a trace, in order. -/
def forLabels : List Event → List (List Char)
  | [] => []
  | .printfFor name :: t => name :: forLabels t
  | _ :: t => forLabels t

/-- The indices at which the loop over the composition (lines 332–333) reads
`z`, in order, entered with `itrcmp = 20 - fuel`; the list ends with the first
read past the end of `z`, if there is one. -/
def compositionReads (z : List ℚ) : (fuel itrcmp : Nat) → List Nat
  | 0, _ => []
  | fuel + 1, itrcmp =>
    itrcmp ::
      (match z[itrcmp]? with
       | none => []
       | some zi => if zi > literal_0_000000001 then compositionReads z fuel (itrcmp + 1) else [])

/-- The index `(numelVal1 * itc) + itr` of lines 321, 384 and 451. -/
def flatIndex (numelVal1 itr itc : Nat) : Nat := numelVal1 * itc + itr

/-! ## Properties of the binary64 rounding -/

theorem roundHalfEven_sub_le (q : ℚ) : |(roundHalfEven q : ℚ) - q| ≤ 1 / 2 := by
  have h1 := Int.floor_le q
  have h2 := Int.lt_floor_add_one q
  unfold roundHalfEven
  rw [abs_le]
  split_ifs with ha hb
  · constructor <;> linarith
  · push_cast; constructor <;> linarith
  · constructor <;> linarith
  · push_cast; constructor <;> linarith

/-- Rounding exceeds an even integer `m` exactly when the argument exceeds
`m + 1/2`. -/
theorem roundHalfEven_gt_iff (q : ℚ) (m : Int) (hm : m % 2 = 0) :
    m < roundHalfEven q ↔ (m : ℚ) + 1 / 2 < q := by
  have h1 := Int.floor_le q
  have h2 := Int.lt_floor_add_one q
  rcases lt_trichotomy ⌊q⌋ m with hlt | heq | hgt
  · have hle : ⌊q⌋ + 1 ≤ m := hlt
    have hle' : ((⌊q⌋ : ℚ) + 1) ≤ (m : ℚ) := by exact_mod_cast hle
    have hr : roundHalfEven q ≤ m := by
      unfold roundHalfEven
      split_ifs <;> omega
    constructor
    · intro h; omega
    · intro h; linarith
  · unfold roundHalfEven
    rw [heq]
    split_ifs with ha hb
    · constructor
      · intro h; omega
      · intro h; linarith
    · constructor
      · intro _; linarith
      · intro _; omega
    · constructor
      · intro h; omega
      · intro h; linarith
  · have hle : m + 1 ≤ ⌊q⌋ := hgt
    have hle' : ((m : ℚ) + 1) ≤ (⌊q⌋ : ℚ) := by exact_mod_cast hle
    have hr : m < roundHalfEven q := by
      unfold roundHalfEven
      split_ifs <;> omega
    constructor
    · intro _; linarith
    · intro _; exact hr

theorem ulp_pos (x : ℚ) : (0 : ℚ) < 2 ^ ulpExponent x := by positivity

theorem roundDouble_sub_le (x : ℚ) :
    |roundDouble x - x| ≤ 2 ^ ulpExponent x / 2 := by
  have hu := ulp_pos x
  have h := roundHalfEven_sub_le (x / 2 ^ ulpExponent x)
  have hx : x = x / 2 ^ ulpExponent x * 2 ^ ulpExponent x := by
    field_simp
  unfold roundDouble
  have e : (roundHalfEven (x / 2 ^ ulpExponent x) : ℚ) * 2 ^ ulpExponent x - x =
      ((roundHalfEven (x / 2 ^ ulpExponent x) : ℚ) - x / 2 ^ ulpExponent x) *
        2 ^ ulpExponent x := by
    rw [sub_mul, ← hx]
  rw [e, abs_mul, abs_of_pos hu]
  calc |(roundHalfEven (x / 2 ^ ulpExponent x) : ℚ) - x / 2 ^ ulpExponent x| * 2 ^ ulpExponent x
      ≤ 1 / 2 * 2 ^ ulpExponent x := mul_le_mul_of_nonneg_right h hu.le
    _ = 2 ^ ulpExponent x / 2 := by ring

/-- Below 2^32 in magnitude the spacing is at most 2^-21. -/
theorem ulpExponent_le {x : ℚ} (h : |x| < 4294967296) : ulpExponent x ≤ -21 := by
  unfold ulpExponent
  have hl : Int.log 2 |x| ≤ 31 := by
    rcases eq_or_lt_of_le (abs_nonneg x) with h0 | hpos
    · rw [← h0, Int.log_zero_right]; norm_num
    · have : Int.log 2 |x| < 32 := by
        rw [← Int.lt_zpow_iff_log_lt (by norm_num) hpos]
        norm_num
        exact h
      omega
  omega

theorem roundDouble_near {x : ℚ} (h : |x| < 4294967296) :
    |roundDouble x - x| ≤ 1 / 4194304 := by
  have h1 := roundDouble_sub_le x
  have h2 : (2 : ℚ) ^ ulpExponent x ≤ 2 ^ (-21 : Int) :=
    zpow_le_zpow_right₀ (by norm_num) (ulpExponent_le h)
  have h3 : (2 : ℚ) ^ (-21 : Int) = 1 / 2097152 := by norm_num [zpow_neg]
  rw [h3] at h2
  linarith

theorem log_eq_of_bounds {x : ℚ} {k : Int} (hlo : (2 : ℚ) ^ k ≤ x) (hhi : x < 2 ^ (k + 1)) :
    Int.log 2 |x| = k := by
  have hpos : 0 < x := lt_of_lt_of_le (by positivity) hlo
  rw [abs_of_pos hpos]
  have h1 : k ≤ Int.log 2 x := by
    rw [← Int.zpow_le_iff_le_log (by norm_num) hpos]
    exact_mod_cast hlo
  have h2 : Int.log 2 x < k + 1 := by
    rw [← Int.lt_zpow_iff_log_lt (by norm_num) hpos]
    exact_mod_cast hhi
  omega

theorem ulpExponent_ge (x : ℚ) : -1074 ≤ ulpExponent x := by
  unfold ulpExponent
  omega

/-- The spacing at `x` is the subnormal one, or at most `x / 2^52`. -/
theorem ulp_cases {x : ℚ} (hpos : 0 < x) :
    ulpExponent x = -1074 ∨ (2 : ℚ) ^ ulpExponent x ≤ x / 4503599627370496 := by
  by_cases hL : Int.log 2 |x| ≤ -1022
  · left
    unfold ulpExponent
    omega
  · right
    have he : ulpExponent x = Int.log 2 |x| + (-52) := by
      unfold ulpExponent
      omega
    have hz := Int.zpow_log_le_self (R := ℚ) (b := 2) (by norm_num) hpos
    rw [he, zpow_add₀ (by norm_num), abs_of_pos hpos]
    have h52 : (2 : ℚ) ^ (-52 : Int) = 1 / 4503599627370496 := by norm_num [zpow_neg]
    rw [h52]
    have hz' : (2 : ℚ) ^ Int.log 2 x ≤ x := by exact_mod_cast hz
    have : (2 : ℚ) ^ Int.log 2 x * (1 / 4503599627370496) ≤ x * (1 / 4503599627370496) :=
      mul_le_mul_of_nonneg_right hz' (by norm_num)
    linarith

theorem roundDouble_pos_iff_round (x : ℚ) :
    0 < roundDouble x ↔ 0 < roundHalfEven (x / 2 ^ ulpExponent x) := by
  have hu := ulp_pos x
  unfold roundDouble
  constructor
  · intro h
    have h2 : (0 : ℚ) < (roundHalfEven (x / 2 ^ ulpExponent x) : ℚ) :=
      pos_of_mul_pos_left h hu.le
    exact_mod_cast h2
  · intro h
    have h2 : (0 : ℚ) < (roundHalfEven (x / 2 ^ ulpExponent x) : ℚ) := by exact_mod_cast h
    exact mul_pos h2 hu

/-- The rounded value is positive exactly when the exact one exceeds half the
least positive binary64 value, 2^-1075. -/
theorem roundDouble_pos_iff (x : ℚ) : 0 < roundDouble x ↔ 1 / 2 ^ 1075 < x := by
  have hu := ulp_pos x
  rw [roundDouble_pos_iff_round, roundHalfEven_gt_iff _ 0 (by norm_num)]
  have hmin : (2 : ℚ) ^ (-1074 : Int) ≤ 2 ^ ulpExponent x :=
    zpow_le_zpow_right₀ (by norm_num) (ulpExponent_ge x)
  have h1074 : (2 : ℚ) ^ (-1074 : Int) = 2 * (1 / 2 ^ 1075) := by
    rw [zpow_neg]
    norm_num
  have hq : ((0 : Int) : ℚ) + 1 / 2 < x / 2 ^ ulpExponent x ↔ 2 ^ ulpExponent x / 2 < x := by
    rw [lt_div_iff₀ hu]
    push_cast
    constructor <;> intro h <;> linarith
  rw [hq]
  constructor
  · intro h
    rw [h1074] at hmin
    linarith
  · intro h
    have hpos : 0 < x := lt_trans (by positivity) h
    rcases ulp_cases hpos with he | hle
    · rw [he, h1074]
      linarith
    · linarith

theorem roundDouble_eq_of_bounds {x : ℚ} {k : Int} (hlo : (2 : ℚ) ^ k ≤ x)
    (hhi : x < 2 ^ (k + 1)) (hk : -1022 ≤ k) :
    roundDouble x = (roundHalfEven (x / 2 ^ (k - 52)) : ℚ) * 2 ^ (k - 52) := by
  have he : ulpExponent x = k - 52 := by
    unfold ulpExponent
    rw [log_eq_of_bounds hlo hhi]
    omega
  unfold roundDouble
  rw [he]

/-- Below 2^32 in magnitude, the rounded value exceeds 1 exactly when the
exact one exceeds 1 + 2^-53, the midpoint of 1 and the next binary64 value. -/
theorem roundDouble_gt_one_iff {x : ℚ} (h : |x| < 4294967296) :
    1 < roundDouble x ↔ 1 + 1 / 2 ^ 53 < x := by
  have hnear := abs_le.mp (roundDouble_near h)
  by_cases h2 : 2 ≤ x
  · constructor
    · intro _
      have : (1 : ℚ) / 2 ^ 53 < 1 := by norm_num
      linarith
    · intro _
      linarith [hnear.1]
  by_cases h1 : 1 ≤ x
  · have hr := roundDouble_eq_of_bounds (x := x) (k := 0) (by simpa using h1)
      (by norm_num; linarith) (by norm_num)
    rw [hr]
    have h52 : (2 : ℚ) ^ ((0 : Int) - 52) = 1 / 4503599627370496 := by norm_num [zpow_neg]
    rw [h52]
    have hg := roundHalfEven_gt_iff (x / (1 / 4503599627370496)) 4503599627370496 (by norm_num)
    constructor
    · intro hlt
      have h3 : ((4503599627370496 : Int) : ℚ) <
          (roundHalfEven (x / (1 / 4503599627370496)) : ℚ) := by
        push_cast
        linarith
      have h4 := hg.mp (by exact_mod_cast h3)
      rw [div_div_eq_mul_div, div_one] at h4
      push_cast at h4
      norm_num
      linarith
    · intro hlt
      have h4 : (4503599627370496 : Int) < roundHalfEven (x / (1 / 4503599627370496)) := by
        rw [hg, div_div_eq_mul_div, div_one]
        push_cast
        norm_num at hlt
        linarith
      have h5 : ((4503599627370496 : Int) : ℚ) <
          (roundHalfEven (x / (1 / 4503599627370496)) : ℚ) := by exact_mod_cast h4
      push_cast at h5
      linarith
  by_cases h12 : 1 / 2 ≤ x
  · have hr := roundDouble_eq_of_bounds (x := x) (k := -1) (by norm_num [zpow_neg]; linarith)
      (by norm_num; linarith) (by norm_num)
    rw [hr]
    have h53 : (2 : ℚ) ^ ((-1 : Int) - 52) = 1 / 9007199254740992 := by norm_num [zpow_neg]
    rw [h53]
    have hg := roundHalfEven_gt_iff (x / (1 / 9007199254740992)) 9007199254740992 (by norm_num)
    constructor
    · intro hlt
      have h3 : ((9007199254740992 : Int) : ℚ) <
          (roundHalfEven (x / (1 / 9007199254740992)) : ℚ) := by
        push_cast
        linarith
      have h4 := hg.mp (by exact_mod_cast h3)
      rw [div_div_eq_mul_div, div_one] at h4
      push_cast at h4
      linarith
    · intro hlt
      have : (0 : ℚ) < 1 / 2 ^ 53 := by norm_num
      linarith
  · constructor
    · intro hlt
      have : (1 : ℚ) / 4194304 < 1 / 2 := by norm_num
      linarith [hnear.2]
    · intro hlt
      have : (0 : ℚ) < 1 / 2 ^ 53 := by norm_num
      linarith

/-! ## Properties of `checkArguments` -/

/-! ## Properties of `checkArguments` -/

theorem toInt_of_nonneg {d : ℚ} (h0 : 0 ≤ d) (h1 : d < 2147483648) : toInt d = some ⌊d⌋ := by
  have hf0 : (0 : Int) ≤ ⌊d⌋ := Int.floor_nonneg.mpr h0
  have hf1 : ⌊d⌋ < 2147483648 := by
    have : ⌊d⌋ < ((2147483648 : Int) : ℚ) := lt_of_le_of_lt (Int.floor_le d) (by exact_mod_cast h1)
    exact_mod_cast this
  unfold toInt
  simp only [h0, if_true]
  rw [if_pos]
  constructor <;> omega

theorem toInt_intCast {n : Int} (h0 : -2147483648 ≤ n) (h1 : n ≤ 2147483647) :
    toInt (n : ℚ) = some n := by
  unfold toInt
  simp only [Int.floor_intCast, Int.ceil_intCast, ite_self]
  rw [if_pos ⟨h0, h1⟩]

theorem checkArguments_of_typesOk {inputs : Nat → mxArray} (h : typesOk inputs) :
    checkArguments 1 10 inputs =
      (match checkMassOrMolar (inputs 5) with
       | .pass => checkDebugOutput (inputs 9)
       | r => r) := by
  have h0 := h 0 (by norm_num)
  have h1 := h 1 (by norm_num)
  have h2 := h 2 (by norm_num)
  have h3 := h 3 (by norm_num)
  have h4 := h 4 (by norm_num)
  have h5 := h 5 (by norm_num)
  have h6 := h 6 (by norm_num)
  have h7 := h 7 (by norm_num)
  have h8 := h 8 (by norm_num)
  have h9 := h 9 (by norm_num)
  simp [typeOk] at h0 h1 h2 h3 h4 h5 h6 h7 h8 h9
  simp [checkArguments, expectedOut, expectedIn, h0, h1, h2, h3, h4, h5, h6, h7, h8, h9]

theorem typesOk_args (propReq spec : List Char) (value1 value2 : List ℚ) (fluid : List Char)
    (massOrMolar composition : List ℚ) (desiredUnits path : List Char) (debugOutput : List ℚ) :
    typesOk (args propReq spec value1 value2 fluid massOrMolar composition desiredUnits path
      debugOutput) := by
  intro i hi
  interval_cases i <;> rfl

/-- The literal `0.01` lies above 1/100, by less than 2^-60. -/
theorem literal_0_01_bounds :
    1 / 100 < literal_0_01 ∧ literal_0_01 < 1 / 100 + 1 / 2 ^ 60 := by
  unfold literal_0_01
  constructor <;> norm_num

theorem toInt_of_neg {d : ℚ} (h0 : d < 0) (h1 : -2147483649 < d) : toInt d = some ⌈d⌉ := by
  have hc0 : ⌈d⌉ ≤ 0 := Int.ceil_le.mpr (by exact_mod_cast h0.le)
  have hc1 : -2147483649 < ⌈d⌉ := by
    have : ((-2147483649 : Int) : ℚ) < ⌈d⌉ :=
      lt_of_lt_of_le (by exact_mod_cast h1) (Int.le_ceil d)
    exact_mod_cast this
  unfold toInt
  simp only [not_le.mpr h0, if_false]
  rw [if_pos]
  constructor <;> omega

/-- What a defined conversion `int(d)` says about `d`. -/
theorem toInt_some {d : ℚ} {n : Int} (h : toInt d = some n) :
    -2147483648 ≤ n ∧ n ≤ 2147483647 ∧ (n : ℚ) - 1 < d ∧ d < n + 1 ∧
      (0 ≤ d → (n : ℚ) ≤ d) ∧ (d < 0 → d ≤ n) := by
  unfold toInt at h
  by_cases h0 : 0 ≤ d
  · simp only [h0, if_true] at h
    split at h
    · rename_i hr
      injection h with h
      subst h
      have h1 := Int.floor_le d
      have h2 := Int.lt_floor_add_one d
      exact ⟨hr.1, hr.2, by linarith, by linarith, fun _ => h1,
        fun hn => absurd h0 (not_le.mpr hn)⟩
    · cases h
  · simp only [h0, if_false] at h
    split at h
    · rename_i hr
      injection h with h
      subst h
      have h1 := Int.le_ceil d
      have h2 := Int.ceil_lt_add_one d
      exact ⟨hr.1, hr.2, by linarith, by linarith, fun hn => absurd hn h0, fun _ => h1⟩
    · cases h

theorem toInt_eq_zero {d : ℚ} (h0 : -1 < d) (h1 : d < 1) : toInt d = some 0 := by
  by_cases hd : 0 ≤ d
  · rw [toInt_of_nonneg hd (by linarith)]
    have : ⌊d⌋ = 0 := by
      rw [Int.floor_eq_iff]
      constructor <;> push_cast <;> linarith
    rw [this]
  · push_neg at hd
    rw [toInt_of_neg hd (by linarith)]
    have : ⌈d⌉ = 0 := by
      rw [Int.ceil_eq_iff]
      constructor <;> push_cast <;> linarith
    rw [this]

theorem toInt_eq_one {d : ℚ} (h0 : 1 ≤ d) (h1 : d < 2) : toInt d = some 1 := by
  rw [toInt_of_nonneg (by linarith) (by linarith)]
  have : ⌊d⌋ = 1 := by
    rw [Int.floor_eq_iff]
    constructor <;> push_cast <;> linarith
  rw [this]

/-- Where `int(d)` is defined, the difference `d - 0.01` is below 2^32 in
magnitude. -/
theorem difference_lt {d : ℚ} {n : Int} (h : toInt d = some n) :
    |d - literal_0_01| < 4294967296 := by
  obtain ⟨hlo, hhi, h1, h2, _, _⟩ := toInt_some h
  have hlo' : ((-2147483648 : Int) : ℚ) ≤ n := by exact_mod_cast hlo
  have hhi' : (n : ℚ) ≤ ((2147483647 : Int) : ℚ) := by exact_mod_cast hhi
  push_cast at hlo' hhi'
  have hc := literal_0_01_bounds
  have ht : (1 : ℚ) / 2 ^ 60 < 1 := by norm_num
  rw [abs_lt]
  constructor <;> linarith [hc.1, hc.2]

/-- The fractional test does not fire for a value at or below its integer
part: an integral value, or a negative one. -/
theorem not_decimal_of_le {d : ℚ} {n : Int} (h : toInt d = some n) (hle : d ≤ n) :
    ¬ (n : ℚ) < roundDouble (d - literal_0_01) := by
  have hn := abs_le.mp (roundDouble_near (difference_lt h))
  have hc := literal_0_01_bounds
  intro hlt
  have ht : (1 : ℚ) / 4194304 < 1 / 100 := by norm_num
  linarith [hn.2, hc.1]

/-- The fractional test fires once the value exceeds its integer part by more
than `0.01 + 2^-22`. -/
theorem decimal_of_fract {d : ℚ} {n : Int} (h : toInt d = some n)
    (hf : literal_0_01 + 1 / 4194304 < d - n) :
    (n : ℚ) < roundDouble (d - literal_0_01) := by
  have hn := abs_le.mp (roundDouble_near (difference_lt h))
  linarith [hn.1]

/-- With integer part 0 the fractional test fires exactly above
`0.01 + 2^-1075`. -/
theorem decimal_zero_iff (d : ℚ) :
    ((0 : Int) : ℚ) < roundDouble (d - literal_0_01) ↔ literal_0_01 + 1 / 2 ^ 1075 < d := by
  push_cast
  rw [roundDouble_pos_iff]
  constructor <;> intro h <;> linarith

/-- With integer part 1 the fractional test fires exactly above
`1 + 0.01 + 2^-53`. -/
theorem decimal_one_iff {d : ℚ} (h : |d - literal_0_01| < 4294967296) :
    ((1 : Int) : ℚ) < roundDouble (d - literal_0_01) ↔ 1 + literal_0_01 + 1 / 2 ^ 53 < d := by
  push_cast
  rw [roundDouble_gt_one_iff h]
  constructor <;> intro h <;> linarith

theorem checkMassOrMolar_of_toInt {d : ℚ} {n : Int} (rest : List ℚ) (h : toInt d = some n) :
    checkMassOrMolar (.double (d :: rest)) =
      if (n : ℚ) < roundDouble (d - literal_0_01) then .raise (.prhsDecimal "MassOrMolar" d)
      else if n ≠ 0 ∧ n ≠ 1 then .raise (.prhsInvalid "MassOrMolar" (n : ℚ))
      else .pass := by
  simp only [checkMassOrMolar, mxGetScalar, h]

theorem checkDebugOutput_of_toInt {d : ℚ} {n : Int} (rest : List ℚ) (h : toInt d = some n) :
    checkDebugOutput (.double (d :: rest)) =
      if (n : ℚ) < roundDouble (d - literal_0_01) then .raise (.prhsDecimal "DebugOutput" d)
      else if n ≠ 0 ∧ n ≠ 1 then .raise (.prhsInvalid "DebugOutput" d)
      else .pass := by
  simp only [checkDebugOutput, mxGetScalar, h]

theorem checkMassOrMolar_of_le {d : ℚ} {n : Int} (rest : List ℚ) (h : toInt d = some n)
    (hle : d ≤ n) :
    checkMassOrMolar (.double (d :: rest)) =
      if n ≠ 0 ∧ n ≠ 1 then .raise (.prhsInvalid "MassOrMolar" (n : ℚ)) else .pass := by
  rw [checkMassOrMolar_of_toInt rest h, if_neg (not_decimal_of_le h hle)]

theorem checkDebugOutput_of_le {d : ℚ} {n : Int} (rest : List ℚ) (h : toInt d = some n)
    (hle : d ≤ n) :
    checkDebugOutput (.double (d :: rest)) =
      if n ≠ 0 ∧ n ≠ 1 then .raise (.prhsInvalid "DebugOutput" d) else .pass := by
  rw [checkDebugOutput_of_toInt rest h, if_neg (not_decimal_of_le h hle)]

theorem checkMassOrMolar_of_intCast {n : Int} (rest : List ℚ) (h0 : -2147483648 ≤ n)
    (h1 : n ≤ 2147483647) :
    checkMassOrMolar (.double ((n : ℚ) :: rest)) =
      if n ≠ 0 ∧ n ≠ 1 then .raise (.prhsInvalid "MassOrMolar" (n : ℚ)) else .pass :=
  checkMassOrMolar_of_le rest (toInt_intCast h0 h1) le_rfl

theorem checkDebugOutput_of_intCast {n : Int} (rest : List ℚ) (h0 : -2147483648 ≤ n)
    (h1 : n ≤ 2147483647) :
    checkDebugOutput (.double ((n : ℚ) :: rest)) =
      if n ≠ 0 ∧ n ≠ 1 then .raise (.prhsInvalid "DebugOutput" (n : ℚ)) else .pass :=
  checkDebugOutput_of_le rest (toInt_intCast h0 h1) le_rfl

theorem tolerance_small : (1 : ℚ) / 2 ^ 1075 < 1 / 2 ^ 53 ∧ (1 : ℚ) / 2 ^ 53 < 1 / 4 ∧
    (0 : ℚ) < 1 / 2 ^ 1075 := by
  refine ⟨?_, ?_, ?_⟩ <;> norm_num

/-- A value in one of the two accepted intervals has integer part 0 or 1. -/
theorem toInt_of_tolerated {d : ℚ}
    (h : (-1 < d ∧ d ≤ literal_0_01 + 1 / 2 ^ 1075) ∨
      (1 ≤ d ∧ d ≤ 1 + literal_0_01 + 1 / 2 ^ 53)) :
    (toInt d = some 0 ∧ d ≤ literal_0_01 + 1 / 2 ^ 1075) ∨
      (toInt d = some 1 ∧ d ≤ 1 + literal_0_01 + 1 / 2 ^ 53) := by
  have hc := literal_0_01_bounds
  have ht := tolerance_small
  have h60 : (1 : ℚ) / 2 ^ 60 < 1 / 4 := by norm_num
  rcases h with ⟨ha, hb⟩ | ⟨ha, hb⟩
  · exact Or.inl ⟨toInt_eq_zero ha (by linarith [hc.2, ht.1, ht.2.1]), hb⟩
  · exact Or.inr ⟨toInt_eq_one ha (by linarith [hc.2, ht.1, ht.2.1]), hb⟩

/-- Both value tests let `d` through exactly when `d` lies above -1 and at
most `0.01 + 2^-1075`, or from 1 to `1 + 0.01 + 2^-53`. -/
theorem tolerated_iff {d : ℚ} {n : Int} (h : toInt d = some n) :
    (¬ (n : ℚ) < roundDouble (d - literal_0_01) ∧ ¬ (n ≠ 0 ∧ n ≠ 1)) ↔
      ((-1 < d ∧ d ≤ literal_0_01 + 1 / 2 ^ 1075) ∨
        (1 ≤ d ∧ d ≤ 1 + literal_0_01 + 1 / 2 ^ 53)) := by
  obtain ⟨_, _, h1, h2, h3, h4⟩ := toInt_some h
  constructor
  · rintro ⟨hdec, hset⟩
    have hn : n = 0 ∨ n = 1 := by
      by_cases h0 : n = 0
      · exact Or.inl h0
      · right
        by_contra h2
        exact hset ⟨h0, h2⟩
    rcases hn with hn | hn
    · subst hn
      left
      rw [decimal_zero_iff] at hdec
      push_cast at h1
      exact ⟨by linarith, not_lt.mp hdec⟩
    · subst hn
      right
      rw [decimal_one_iff (difference_lt h)] at hdec
      push_cast at h1
      have hd0 : 0 ≤ d := by linarith
      have h5 := h3 hd0
      push_cast at h5
      exact ⟨h5, not_lt.mp hdec⟩
  · intro hacc
    rcases toInt_of_tolerated hacc with ⟨ht, hb⟩ | ⟨ht, hb⟩
    · rw [h] at ht
      injection ht with ht
      subst ht
      refine ⟨?_, by simp⟩
      rw [decimal_zero_iff]
      exact not_lt.mpr hb
    · rw [h] at ht
      injection ht with ht
      subst ht
      refine ⟨?_, by simp⟩
      rw [decimal_one_iff (difference_lt h)]
      exact not_lt.mpr hb

theorem checkMassOrMolar_pass_iff (d : ℚ) (rest : List ℚ) :
    checkMassOrMolar (.double (d :: rest)) = .pass ↔
      ((-1 < d ∧ d ≤ literal_0_01 + 1 / 2 ^ 1075) ∨
        (1 ≤ d ∧ d ≤ 1 + literal_0_01 + 1 / 2 ^ 53)) := by
  cases h : toInt d with
  | none =>
    have hu : checkMassOrMolar (.double (d :: rest)) = .undefined := by
      simp only [checkMassOrMolar, mxGetScalar, h]
    rw [hu]
    constructor
    · intro hc
      cases hc
    · intro hacc
      rcases toInt_of_tolerated hacc with ⟨ht, _⟩ | ⟨ht, _⟩ <;>
      · rw [h] at ht
        cases ht
  | some n =>
    rw [checkMassOrMolar_of_toInt rest h, ← tolerated_iff h]
    by_cases hf : (n : ℚ) < roundDouble (d - literal_0_01)
    · rw [if_pos hf]
      exact ⟨fun h => (by cases h), fun h => absurd hf h.1⟩
    · rw [if_neg hf]
      by_cases hn : n ≠ 0 ∧ n ≠ 1
      · rw [if_pos hn]
        exact ⟨fun h => (by cases h), fun h => absurd hn h.2⟩
      · rw [if_neg hn]
        exact ⟨fun _ => ⟨hf, hn⟩, fun _ => rfl⟩

theorem checkDebugOutput_pass_iff (d : ℚ) (rest : List ℚ) :
    checkDebugOutput (.double (d :: rest)) = .pass ↔
      ((-1 < d ∧ d ≤ literal_0_01 + 1 / 2 ^ 1075) ∨
        (1 ≤ d ∧ d ≤ 1 + literal_0_01 + 1 / 2 ^ 53)) := by
  cases h : toInt d with
  | none =>
    have hu : checkDebugOutput (.double (d :: rest)) = .undefined := by
      simp only [checkDebugOutput, mxGetScalar, h]
    rw [hu]
    constructor
    · intro hc
      cases hc
    · intro hacc
      rcases toInt_of_tolerated hacc with ⟨ht, _⟩ | ⟨ht, _⟩ <;>
      · rw [h] at ht
        cases ht
  | some n =>
    rw [checkDebugOutput_of_toInt rest h, ← tolerated_iff h]
    by_cases hf : (n : ℚ) < roundDouble (d - literal_0_01)
    · rw [if_pos hf]
      exact ⟨fun h => (by cases h), fun h => absurd hf h.1⟩
    · rw [if_neg hf]
      by_cases hn : n ≠ 0 ∧ n ≠ 1
      · rw [if_pos hn]
        exact ⟨fun h => (by cases h), fun h => absurd hn h.2⟩
      · rw [if_neg hn]
        exact ⟨fun _ => ⟨hf, hn⟩, fun _ => rfl⟩

theorem zero_one_tolerated {d : ℚ} (h : d = 0 ∨ d = 1) :
    (-1 < d ∧ d ≤ literal_0_01 + 1 / 2 ^ 1075) ∨
      (1 ≤ d ∧ d ≤ 1 + literal_0_01 + 1 / 2 ^ 53) := by
  have hc := literal_0_01_bounds
  have hp : (0 : ℚ) < 1 / 2 ^ 1075 := by positivity
  have hq : (0 : ℚ) < 1 / 2 ^ 53 := by positivity
  rcases h with h | h
  · subst h
    exact Or.inl ⟨by norm_num, by linarith [hc.1]⟩
  · subst h
    exact Or.inr ⟨le_rfl, by linarith [hc.1]⟩

theorem checkMassOrMolar_zero_one {d : ℚ} (rest : List ℚ) (h : d = 0 ∨ d = 1) :
    checkMassOrMolar (.double (d :: rest)) = .pass :=
  (checkMassOrMolar_pass_iff d rest).mpr (zero_one_tolerated h)

theorem checkDebugOutput_zero_one {d : ℚ} (rest : List ℚ) (h : d = 0 ∨ d = 1) :
    checkDebugOutput (.double (d :: rest)) = .pass :=
  (checkDebugOutput_pass_iff d rest).mpr (zero_one_tolerated h)

theorem roundHalfEven_intCast (m : Int) : roundHalfEven (m : ℚ) = m := by
  unfold roundHalfEven
  rw [Int.floor_intCast, sub_self, if_pos (by norm_num)]

/-- A 53-bit integer times a power of two in the normal range is a binary64
value. -/
theorem isDouble_of_mantissa {m k : Int} (hlo : 4503599627370496 ≤ m)
    (hhi : m < 9007199254740992) (hk : -1022 ≤ k) : isDouble ((m : ℚ) * 2 ^ (k - 52)) := by
  have hu : (0 : ℚ) < 2 ^ (k - 52) := by positivity
  have hlo' : ((4503599627370496 : Int) : ℚ) ≤ m := by exact_mod_cast hlo
  have hhi' : (m : ℚ) < ((9007199254740992 : Int) : ℚ) := by exact_mod_cast hhi
  push_cast at hlo' hhi'
  have e1 : (2 : ℚ) ^ k = 4503599627370496 * 2 ^ (k - 52) := by
    have : k = 52 + (k - 52) := by omega
    nth_rewrite 1 [this]
    rw [zpow_add₀ (by norm_num)]
    norm_num
  have e2 : (2 : ℚ) ^ (k + 1) = 9007199254740992 * 2 ^ (k - 52) := by
    have : k + 1 = 53 + (k - 52) := by omega
    rw [this, zpow_add₀ (by norm_num)]
    norm_num
  have b1 : (2 : ℚ) ^ k ≤ (m : ℚ) * 2 ^ (k - 52) := by
    rw [e1]
    exact mul_le_mul_of_nonneg_right hlo' hu.le
  have b2 : (m : ℚ) * 2 ^ (k - 52) < 2 ^ (k + 1) := by
    rw [e2]
    exact mul_lt_mul_of_pos_right hhi' hu
  unfold isDouble
  rw [roundDouble_eq_of_bounds b1 b2 hk, mul_div_assoc, div_self hu.ne', mul_one,
    roundHalfEven_intCast]

theorem isDouble_zero : isDouble 0 := by
  unfold isDouble roundDouble
  rw [zero_div]
  have : roundHalfEven 0 = 0 := by
    have h := roundHalfEven_intCast 0
    simpa using h
  rw [this]
  simp

theorem isDouble_one : isDouble 1 := by
  have h := isDouble_of_mantissa (m := 4503599627370496) (k := 0) (by norm_num) (by norm_num)
    (by norm_num)
  have e : ((4503599627370496 : Int) : ℚ) * 2 ^ ((0 : Int) - 52) = 1 := by
    norm_num [zpow_neg]
  rwa [e] at h

theorem isDouble_double_0_005 : isDouble double_0_005 := by
  have h := isDouble_of_mantissa (m := 5764607523034235) (k := -8) (by norm_num) (by norm_num)
    (by norm_num)
  have e : ((5764607523034235 : Int) : ℚ) * 2 ^ ((-8 : Int) - 52) = double_0_005 := by
    unfold double_0_005
    norm_num [zpow_neg]
  rwa [e] at h

/-- The named constants are the binary64 values nearest to 0.01, 1.01, 0.005
and 1.005: each is within half a spacing of its decimal. -/
theorem doubles_nearest :
    |literal_0_01 - 1 / 100| < 1 / 2 ^ 60 ∧ |double_1_01 - 101 / 100| < 1 / 2 ^ 53 ∧
      |double_0_005 - 1 / 200| < 1 / 2 ^ 61 ∧ |double_1_005 - 201 / 200| < 1 / 2 ^ 53 := by
  unfold literal_0_01 double_1_01 double_0_005 double_1_005
  refine ⟨?_, ?_, ?_, ?_⟩ <;> rw [abs_lt] <;> constructor <;> norm_num

/-- No binary64 value lies above the literal `0.01` and within 2^-1075 of
it. -/
theorem isDouble_le_literal {d : ℚ} (hd : isDouble d) (h : d ≤ literal_0_01 + 1 / 2 ^ 1075) :
    d ≤ literal_0_01 := by
  by_contra hgt
  push_neg at hgt
  have hc := literal_0_01_bounds
  have ht := tolerance_small
  have b1 : (2 : ℚ) ^ (-7 : Int) ≤ d := by
    have : (2 : ℚ) ^ (-7 : Int) = 1 / 128 := by norm_num [zpow_neg]
    rw [this]
    linarith [hc.1]
  have b2 : d < (2 : ℚ) ^ ((-7 : Int) + 1) := by
    have : (2 : ℚ) ^ ((-7 : Int) + 1) = 1 / 64 := by norm_num [zpow_neg]
    rw [this]
    have h60 : (1 : ℚ) / 2 ^ 60 < 1 / 1000 := by norm_num
    linarith [hc.2, ht.1, ht.2.1]
  have hr := roundDouble_eq_of_bounds b1 b2 (by norm_num)
  unfold isDouble at hd
  rw [hr] at hd
  have hu : (2 : ℚ) ^ ((-7 : Int) - 52) = 1 / 2 ^ 59 := by norm_num [zpow_neg]
  rw [hu] at hd
  generalize roundHalfEven (d / (1 / 2 ^ 59)) = r at hd
  have hlit : literal_0_01 = ((5764607523034235 : Int) : ℚ) * (1 / 2 ^ 59) := by
    unfold literal_0_01
    norm_num
  have hp : (0 : ℚ) < 1 / 2 ^ 59 := by positivity
  have hlt : ((5764607523034235 : Int) : ℚ) < (r : ℚ) := by
    rw [hlit, ← hd] at hgt
    exact lt_of_mul_lt_mul_right hgt hp.le
  have hle : (5764607523034235 : Int) + 1 ≤ r := by exact_mod_cast hlt
  have hle' : (((5764607523034235 : Int) + 1 : Int) : ℚ) ≤ (r : ℚ) := by exact_mod_cast hle
  have hge : ((((5764607523034235 : Int) + 1 : Int) : ℚ)) * (1 / 2 ^ 59) ≤ d := by
    rw [← hd]
    exact mul_le_mul_of_nonneg_right hle' hp.le
  have hfin : literal_0_01 + 1 / 2 ^ 59 ≤ d := by
    rw [hlit]
    push_cast at hge ⊢
    linarith
  have h59 : (1 : ℚ) / 2 ^ 1075 < 1 / 2 ^ 59 := by norm_num
  linarith

/-- No binary64 value lies above the double 1.01 and at most
`1 + 0.01 + 2^-53`. -/
theorem isDouble_le_double_1_01 {d : ℚ} (hd : isDouble d) (h1 : 1 ≤ d)
    (h : d ≤ 1 + literal_0_01 + 1 / 2 ^ 53) : d ≤ double_1_01 := by
  by_contra hgt
  push_neg at hgt
  have hc := literal_0_01_bounds
  have ht := tolerance_small
  have b1 : (2 : ℚ) ^ (0 : Int) ≤ d := by simpa using h1
  have b2 : d < (2 : ℚ) ^ ((0 : Int) + 1) := by
    have h60 : (1 : ℚ) / 2 ^ 60 < 1 / 1000 := by norm_num
    norm_num
    linarith [hc.2, ht.2.1]
  have hr := roundDouble_eq_of_bounds b1 b2 (by norm_num)
  unfold isDouble at hd
  rw [hr] at hd
  have hu : (2 : ℚ) ^ ((0 : Int) - 52) = 1 / 2 ^ 52 := by norm_num [zpow_neg]
  rw [hu] at hd
  generalize roundHalfEven (d / (1 / 2 ^ 52)) = r at hd
  have hdbl : double_1_01 = ((4548635623644201 : Int) : ℚ) * (1 / 2 ^ 52) := by
    unfold double_1_01
    norm_num
  have hp : (0 : ℚ) < 1 / 2 ^ 52 := by positivity
  have hlt : ((4548635623644201 : Int) : ℚ) < (r : ℚ) := by
    rw [hdbl, ← hd] at hgt
    exact lt_of_mul_lt_mul_right hgt hp.le
  have hle : (4548635623644201 : Int) + 1 ≤ r := by exact_mod_cast hlt
  have hle' : (((4548635623644201 : Int) + 1 : Int) : ℚ) ≤ (r : ℚ) := by exact_mod_cast hle
  have hge : ((((4548635623644201 : Int) + 1 : Int) : ℚ)) * (1 / 2 ^ 52) ≤ d := by
    rw [← hd]
    exact mul_le_mul_of_nonneg_right hle' hp.le
  have hlit : literal_0_01 = 5764607523034235 / 2 ^ 59 := rfl
  rw [hlit] at h
  push_cast at hge
  norm_num at hge h
  linarith

/-- Among binary64 values the accepted ones are those above -1 up to the
literal `0.01`, and those from 1 up to the double 1.01. -/
theorem tolerated_double_iff {d : ℚ} (hd : isDouble d) :
    ((-1 < d ∧ d ≤ literal_0_01 + 1 / 2 ^ 1075) ∨
        (1 ≤ d ∧ d ≤ 1 + literal_0_01 + 1 / 2 ^ 53)) ↔
      ((-1 < d ∧ d ≤ literal_0_01) ∨ (1 ≤ d ∧ d ≤ double_1_01)) := by
  have ht := tolerance_small
  constructor
  · rintro (⟨ha, hb⟩ | ⟨ha, hb⟩)
    · exact Or.inl ⟨ha, isDouble_le_literal hd hb⟩
    · exact Or.inr ⟨ha, isDouble_le_double_1_01 hd ha hb⟩
  · rintro (⟨ha, hb⟩ | ⟨ha, hb⟩)
    · exact Or.inl ⟨ha, by linarith [ht.2.2]⟩
    · refine Or.inr ⟨ha, ?_⟩
      have h2 : double_1_01 ≤ 1 + literal_0_01 + 1 / 2 ^ 53 := by
        unfold double_1_01 literal_0_01
        norm_num
      linarith

theorem toInt_defined {d : ℚ} (h1 : -2147483649 < d) (h2 : d < 2147483648) :
    ∃ n, toInt d = some n := by
  by_cases h0 : 0 ≤ d
  · exact ⟨_, toInt_of_nonneg h0 h2⟩
  · exact ⟨_, toInt_of_neg (not_le.mp h0) h1⟩

/-- What the value test of `MassOrMolar` raises is an error about `MassOrMolar`. -/
theorem checkMassOrMolar_raise {input : mxArray} {e : MexError}
    (h : checkMassOrMolar input = .raise e) :
    ∃ v, e = .prhsDecimal "MassOrMolar" v ∨ e = .prhsInvalid "MassOrMolar" v := by
  unfold checkMassOrMolar at h
  split at h
  · cases h
  · split at h
    · cases h
    · split at h
      · injection h with h; exact ⟨_, Or.inl h.symm⟩
      · split at h
        · injection h with h; exact ⟨_, Or.inr h.symm⟩
        · cases h


/-! ## The claims about `checkArguments` -/

/-- C4: when the output count differs from 1 and the input count differs from
10, `checkArguments` raises the output-arity error (identifier ending in
`nlhs`) and not the input-arity error (`nrhs`). -/
theorem checkArguments_output_arity_first (numOutArg numInArg : Int) (inputs : Nat → mxArray)
    (hOut : numOutArg ≠ 1) (hIn : numInArg ≠ 10) :
    checkArguments numOutArg numInArg inputs = .raise .nlhs ∧
      MexError.id .nlhs = "MyToolbox:arrayProduct:nlhs" ∧
      ∀ given expected, checkArguments numOutArg numInArg inputs ≠ .raise (.nrhs given expected) := by
  have _ := hIn
  have h : checkArguments numOutArg numInArg inputs = .raise .nlhs := by
    simp [checkArguments, expectedOut, hOut]
  refine ⟨h, rfl, ?_⟩
  intro given expected
  rw [h]
  intro hc
  cases hc

theorem checkArguments_output_arity_first_witness :
    (0 : Int) ≠ 1 ∧ (3 : Int) ≠ 10 ∧
      checkArguments 0 3 (fun _ => mxArray.other) = .raise .nlhs := by
  have h := checkArguments_output_arity_first 0 3 (fun _ => mxArray.other) (by decide) (by decide)
  exact ⟨by decide, by decide, h.1⟩

/-- With one output and ten inputs, a wrongly typed argument at index `i` with
every argument before it rightly typed makes `checkArguments` raise the type
error of argument `i`. -/
theorem checkArguments_first_wrong_type (inputs : Nat → mxArray) (i : Nat) (hi : i < 10)
    (hbad : typeOk i (inputs i) = false) (hmin : ∀ j < i, typeOk j (inputs j) = true) :
    checkArguments 1 10 inputs = .raise (typeError i) := by
  interval_cases i
  · -- argument 0
    simp [typeOk] at hbad 
    simp [checkArguments, expectedOut, expectedIn, typeError, hbad]
  · -- argument 1
    have h0 := hmin 0 (by norm_num)
    simp [typeOk] at hbad h0
    simp [checkArguments, expectedOut, expectedIn, typeError, hbad, h0]
  · -- argument 2
    have h0 := hmin 0 (by norm_num)
    have h1 := hmin 1 (by norm_num)
    simp [typeOk] at hbad h0 h1
    simp [checkArguments, expectedOut, expectedIn, typeError, hbad, h0, h1]
  · -- argument 3
    have h0 := hmin 0 (by norm_num)
    have h1 := hmin 1 (by norm_num)
    have h2 := hmin 2 (by norm_num)
    simp [typeOk] at hbad h0 h1 h2
    simp [checkArguments, expectedOut, expectedIn, typeError, hbad, h0, h1, h2]
  · -- argument 4
    have h0 := hmin 0 (by norm_num)
    have h1 := hmin 1 (by norm_num)
    have h2 := hmin 2 (by norm_num)
    have h3 := hmin 3 (by norm_num)
    simp [typeOk] at hbad h0 h1 h2 h3
    simp [checkArguments, expectedOut, expectedIn, typeError, hbad, h0, h1, h2, h3]
  · -- argument 5
    have h0 := hmin 0 (by norm_num)
    have h1 := hmin 1 (by norm_num)
    have h2 := hmin 2 (by norm_num)
    have h3 := hmin 3 (by norm_num)
    have h4 := hmin 4 (by norm_num)
    simp [typeOk] at hbad h0 h1 h2 h3 h4
    simp [checkArguments, expectedOut, expectedIn, typeError, hbad, h0, h1, h2, h3, h4]
  · -- argument 6
    have h0 := hmin 0 (by norm_num)
    have h1 := hmin 1 (by norm_num)
    have h2 := hmin 2 (by norm_num)
    have h3 := hmin 3 (by norm_num)
    have h4 := hmin 4 (by norm_num)
    have h5 := hmin 5 (by norm_num)
    simp [typeOk] at hbad h0 h1 h2 h3 h4 h5
    simp [checkArguments, expectedOut, expectedIn, typeError, hbad, h0, h1, h2, h3, h4, h5]
  · -- argument 7
    have h0 := hmin 0 (by norm_num)
    have h1 := hmin 1 (by norm_num)
    have h2 := hmin 2 (by norm_num)
    have h3 := hmin 3 (by norm_num)
    have h4 := hmin 4 (by norm_num)
    have h5 := hmin 5 (by norm_num)
    have h6 := hmin 6 (by norm_num)
    simp [typeOk] at hbad h0 h1 h2 h3 h4 h5 h6
    simp [checkArguments, expectedOut, expectedIn, typeError, hbad, h0, h1, h2, h3, h4, h5, h6]
  · -- argument 8
    have h0 := hmin 0 (by norm_num)
    have h1 := hmin 1 (by norm_num)
    have h2 := hmin 2 (by norm_num)
    have h3 := hmin 3 (by norm_num)
    have h4 := hmin 4 (by norm_num)
    have h5 := hmin 5 (by norm_num)
    have h6 := hmin 6 (by norm_num)
    have h7 := hmin 7 (by norm_num)
    simp [typeOk] at hbad h0 h1 h2 h3 h4 h5 h6 h7
    simp [checkArguments, expectedOut, expectedIn, typeError, hbad, h0, h1, h2, h3, h4, h5, h6, h7]
  · -- argument 9
    have h0 := hmin 0 (by norm_num)
    have h1 := hmin 1 (by norm_num)
    have h2 := hmin 2 (by norm_num)
    have h3 := hmin 3 (by norm_num)
    have h4 := hmin 4 (by norm_num)
    have h5 := hmin 5 (by norm_num)
    have h6 := hmin 6 (by norm_num)
    have h7 := hmin 7 (by norm_num)
    have h8 := hmin 8 (by norm_num)
    simp [typeOk] at hbad h0 h1 h2 h3 h4 h5 h6 h7 h8
    simp [checkArguments, expectedOut, expectedIn, typeError, hbad, h0, h1, h2, h3, h4, h5, h6, h7, h8]

theorem typesOk_waterCall (massOrMolar debugOutput : List ℚ) :
    typesOk (waterCall massOrMolar debugOutput) :=
  typesOk_args _ _ _ _ _ _ _ _ _ _

/-- With all types right the result is that of the two value tests in turn. -/
theorem checkArguments_pass_iff_tests {inputs : Nat → mxArray} (h : typesOk inputs) :
    checkArguments 1 10 inputs = .pass ↔
      checkMassOrMolar (inputs 5) = .pass ∧ checkDebugOutput (inputs 9) = .pass := by
  rw [checkArguments_of_typesOk h]
  cases hm : checkMassOrMolar (inputs 5) <;> simp

theorem toInt_out_of_range : toInt 2147483648 = none := by
  have hf : ⌊(2147483648 : ℚ)⌋ = 2147483648 := by
    rw [Int.floor_eq_iff]
    norm_num
  have h0 : (0 : ℚ) ≤ 2147483648 := by norm_num
  simp only [toInt, h0, if_true, hf]
  norm_num

theorem double_0_005_tolerated :
    (-1 < double_0_005 ∧ double_0_005 ≤ literal_0_01 + 1 / 2 ^ 1075) ∨
      (1 ≤ double_0_005 ∧ double_0_005 ≤ 1 + literal_0_01 + 1 / 2 ^ 53) := by
  rw [tolerated_double_iff isDouble_double_0_005]
  left
  unfold double_0_005 literal_0_01
  constructor <;> norm_num

theorem ceil_neg_three_halves : ⌈(-3 / 2 : ℚ)⌉ = -1 := by
  rw [Int.ceil_eq_iff]
  norm_num

theorem floor_three_halves : ⌊(3 / 2 : ℚ)⌋ = 1 := by
  rw [Int.floor_eq_iff]
  norm_num

theorem fract_three_halves : literal_0_01 + 1 / 4194304 < Int.fract (3 / 2 : ℚ) := by
  unfold Int.fract literal_0_01
  rw [floor_three_halves]
  norm_num

theorem fract_double_0_005 : Int.fract double_0_005 ≠ 0 := by
  have hf : ⌊double_0_005⌋ = 0 := by
    rw [Int.floor_eq_iff]
    unfold double_0_005
    norm_num
  unfold Int.fract
  rw [hf]
  unfold double_0_005
  norm_num

theorem fract_neg_three_halves : Int.fract (-3 / 2 : ℚ) ≠ 0 := by
  have hf : ⌊(-3 / 2 : ℚ)⌋ = -2 := by
    rw [Int.floor_eq_iff]
    norm_num
  unfold Int.fract
  rw [hf]
  norm_num

/-- A `MassOrMolar` value at or below -1, where `int` is defined, raises the
out-of-set error for the value truncated toward zero. -/
theorem checkMassOrMolar_of_le_neg_one {d : ℚ} (rest : List ℚ) (hlo : -2147483649 < d)
    (hhi : d ≤ -1) :
    checkMassOrMolar (.double (d :: rest)) = .raise (.prhsInvalid "MassOrMolar" (⌈d⌉ : ℚ)) := by
  have hneg : d < 0 := by linarith
  have hc : ⌈d⌉ ≤ -1 := Int.ceil_le.mpr (by exact_mod_cast hhi)
  rw [checkMassOrMolar_of_le rest (toInt_of_neg hneg hlo) (Int.le_ceil d), if_pos]
  constructor <;> omega

theorem checkDebugOutput_of_le_neg_one {d : ℚ} (rest : List ℚ) (hlo : -2147483649 < d)
    (hhi : d ≤ -1) :
    checkDebugOutput (.double (d :: rest)) = .raise (.prhsInvalid "DebugOutput" d) := by
  have hneg : d < 0 := by linarith
  have hc : ⌈d⌉ ≤ -1 := Int.ceil_le.mpr (by exact_mod_cast hhi)
  rw [checkDebugOutput_of_le rest (toInt_of_neg hneg hlo) (Int.le_ceil d), if_pos]
  constructor <;> omega

/-- A non-negative `MassOrMolar` value below 2^31 whose fractional part exceeds
`0.01 + 2^-22` raises the fractional error. -/
theorem checkMassOrMolar_of_fract {d : ℚ} (rest : List ℚ) (h0 : 0 ≤ d) (h1 : d < 2147483648)
    (hf : literal_0_01 + 1 / 4194304 < Int.fract d) :
    checkMassOrMolar (.double (d :: rest)) = .raise (.prhsDecimal "MassOrMolar" d) := by
  have ht := toInt_of_nonneg h0 h1
  rw [checkMassOrMolar_of_toInt rest ht, if_pos (decimal_of_fract ht hf)]

theorem checkDebugOutput_of_fract {d : ℚ} (rest : List ℚ) (h0 : 0 ≤ d) (h1 : d < 2147483648)
    (hf : literal_0_01 + 1 / 4194304 < Int.fract d) :
    checkDebugOutput (.double (d :: rest)) = .raise (.prhsDecimal "DebugOutput" d) := by
  have ht := toInt_of_nonneg h0 h1
  rw [checkDebugOutput_of_toInt rest ht, if_pos (decimal_of_fract ht hf)]

/-- C5, as written, fails: the binary64 value of 0.005 has a non-zero
fractional part, and `checkArguments` accepts it as `MassOrMolar` instead of
raising the "Decimal values" error; -1.5 has a non-zero fractional part, and
the error raised for it is the out-of-set one ("input of -1 is invalid"), not
the fractional one. (And the integral value 2^31, outside the range of `int`,
has no defined conversion, so that no error is promised for it.) -/
theorem checkArguments_small_fraction_not_rejected :
    isDouble double_0_005 ∧ Int.fract double_0_005 ≠ 0 ∧
      checkArguments 1 10 (waterCall [double_0_005] [0]) = .pass ∧
      Int.fract (-3 / 2 : ℚ) ≠ 0 ∧
      checkArguments 1 10 (waterCall [-3 / 2] [0]) = .raise (.prhsInvalid "MassOrMolar" (-1)) ∧
      checkArguments 1 10 (waterCall [2147483648] [0]) = .undefined := by
  refine ⟨isDouble_double_0_005, fract_double_0_005, ?_, fract_neg_three_halves, ?_, ?_⟩
  · rw [checkArguments_pass_iff_tests (typesOk_waterCall _ _)]
    constructor
    · show checkMassOrMolar (.double [double_0_005]) = .pass
      exact (checkMassOrMolar_pass_iff _ _).mpr double_0_005_tolerated
    · show checkDebugOutput (.double [0]) = .pass
      exact checkDebugOutput_zero_one [] (Or.inl rfl)
  · rw [checkArguments_of_typesOk (typesOk_waterCall _ _)]
    have h : checkMassOrMolar (waterCall [-3 / 2] [0] 5) =
        .raise (.prhsInvalid "MassOrMolar" (-1)) := by
      show checkMassOrMolar (.double [-3 / 2]) = _
      rw [checkMassOrMolar_of_le_neg_one [] (by norm_num) (by norm_num), ceil_neg_three_halves]
      norm_num
    rw [h]
  · rw [checkArguments_of_typesOk (typesOk_waterCall _ _)]
    have h : checkMassOrMolar (waterCall [2147483648] [0] 5) = .undefined := by
      show checkMassOrMolar (.double [2147483648]) = .undefined
      simp only [checkMassOrMolar, mxGetScalar, toInt_out_of_range]
    rw [h]

/-- C5, amended: with arities and types valid, a non-negative `MassOrMolar`
value below 2^31 whose fractional part exceeds the literal `0.01` by more than
2^-22 raises the "Decimal values" error; an integral value other than 0 and 1
in the range of `int` raises the distinct "input of ... is invalid" error; and
so does every value at or below -1 (above -2^31 - 1), fractional or not, for
the value truncated toward zero. With `MassOrMolar` equal to 0 or 1 the same
holds for `DebugOutput`, whose out-of-set message is given the value itself. -/
theorem checkArguments_range_errors (inputs : Nat → mxArray) (htypes : typesOk inputs) :
    (∀ d rest, inputs 5 = .double (d :: rest) → 0 ≤ d → d < 2147483648 →
        literal_0_01 + 1 / 4194304 < Int.fract d →
        checkArguments 1 10 inputs = .raise (.prhsDecimal "MassOrMolar" d)) ∧
    (∀ d rest (n : Int), inputs 5 = .double (d :: rest) → d = (n : ℚ) → n ≠ 0 → n ≠ 1 →
        -2147483648 ≤ n → n ≤ 2147483647 →
        checkArguments 1 10 inputs = .raise (.prhsInvalid "MassOrMolar" d)) ∧
    (∀ d rest, inputs 5 = .double (d :: rest) → -2147483649 < d → d ≤ -1 →
        checkArguments 1 10 inputs = .raise (.prhsInvalid "MassOrMolar" (⌈d⌉ : ℚ))) ∧
    (∀ m rest5 d rest, inputs 5 = .double (m :: rest5) → (m = 0 ∨ m = 1) →
        inputs 9 = .double (d :: rest) → 0 ≤ d → d < 2147483648 →
        literal_0_01 + 1 / 4194304 < Int.fract d →
        checkArguments 1 10 inputs = .raise (.prhsDecimal "DebugOutput" d)) ∧
    (∀ m rest5 d rest (n : Int), inputs 5 = .double (m :: rest5) → (m = 0 ∨ m = 1) →
        inputs 9 = .double (d :: rest) → d = (n : ℚ) → n ≠ 0 → n ≠ 1 →
        -2147483648 ≤ n → n ≤ 2147483647 →
        checkArguments 1 10 inputs = .raise (.prhsInvalid "DebugOutput" d)) ∧
    (∀ m rest5 d rest, inputs 5 = .double (m :: rest5) → (m = 0 ∨ m = 1) →
        inputs 9 = .double (d :: rest) → -2147483649 < d → d ≤ -1 →
        checkArguments 1 10 inputs = .raise (.prhsInvalid "DebugOutput" d)) ∧
    (∀ name d v, MexError.prhsDecimal name d ≠ MexError.prhsInvalid name v) := by
  refine ⟨?_, ?_, ?_, ?_, ?_, ?_, ?_⟩
  · intro d rest h5 h0 h1 hf
    rw [checkArguments_of_typesOk htypes, h5, checkMassOrMolar_of_fract rest h0 h1 hf]
  · intro d rest n h5 hd hn0 hn1 hlo hhi
    rw [checkArguments_of_typesOk htypes, h5, hd, checkMassOrMolar_of_intCast rest hlo hhi,
      if_pos ⟨hn0, hn1⟩]
  · intro d rest h5 hlo hhi
    rw [checkArguments_of_typesOk htypes, h5, checkMassOrMolar_of_le_neg_one rest hlo hhi]
  · intro m rest5 d rest h5 hm h9 h0 h1 hf
    rw [checkArguments_of_typesOk htypes, h5, checkMassOrMolar_zero_one rest5 hm, h9,
      checkDebugOutput_of_fract rest h0 h1 hf]
  · intro m rest5 d rest n h5 hm h9 hd hn0 hn1 hlo hhi
    rw [checkArguments_of_typesOk htypes, h5, checkMassOrMolar_zero_one rest5 hm, h9, hd,
      checkDebugOutput_of_intCast rest hlo hhi, if_pos ⟨hn0, hn1⟩]
  · intro m rest5 d rest h5 hm h9 hlo hhi
    rw [checkArguments_of_typesOk htypes, h5, checkMassOrMolar_zero_one rest5 hm, h9,
      checkDebugOutput_of_le_neg_one rest hlo hhi]
  · intro name d v h
    cases h

theorem checkArguments_range_errors_witness :
    checkArguments 1 10 (waterCall [3 / 2] [0]) = .raise (.prhsDecimal "MassOrMolar" (3 / 2)) ∧
    checkArguments 1 10 (waterCall [2] [0]) = .raise (.prhsInvalid "MassOrMolar" 2) ∧
    checkArguments 1 10 (waterCall [-3 / 2] [0]) =
      .raise (.prhsInvalid "MassOrMolar" (⌈(-3 / 2 : ℚ)⌉ : ℚ)) ∧
    checkArguments 1 10 (waterCall [1] [3 / 2]) = .raise (.prhsDecimal "DebugOutput" (3 / 2)) ∧
    checkArguments 1 10 (waterCall [1] [2]) = .raise (.prhsInvalid "DebugOutput" 2) ∧
    checkArguments 1 10 (waterCall [1] [-3 / 2]) = .raise (.prhsInvalid "DebugOutput" (-3 / 2)) :=
  ⟨(checkArguments_range_errors (waterCall [3 / 2] [0]) (typesOk_waterCall _ _)).1
      (3 / 2) [] rfl (by norm_num) (by norm_num) fract_three_halves,
   (checkArguments_range_errors (waterCall [2] [0]) (typesOk_waterCall _ _)).2.1
      2 [] 2 rfl (by norm_num) (by decide) (by decide) (by decide) (by decide),
   (checkArguments_range_errors (waterCall [-3 / 2] [0]) (typesOk_waterCall _ _)).2.2.1
      (-3 / 2) [] rfl (by norm_num) (by norm_num),
   (checkArguments_range_errors (waterCall [1] [3 / 2]) (typesOk_waterCall _ _)).2.2.2.1
      1 [] (3 / 2) [] rfl (Or.inr rfl) rfl (by norm_num) (by norm_num) fract_three_halves,
   (checkArguments_range_errors (waterCall [1] [2]) (typesOk_waterCall _ _)).2.2.2.2.1
      1 [] 2 [] 2 rfl (Or.inr rfl) rfl (by norm_num) (by decide) (by decide) (by decide)
      (by decide),
   (checkArguments_range_errors (waterCall [1] [-3 / 2]) (typesOk_waterCall _ _)).2.2.2.2.2.1
      1 [] (-3 / 2) [] rfl (Or.inr rfl) rfl (by norm_num) (by norm_num)⟩

/-- C7, as written, fails in its second half: with all types right, the
binary64 value of 0.005 as `MassOrMolar` and 2 as `DebugOutput` are neither of
them 0 or 1, and the error raised is the one of `DebugOutput`, the value test
of `MassOrMolar` having let 0.005 through. -/
theorem checkArguments_debug_error_first :
    typesOk (waterCall [double_0_005] [2]) ∧
    double_0_005 ≠ 0 ∧ double_0_005 ≠ 1 ∧ (2 : ℚ) ≠ 0 ∧ (2 : ℚ) ≠ 1 ∧
    checkArguments 1 10 (waterCall [double_0_005] [2]) =
      .raise (.prhsInvalid "DebugOutput" 2) := by
  refine ⟨typesOk_waterCall _ _, by norm_num [double_0_005], by norm_num [double_0_005],
    by norm_num, by norm_num, ?_⟩
  rw [checkArguments_of_typesOk (typesOk_waterCall _ _)]
  have h1 : checkMassOrMolar (waterCall [double_0_005] [2] 5) = .pass :=
    (checkMassOrMolar_pass_iff _ _).mpr double_0_005_tolerated
  have h2 : checkDebugOutput (waterCall [double_0_005] [2] 9) =
      .raise (.prhsInvalid "DebugOutput" 2) := by
    show checkDebugOutput (.double [2]) = _
    have h := checkDebugOutput_of_intCast (n := 2) [] (by decide) (by decide)
    simpa using h
  rw [h1, h2]

/-- C7, amended: with one output and ten inputs, a wrongly typed argument makes
`checkArguments` raise the type error of the first such argument (in the order
propReq, spec, value1, value2, fluid, MassOrMolar, Composition, DesiredUnits,
PathToRefPropDll, DebugOutput), which is no range error; and with all types
right, a `MassOrMolar` value in the range of `int` that lies outside the two
accepted intervals (above -1 up to `0.01 + 2^-1075`, from 1 to
`1 + 0.01 + 2^-53`) makes it raise an error of `MassOrMolar`, whatever
`DebugOutput` holds. -/
theorem checkArguments_validation_order (inputs : Nat → mxArray) :
    (∀ i, i < 10 → typeOk i (inputs i) = false → (∀ j < i, typeOk j (inputs j) = true) →
        checkArguments 1 10 inputs = .raise (typeError i) ∧
        ∀ name v, typeError i ≠ .prhsDecimal name v ∧ typeError i ≠ .prhsInvalid name v) ∧
    (typesOk inputs → ∀ d1 rest1, inputs 5 = .double (d1 :: rest1) →
        -2147483649 < d1 → d1 < 2147483648 →
        ¬ ((-1 < d1 ∧ d1 ≤ literal_0_01 + 1 / 2 ^ 1075) ∨
            (1 ≤ d1 ∧ d1 ≤ 1 + literal_0_01 + 1 / 2 ^ 53)) →
        ∃ v, checkArguments 1 10 inputs = .raise (.prhsDecimal "MassOrMolar" v) ∨
          checkArguments 1 10 inputs = .raise (.prhsInvalid "MassOrMolar" v)) := by
  constructor
  · intro i hi hbad hmin
    refine ⟨checkArguments_first_wrong_type inputs i hi hbad hmin, ?_⟩
    intro name v
    interval_cases i <;> exact ⟨by simp [typeError], by simp [typeError]⟩
  · intro htypes d1 rest1 h5 hlo hhi hout
    obtain ⟨n, hn⟩ := toInt_defined hlo hhi
    rw [checkArguments_of_typesOk htypes, h5, checkMassOrMolar_of_toInt rest1 hn]
    by_cases hf : (n : ℚ) < roundDouble (d1 - literal_0_01)
    · rw [if_pos hf]
      exact ⟨d1, Or.inl rfl⟩
    · rw [if_neg hf]
      by_cases hset : n ≠ 0 ∧ n ≠ 1
      · rw [if_pos hset]
        exact ⟨(n : ℚ), Or.inr rfl⟩
      · exact absurd ((tolerated_iff hn).mp ⟨hf, hset⟩) hout

theorem checkArguments_validation_order_witness :
    checkArguments 1 10 wrongTypeCall = .raise (typeError 3) ∧
    (∃ v, checkArguments 1 10 (waterCall [2] [3 / 2]) = .raise (.prhsDecimal "MassOrMolar" v) ∨
      checkArguments 1 10 (waterCall [2] [3 / 2]) = .raise (.prhsInvalid "MassOrMolar" v)) := by
  constructor
  · refine ((checkArguments_validation_order wrongTypeCall).1 3 (by decide) rfl ?_).1
    intro j hj
    interval_cases j <;> rfl
  · refine (checkArguments_validation_order (waterCall [2] [3 / 2])).2 (typesOk_waterCall _ _)
      2 [] rfl (by norm_num) (by norm_num) ?_
    unfold literal_0_01
    norm_num


/-! ## Properties of the string operations -/

theorem find?_reverse_range_succ (p : Nat → Bool) (n : Nat) :
    (List.range (n + 1)).reverse.find? p =
      if p n then some n else (List.range n).reverse.find? p := by
  rw [List.range_succ, List.reverse_append, List.reverse_singleton, List.singleton_append,
    List.find?_cons]
  cases p n <;> rfl

theorem find?_reverse_range_eq (p : Nat → Bool) (n k : Nat) (hk : k ≤ n) (hp : p k = true)
    (hhi : ∀ i, k < i → i ≤ n → p i = false) :
    (List.range (n + 1)).reverse.find? p = some k := by
  induction n with
  | zero =>
    have : k = 0 := by omega
    subst this
    rw [find?_reverse_range_succ, if_pos hp]
  | succ n ih =>
    rw [find?_reverse_range_succ]
    by_cases hkn : k = n + 1
    · subst hkn
      rw [if_pos hp]
    · have hf : p (n + 1) = false := hhi (n + 1) (by omega) (le_refl _)
      rw [hf]
      simp only [Bool.false_eq_true, if_false]
      exact ih (by omega) (fun i h1 h2 => hhi i h1 (by omega))

/-- What `rfind` returns: `npos` when the pattern occurs nowhere, a position
where it occurs otherwise. -/
theorem rfind_cases (s pat : List Char) :
    (rfind s pat = npos ∧ ∀ i, i ≤ s.length → ¬ pat <+: s.drop i) ∨
    (rfind s pat ≤ s.length ∧ pat <+: s.drop (rfind s pat)) := by
  unfold rfind
  cases h : (List.range (s.length + 1)).reverse.find? (fun i => pat.isPrefixOf (s.drop i)) with
  | none =>
    left
    refine ⟨rfl, ?_⟩
    intro i hi hpre
    rw [List.find?_eq_none] at h
    have := h i (by simp; omega)
    exact this (List.isPrefixOf_iff_prefix.mpr hpre)
  | some k =>
    right
    have hp := List.find?_some h
    have hm := List.mem_of_find?_eq_some h
    simp only [List.mem_reverse, List.mem_range] at hm
    exact ⟨by show k ≤ s.length; omega, List.isPrefixOf_iff_prefix.mp hp⟩

theorem rfind_eq_of_last (s pat : List Char) (k : Nat) (hk : k ≤ s.length)
    (hp : pat <+: s.drop k) (hhi : ∀ i, k < i → i ≤ s.length → ¬ pat <+: s.drop i) :
    rfind s pat = k := by
  unfold rfind
  rw [find?_reverse_range_eq (fun i => pat.isPrefixOf (s.drop i)) s.length k hk
    (List.isPrefixOf_iff_prefix.mpr hp)]
  intro i h1 h2
  have hn := hhi i h1 h2
  cases hb : pat.isPrefixOf (s.drop i) with
  | false => rfl
  | true => exact absurd (List.isPrefixOf_iff_prefix.mp hb) hn

/-- The test of line 251 holds exactly when the text is longer than four
characters and ends in `.mix`. -/
theorem mix_test_iff (s : List Char) (hlen : s.length < SIZE_MOD) :
    (s.length > 4 ∧ (rfind s ['.', 'm', 'i', 'x'] + 4) % SIZE_MOD = s.length) ↔
      (s.length > 4 ∧ ['.', 'm', 'i', 'x'] <:+ s) := by
  have hM : SIZE_MOD = 18446744073709551616 := by norm_num [SIZE_MOD]
  constructor
  · rintro ⟨h4, hr⟩
    refine ⟨h4, ?_⟩
    rcases rfind_cases s ['.', 'm', 'i', 'x'] with ⟨hn, _⟩ | ⟨hle, hpre⟩
    · rw [hn] at hr
      simp only [npos, hM] at hr
      norm_num at hr
      omega
    · have hl := hpre.length_le
      simp only [List.length_cons, List.length_nil, List.length_drop] at hl
      have hlt : rfind s ['.', 'm', 'i', 'x'] + 4 < SIZE_MOD := by omega
      rw [Nat.mod_eq_of_lt hlt] at hr
      have heq : ['.', 'm', 'i', 'x'] = s.drop (rfind s ['.', 'm', 'i', 'x']) := by
        apply hpre.eq_of_length
        simp only [List.length_cons, List.length_nil, List.length_drop]
        omega
      rw [heq]
      exact List.drop_suffix _ _
  · rintro ⟨h4, hsuf⟩
    refine ⟨h4, ?_⟩
    have hd : ['.', 'm', 'i', 'x'] = s.drop (s.length - 4) := List.suffix_iff_eq_drop.mp hsuf
    have hr : rfind s ['.', 'm', 'i', 'x'] = s.length - 4 := by
      apply rfind_eq_of_last
      · omega
      · rw [← hd]
      · intro i h1 h2 hpre
        have hl := hpre.length_le
        simp only [List.length_cons, List.length_nil, List.length_drop] at hl
        omega
    rw [hr]
    have : s.length - 4 + 4 = s.length := by omega
    rw [this, Nat.mod_eq_of_lt hlen]

/-- The test of line 263 holds exactly when the text contains a semicolon. -/
theorem semicolon_test_iff (s : List Char) (hlen : s.length < SIZE_MOD) :
    rfind s [';'] < s.length ↔ ';' ∈ s := by
  have hM : SIZE_MOD = 18446744073709551616 := by norm_num [SIZE_MOD]
  constructor
  · intro hr
    rcases rfind_cases s [';'] with ⟨hn, _⟩ | ⟨_, hpre⟩
    · rw [hn] at hr
      simp only [npos] at hr
      omega
    · have hmem : ';' ∈ s.drop (rfind s [';']) := hpre.subset (List.mem_singleton_self _)
      exact List.mem_of_mem_drop hmem
  · intro hmem
    obtain ⟨a, b, hab⟩ := List.append_of_mem hmem
    have hpre : [';'] <+: s.drop a.length := by
      rw [hab, List.drop_left]
      exact ⟨b, rfl⟩
    rcases rfind_cases s [';'] with ⟨_, hnone⟩ | ⟨hle, hp⟩
    · exact absurd hpre (hnone a.length (by rw [hab]; simp))
    · have hl := hp.length_le
      simp only [List.length_cons, List.length_nil, List.length_drop] at hl
      omega

theorem tolower_eq_semicolon (c : Char) : tolower c = ';' ↔ c = ';' := by
  unfold tolower
  split
  · rename_i h
    constructor
    · intro hc
      exfalso
      have h2 : c = Char.ofNat c.toNat := (Char.ofNat_toNat c).symm
      generalize c.toNat = n at h hc h2
      obtain ⟨h65, h90⟩ := h
      interval_cases n <;> revert hc <;> decide
    · intro hc
      subst hc
      exact absurd h (by decide)
  · rfl

theorem semicolon_mem_map_tolower (s : List Char) : ';' ∈ s.map tolower ↔ ';' ∈ s := by
  simp only [List.mem_map]
  constructor
  · rintro ⟨c, hc, he⟩
    rw [(tolower_eq_semicolon c).mp he] at hc
    exact hc
  · intro h
    exact ⟨';', h, (tolower_eq_semicolon ';').mpr rfl⟩

/-! ## The claim about the routing of the fluid text -/

/-- C3: a fluid text whose lower-cased form is longer than four characters
and ends in `.mix` is set through `SETMIXTUREdll` (no `SETFLUIDSdll`) with
mixture flag 1; otherwise a text containing `;` is set through `SETFLUIDSdll`
with mixture flag 1; otherwise the text is set through `SETFLUIDSdll` and the
mixture flag stays 0. The text `.mix` itself takes the last route. -/
theorem setFluid_routing {σ : Type} (R : Refprop σ) (lib : σ) (fluid : List Char) (z : List ℚ)
    (hlen : fluid.length < SIZE_MOD) :
    (((fluid.map tolower).length > 4 ∧ ['.', 'm', 'i', 'x'] <:+ fluid.map tolower) →
        (setFluid R lib fluid z).events =
          [Event.mexPrintf "Found Mixture from .MIX file\n",
           Event.SETMIXTUREdll fluid z (R.SETMIXTUREdll lib fluid z).1.1
             (R.SETMIXTUREdll lib fluid z).1.2] ∧
        (setFluid R lib fluid z).mixFlag = 1) ∧
    (¬ ((fluid.map tolower).length > 4 ∧ ['.', 'm', 'i', 'x'] <:+ fluid.map tolower) →
        ';' ∈ fluid →
        (setFluid R lib fluid z).events =
          [Event.mexPrintf "Found Mixture passed in as arguement\n",
           Event.SETFLUIDSdll fluid (R.SETFLUIDSdll lib fluid).1] ∧
        (setFluid R lib fluid z).mixFlag = 1) ∧
    (¬ ((fluid.map tolower).length > 4 ∧ ['.', 'm', 'i', 'x'] <:+ fluid.map tolower) →
        ';' ∉ fluid →
        (setFluid R lib fluid z).events = [Event.SETFLUIDSdll fluid (R.SETFLUIDSdll lib fluid).1] ∧
        (setFluid R lib fluid z).mixFlag = 0) ∧
    ((setFluid R lib ['.', 'm', 'i', 'x'] z).events =
        [Event.SETFLUIDSdll ['.', 'm', 'i', 'x'] (R.SETFLUIDSdll lib ['.', 'm', 'i', 'x']).1] ∧
      (setFluid R lib ['.', 'm', 'i', 'x'] z).mixFlag = 0) := by
  have hlen2 : (fluid.map tolower).length < SIZE_MOD := by simpa using hlen
  have hmix := mix_test_iff (fluid.map tolower) hlen2
  have hsem := (semicolon_test_iff (fluid.map tolower) hlen2).trans
    (semicolon_mem_map_tolower fluid)
  refine ⟨?_, ?_, ?_, ?_⟩
  · intro h
    have h2 := hmix.mpr h
    unfold setFluid
    simp only [h2, and_self, if_true]
  · intro h hs
    have h2 : ¬ ((fluid.map tolower).length > 4 ∧
        (rfind (fluid.map tolower) ['.', 'm', 'i', 'x'] + 4) % SIZE_MOD =
          (fluid.map tolower).length) := fun hc => h (hmix.mp hc)
    have h3 := hsem.mpr hs
    unfold setFluid
    simp only [h2, h3, if_false, if_true, and_self]
  · intro h hs
    have h2 : ¬ ((fluid.map tolower).length > 4 ∧
        (rfind (fluid.map tolower) ['.', 'm', 'i', 'x'] + 4) % SIZE_MOD =
          (fluid.map tolower).length) := fun hc => h (hmix.mp hc)
    have h3 : ¬ rfind (fluid.map tolower) [';'] < (fluid.map tolower).length :=
      fun hc => hs (hsem.mp hc)
    unfold setFluid
    simp only [h2, h3, if_false, and_self]
  · have hl : ¬ ((['.', 'm', 'i', 'x'].map tolower).length > 4 ∧
        (rfind (['.', 'm', 'i', 'x'].map tolower) ['.', 'm', 'i', 'x'] + 4) % SIZE_MOD =
          (['.', 'm', 'i', 'x'].map tolower).length) := by
      intro hc
      exact absurd hc.1 (by simp)
    have h3 : ¬ rfind (['.', 'm', 'i', 'x'].map tolower) [';'] <
        (['.', 'm', 'i', 'x'].map tolower).length := by
      rw [semicolon_test_iff _ (by simp [SIZE_MOD]), semicolon_mem_map_tolower]
      decide
    unfold setFluid
    simp only [hl, h3, if_false, and_self]


/-! ## Traces -/

theorem refpropCalls_append (t1 t2 : List Event) :
    refpropCalls (t1 ++ t2) = refpropCalls t1 ++ refpropCalls t2 := by
  induction t1 with
  | nil => rfl
  | cons e t ih => cases e <;> simp [refpropCalls, ih]

theorem unloadCalls_append (t1 t2 : List Event) :
    unloadCalls (t1 ++ t2) = unloadCalls t1 + unloadCalls t2 := by
  induction t1 with
  | nil => simp [unloadCalls]
  | cons e t ih =>
    cases e <;> simp [unloadCalls, ih]
    omega

theorem mem_refpropCalls {t : List Event} {inp : RefpropIn} {out : RefpropOut} :
    (inp, out) ∈ refpropCalls t ↔ Event.REFPROPdll inp out ∈ t := by
  induction t with
  | nil => simp [refpropCalls]
  | cons e t ih => cases e <;> simp [refpropCalls, ih]

theorem refpropCalls_of_prints {t : List Event} (h : ∀ e ∈ t, e.isPrint = true) :
    refpropCalls t = [] := by
  induction t with
  | nil => rfl
  | cons e t ih =>
    have he := h e (List.mem_cons_self _ _)
    have ht := ih (fun x hx => h x (List.mem_cons_of_mem _ hx))
    cases e <;> simp [Event.isPrint] at he <;> simp [refpropCalls, ht]

theorem unloadCalls_of_prints {t : List Event} (h : ∀ e ∈ t, e.isPrint = true) :
    unloadCalls t = 0 := by
  induction t with
  | nil => rfl
  | cons e t ih =>
    have he := h e (List.mem_cons_self _ _)
    have ht := ih (fun x hx => h x (List.mem_cons_of_mem _ hx))
    cases e <;> simp [Event.isPrint] at he <;> simp [unloadCalls, ht]

theorem componentLines_prints (name : List Char) (x y x3 : List ℚ) (itrcmp : Nat) :
    ∀ e ∈ componentLines name x y x3 itrcmp, e.isPrint = true := by
  intro e he
  unfold componentLines at he
  split_ifs at he
  · simp only [List.mem_append, List.mem_cons, List.mem_singleton, List.not_mem_nil,
      or_false] at he
    rcases he with (he | he | he) | he <;> subst he <;> rfl
  · simp only [List.mem_append, List.mem_cons, List.not_mem_nil, or_false] at he
    rcases he with he | he | he <;> subst he <;> rfl

theorem compositionLoop_prints (parsed : List Char) (z x y x3 : List ℚ) (fuel itrcmp bgn : Nat)
    (lines : List Event) (h : compositionLoop parsed z x y x3 fuel itrcmp bgn = some lines) :
    ∀ e ∈ lines, e.isPrint = true := by
  induction fuel generalizing itrcmp bgn lines with
  | zero =>
    simp only [compositionLoop, Option.some.injEq] at h
    subst h
    simp
  | succ fuel ih =>
    unfold compositionLoop at h
    cases hz : z[itrcmp]? with
    | none => simp [hz] at h
    | some zi =>
      simp only [hz] at h
      by_cases hzi : zi > literal_0_000000001
      · simp only [hzi, if_true] at h
        cases hs : substr parsed bgn (find parsed [';'] bgn) with
        | none => simp [hs] at h
        | some name =>
          simp only [hs] at h
          cases hm : compositionLoop parsed z x y x3 fuel (itrcmp + 1)
              ((find parsed [';'] bgn + 1) % SIZE_MOD) with
          | none => simp [hm] at h
          | some more =>
            simp only [hm, Option.some.injEq] at h
            subst h
            intro e he
            rcases List.mem_append.mp he with he | he
            · exact componentLines_prints _ _ _ _ _ e he
            · exact ih _ _ _ hm e he
      · simp only [hzi, if_false, Option.some.injEq] at h
        subst h
        simp

theorem debugBlock_prints (env : Env) (itr itc : Nat) (inp : RefpropIn) (out : RefpropOut)
    (lines : List Event) (h : debugBlock env itr itc inp out = some lines) :
    ∀ e ∈ lines, e.isPrint = true := by
  unfold debugBlock at h
  split at h
  · cases h
  · rename_i more hmore
    simp only [Option.some.injEq] at h
    subst h
    intro e he
    rcases List.mem_cons.mp he with he | he
    · subst he; rfl
    · exact compositionLoop_prints _ _ _ _ _ _ _ _ _ hmore e he


/-! ## One evaluation -/

theorem refpropCalls_single (inp : RefpropIn) (out : RefpropOut) :
    refpropCalls [Event.REFPROPdll inp out] = [(inp, out)] := rfl

theorem unloadCalls_single (inp : RefpropIn) (out : RefpropOut) :
    unloadCalls [Event.REFPROPdll inp out] = 0 := rfl

theorem evaluate_summary {σ : Type} (R : Refprop σ) (env : Env) (site itr itc : Nat) (a : ℚ)
    (s : Session σ) :
    Summary env s [(callIn env s.hFld a (env.value2.getD itc 0), env.numelVal1 * itc + itr)]
      (evaluate R env site itr itc a s) := by
  unfold evaluate
  cases hb : env.value2[itc]? with
  | none =>
    refine ⟨[], by simp [resultTrace], by simp [resultTrace], by simp, ?_⟩
    simp
  | some b =>
    have hgetD : env.value2.getD itc 0 = b := by
      rw [List.getD_eq_getElem?_getD, hb]
      rfl
    rw [hgetD]
    simp only []
    by_cases herr : (R.REFPROPdll s.lib (callIn env s.hFld a b)).1.ierr ≠ 0
    · have herr2 : (R.REFPROPdll s.lib
          ⟨s.hFld, env.hIn, env.hOut, env.iUnits, env.iMass, env.mixFlag, a, b, env.z⟩).1.ierr ≠ 0 :=
        herr
      rw [if_pos herr2]
      refine ⟨[(callIn env s.hFld a b, (R.REFPROPdll s.lib (callIn env s.hFld a b)).1)], ?_, ?_,
        ?_, ?_⟩
      · simp only [resultTrace, refpropCalls_append]
        rfl
      · simp only [resultTrace, unloadCalls_append]
        rfl
      · simp
      · exact ⟨[], _, site, rfl, by simp, herr, rfl⟩
    · have herr2 : ¬ (R.REFPROPdll s.lib
          ⟨s.hFld, env.hIn, env.hOut, env.iUnits, env.iMass, env.mixFlag, a, b, env.z⟩).1.ierr ≠ 0 :=
        herr
      rw [if_neg herr2]
      have hok : (R.REFPROPdll s.lib (callIn env s.hFld a b)).1.ierr = 0 := not_not.mp herr
      by_cases hidx : env.numelVal1 * itc + itr < s.propReqOut.length
      · rw [if_pos hidx]
        cases hD : env.DebugOut with
        | false =>
          simp only [Bool.false_eq_true, if_false]
          refine ⟨[(callIn env s.hFld a b, (R.REFPROPdll s.lib (callIn env s.hFld a b)).1)],
            ?_, ?_, ?_, ?_⟩
          · simp only [resultTrace, refpropCalls_append]
            rfl
          · simp only [resultTrace, unloadCalls_append]
            rfl
          · simp
          · refine ⟨rfl, ?_, ?_, rfl⟩
            · intro io hio
              rw [List.mem_singleton] at hio
              rw [hio]
              exact hok
            · intro c hc
              rw [List.mem_singleton] at hc
              rw [hc]
              exact hidx
        | true =>
          simp only [if_true]
          cases hdb : debugBlock env itr itc
              ⟨s.hFld, env.hIn, env.hOut, env.iUnits, env.iMass, env.mixFlag, a, b, env.z⟩
              (R.REFPROPdll s.lib
                ⟨s.hFld, env.hIn, env.hOut, env.iUnits, env.iMass, env.mixFlag, a, b, env.z⟩).1 with
          | none =>
            refine ⟨[(callIn env s.hFld a b, (R.REFPROPdll s.lib (callIn env s.hFld a b)).1)],
              ?_, ?_, ?_, ?_⟩
            · simp only [resultTrace, refpropCalls_append]
              rfl
            · simp only [resultTrace, unloadCalls_append]
              rfl
            · simp
            · intro io hio
              rw [List.mem_singleton] at hio
              rw [hio]
              exact hok
          | some lines =>
            have hp := debugBlock_prints _ _ _ _ _ _ hdb
            refine ⟨[(callIn env s.hFld a b, (R.REFPROPdll s.lib (callIn env s.hFld a b)).1)],
              ?_, ?_, ?_, ?_⟩
            · simp only [resultTrace, refpropCalls_append, refpropCalls_of_prints hp,
                List.append_nil]
              rfl
            · simp only [resultTrace, unloadCalls_append, unloadCalls_of_prints hp]
              rfl
            · simp
            · refine ⟨rfl, ?_, ?_, rfl⟩
              · intro io hio
                rw [List.mem_singleton] at hio
                rw [hio]
                exact hok
              · intro c hc
                rw [List.mem_singleton] at hc
                rw [hc]
                exact hidx
      · rw [if_neg hidx]
        refine ⟨[(callIn env s.hFld a b, (R.REFPROPdll s.lib (callIn env s.hFld a b)).1)],
          ?_, ?_, ?_, ?_⟩
        · simp only [resultTrace, refpropCalls_append]
          rfl
        · simp only [resultTrace, unloadCalls_append]
          rfl
        · simp
        · intro io hio
          rw [List.mem_singleton] at hio
          rw [hio]
          exact hok

theorem evaluate_hFld {σ : Type} (R : Refprop σ) (env : Env) (site itr itc : Nat) (a : ℚ)
    (s s1 : Session σ) (h : evaluate R env site itr itc a s = .ok s1) : s1.hFld = s.hFld := by
  unfold evaluate at h
  split at h
  · cases h
  · simp only [] at h
    split_ifs at h
    · split at h
      · cases h
      · injection h with h
        rw [← h]
    · injection h with h
      rw [← h]


/-! ## Sequences of evaluations -/

theorem stores_append (buf : List ℚ) (w1 w2 : List (Nat × ℚ)) :
    stores buf (w1 ++ w2) = stores (stores buf w1) w2 := by
  induction w1 generalizing buf with
  | nil => rfl
  | cons p w ih =>
    obtain ⟨i, v⟩ := p
    simp only [List.cons_append, stores]
    exact ih _

theorem stores_length (buf : List ℚ) (w : List (Nat × ℚ)) :
    (stores buf w).length = buf.length := by
  induction w generalizing buf with
  | nil => rfl
  | cons p w ih =>
    obtain ⟨i, v⟩ := p
    simp only [stores]
    rw [ih, List.length_set]

theorem Summary_seq_error {σ : Type} {env : Env} {s : Session σ}
    {c1 : List (RefpropIn × Nat)} (c2 : List (RefpropIn × Nat)) {r : Run}
    (h1 : Summary env s c1 (.error r)) : Summary env s (c1 ++ c2) (.error r) := by
  obtain ⟨L, hc, hu, hp, hm⟩ := h1
  refine ⟨L, hc, hu, ?_, hm⟩
  rw [List.map_append]
  exact hp.trans (List.prefix_append _ _)

theorem Summary_seq_ok {σ : Type} {env : Env} {s s1 : Session σ}
    {c1 c2 : List (RefpropIn × Nat)} {res2 : Except Run (Session σ)}
    (h1 : Summary env s c1 (.ok s1)) (h2 : Summary env s1 c2 res2) :
    Summary env s (c1 ++ c2) res2 := by
  obtain ⟨L1, hc1, hu1, hp1, hlen1, hok1, hb1, hst1⟩ := h1
  obtain ⟨L2, hc2, hu2, hp2, hm2⟩ := h2
  simp only [resultTrace] at hc1 hu1
  have hmap1 : L1.map Prod.fst = c1.map Prod.fst :=
    hp1.eq_of_length (by simp [hlen1])
  refine ⟨L1 ++ L2, ?_, ?_, ?_, ?_⟩
  · rw [hc2, hc1, List.append_assoc]
  · rw [hu2, hu1]
  · rw [List.map_append, List.map_append, hmap1]
    exact (List.prefix_append_right_inj _).mpr hp2
  · cases res2 with
    | ok s2 =>
      obtain ⟨hlen2, hok2, hb2, hst2⟩ := hm2
      refine ⟨by simp [hlen1, hlen2], ?_, ?_, ?_⟩
      · intro io hio
        rcases List.mem_append.mp hio with h | h
        · exact hok1 io h
        · exact hok2 io h
      · intro c hc
        rcases List.mem_append.mp hc with h | h
        · exact hb1 c h
        · have := hb2 c h
          rw [hst1, stores_length] at this
          exact this
      · rw [hst2, hst1, ← stores_append, List.map_append, List.map_append,
          List.zip_append (by simp [hlen1])]
    | error r =>
      simp only [] at hm2 ⊢
      cases ho : r.outcome with
      | undefined =>
        rw [ho] at hm2
        simp only [] at hm2 ⊢
        intro io hio
        rcases List.mem_append.mp hio with h | h
        · exact hok1 io h
        · exact hm2 io h
      | raised e =>
        rw [ho] at hm2
        simp only [] at hm2 ⊢
        obtain ⟨L0, io, site, hL, hok0, hio, he⟩ := hm2
        refine ⟨L1 ++ L0, io, site, by rw [hL, List.append_assoc], ?_, hio, he⟩
        intro x hx
        rcases List.mem_append.mp hx with h | h
        · exact hok1 x h
        · exact hok0 x h
      | returned m =>
        rw [ho] at hm2
        exact hm2

theorem Summary_nil {σ : Type} (env : Env) (s : Session σ) : Summary env s [] (.ok s) :=
  ⟨[], by simp [resultTrace], by simp [resultTrace], by simp, rfl, by simp, by simp, rfl⟩

theorem colLoop_hFld {σ : Type} (R : Refprop σ) (env : Env) (site itr : Nat) (a : ℚ)
    (cols : List Nat) (s s1 : Session σ) (h : colLoop R env site itr a cols s = .ok s1) :
    s1.hFld = s.hFld := by
  induction cols generalizing s with
  | nil =>
    simp only [colLoop] at h
    injection h with h
    rw [h]
  | cons c rest ih =>
    simp only [colLoop] at h
    cases he : evaluate R env site itr c a s with
    | error r => simp [he] at h
    | ok s2 =>
      simp only [he] at h
      rw [ih s2 h, evaluate_hFld R env site itr c a s s2 he]

theorem colLoop_summary {σ : Type} (R : Refprop σ) (env : Env) (site itr : Nat) (a : ℚ)
    (cols : List Nat) (s : Session σ) :
    Summary env s
      (cols.map fun c => (callIn env s.hFld a (env.value2.getD c 0), env.numelVal1 * c + itr))
      (colLoop R env site itr a cols s) := by
  induction cols generalizing s with
  | nil => exact Summary_nil env s
  | cons c rest ih =>
    simp only [colLoop, List.map_cons]
    have h1 := evaluate_summary R env site itr c a s
    cases he : evaluate R env site itr c a s with
    | error r =>
      rw [he] at h1
      exact Summary_seq_error _ h1
    | ok s1 =>
      rw [he] at h1
      have h2 := ih s1
      rw [evaluate_hFld R env site itr c a s s1 he] at h2
      exact Summary_seq_ok h1 h2

theorem rowLoop_hFld {σ : Type} (R : Refprop σ) (env : Env)
    (rows : List Nat) (s s1 : Session σ) (h : rowLoop R env rows s = .ok s1) :
    s1.hFld = s.hFld := by
  induction rows generalizing s with
  | nil =>
    simp only [rowLoop] at h
    injection h with h
    rw [h]
  | cons r rest ih =>
    simp only [rowLoop] at h
    cases ha : env.value1[r]? with
    | none => simp [ha] at h
    | some a =>
      simp only [ha] at h
      cases hc : colLoop R env 3 r a (List.range env.numelVal2) s with
      | error e => simp [hc] at h
      | ok s2 =>
        simp only [hc] at h
        rw [ih s2 h, colLoop_hFld R env 3 r a _ s s2 hc]

/-- The cells of the rows `rows`, row after row, each row from column 0 to
column `numelVal2 - 1`. -/
theorem rowLoop_summary {σ : Type} (R : Refprop σ) (env : Env) (rows : List Nat)
    (s : Session σ) :
    Summary env s
      (rows.flatMap fun r => (List.range env.numelVal2).map fun c =>
        (callIn env s.hFld (env.value1.getD r 0) (env.value2.getD c 0), env.numelVal1 * c + r))
      (rowLoop R env rows s) := by
  induction rows generalizing s with
  | nil => exact Summary_nil env s
  | cons r rest ih =>
    simp only [rowLoop, List.flatMap_cons]
    cases ha : env.value1[r]? with
    | none =>
      refine ⟨[], by simp [resultTrace], by simp [resultTrace], by simp, ?_⟩
      simp
    | some a =>
      have hgetD : env.value1.getD r 0 = a := by
        rw [List.getD_eq_getElem?_getD, ha]
        rfl
      rw [hgetD]
      simp only []
      have h1 := colLoop_summary R env 3 r a (List.range env.numelVal2) s
      cases hc : colLoop R env 3 r a (List.range env.numelVal2) s with
      | error e =>
        rw [hc] at h1
        exact Summary_seq_error _ h1
      | ok s1 =>
        rw [hc] at h1
        have h2 := ih s1
        rw [colLoop_hFld R env 3 r a _ s s1 hc] at h2
        exact Summary_seq_ok h1 h2


/-! ## The walk over the grid -/

theorem evaluate_trace_prefix {σ : Type} (R : Refprop σ) (env : Env) (site itr itc : Nat)
    (a : ℚ) (s : Session σ) : s.trace <+: resultTrace (evaluate R env site itr itc a s) := by
  unfold evaluate
  split
  · exact List.prefix_refl _
  · simp only []
    split_ifs
    · exact List.prefix_append _ _
    · split
      · exact List.prefix_append _ _
      · simp only [resultTrace, List.append_assoc]
        exact List.prefix_append _ _
    · exact List.prefix_append _ _
    · exact List.prefix_append _ _

theorem colLoop_trace_prefix {σ : Type} (R : Refprop σ) (env : Env) (site itr : Nat) (a : ℚ)
    (cols : List Nat) (s : Session σ) :
    s.trace <+: resultTrace (colLoop R env site itr a cols s) := by
  induction cols generalizing s with
  | nil => exact List.prefix_refl _
  | cons c rest ih =>
    simp only [colLoop]
    have h1 := evaluate_trace_prefix R env site itr c a s
    cases he : evaluate R env site itr c a s with
    | error r =>
      rw [he] at h1
      exact h1
    | ok s1 =>
      rw [he] at h1
      exact h1.trans (ih s1)

theorem rowLoop_trace_prefix {σ : Type} (R : Refprop σ) (env : Env) (rows : List Nat)
    (s : Session σ) : s.trace <+: resultTrace (rowLoop R env rows s) := by
  induction rows generalizing s with
  | nil => exact List.prefix_refl _
  | cons r rest ih =>
    simp only [rowLoop]
    cases ha : env.value1[r]? with
    | none => exact List.prefix_refl _
    | some a =>
      simp only []
      have h1 := colLoop_trace_prefix R env 3 r a (List.range env.numelVal2) s
      cases hc : colLoop R env 3 r a (List.range env.numelVal2) s with
      | error e =>
        rw [hc] at h1
        exact h1
      | ok s1 =>
        rw [hc] at h1
        exact h1.trans (ih s1)

/-- A piece of the walk that stopped early gives the summary of the whole
walk. -/
theorem GridSummary_of_error {σ : Type} {env : Env} {s : Session σ} {r : Run}
    (h : Summary env s (gridCells env s.hFld) (.error r)) : GridSummary env s r := by
  obtain ⟨L, hc, hu, hp, hm⟩ := h
  refine ⟨L, hc, hp, ?_⟩
  simp only [resultTrace] at hu
  simp only [] at hm
  cases ho : r.outcome with
  | undefined =>
    rw [ho] at hm
    exact ⟨hm, hu⟩
  | raised e =>
    rw [ho] at hm
    exact ⟨hm, hu⟩
  | returned m =>
    rw [ho] at hm
    exact hm.elim

theorem grid_summary {σ : Type} (R : Refprop σ) (env : Env) (s : Session σ) :
    GridSummary env s (grid R env s) := by
  unfold grid
  cases ha : env.value1[0]? with
  | none =>
    refine ⟨[], by simp, by simp, ?_⟩
    simp
  | some a =>
    have hgetD : env.value1.getD 0 0 = a := by
      rw [List.getD_eq_getElem?_getD, ha]
      rfl
    simp only []
    have h1 := evaluate_summary R env 1 0 0 a s
    cases he : evaluate R env 1 0 0 a s with
    | error r =>
      rw [he] at h1
      apply GridSummary_of_error
      unfold gridCells
      rw [hgetD, List.append_assoc]
      exact Summary_seq_error _ h1
    | ok s1 =>
      rw [he] at h1
      simp only []
      have h2 := colLoop_summary R env 2 0 a (List.range' 1 (env.numelVal2 - 1))
        { s1 with hFld := [' '] }
      have h2' : Summary env s1
          ((List.range' 1 (env.numelVal2 - 1)).map fun c =>
            (callIn env [' '] a (env.value2.getD c 0), env.numelVal1 * c + 0))
          (colLoop R env 2 0 a (List.range' 1 (env.numelVal2 - 1))
            { s1 with hFld := [' '] }) := h2
      have h12 := Summary_seq_ok h1 h2'
      cases hc : colLoop R env 2 0 a (List.range' 1 (env.numelVal2 - 1))
          { s1 with hFld := [' '] } with
      | error r =>
        rw [hc] at h12
        apply GridSummary_of_error
        unfold gridCells
        rw [hgetD]
        exact Summary_seq_error _ h12
      | ok s2 =>
        rw [hc] at h12
        simp only []
        have hf2 : s2.hFld = [' '] := colLoop_hFld R env 2 0 a _ _ s2 hc
        have h3 := rowLoop_summary R env (List.range' 1 (env.numelVal1 - 1)) s2
        rw [hf2] at h3
        have h123 := Summary_seq_ok h12 h3
        have hcells : [(callIn env s.hFld a (env.value2.getD 0 0), env.numelVal1 * 0 + 0)] ++
            ((List.range' 1 (env.numelVal2 - 1)).map fun c =>
              (callIn env [' '] a (env.value2.getD c 0), env.numelVal1 * c + 0)) ++
            ((List.range' 1 (env.numelVal1 - 1)).flatMap fun r =>
              (List.range env.numelVal2).map fun c =>
                (callIn env [' '] (env.value1.getD r 0) (env.value2.getD c 0),
                  env.numelVal1 * c + r)) = gridCells env s.hFld := by
          unfold gridCells
          rw [hgetD]
        rw [hcells] at h123
        cases hr : rowLoop R env (List.range' 1 (env.numelVal1 - 1)) s2 with
        | error r =>
          rw [hr] at h123
          exact GridSummary_of_error h123
        | ok s3 =>
          rw [hr] at h123
          simp only []
          obtain ⟨L, hcl, hu, hp, hlen, hok, hb, hst⟩ := h123
          simp only [resultTrace] at hcl hu
          refine ⟨L, ?_, hp, hlen, hok, hb, ?_, ?_⟩
          · cases env.DebugOut <;> cases (R.unload_REFPROP s3.lib).1 <;>
              simp [refpropCalls_append, refpropCalls, hcl]
          · cases env.DebugOut <;> cases (R.unload_REFPROP s3.lib).1 <;>
              simp [unloadCalls_append, unloadCalls, hu]
          · rw [hst]

theorem grid_trace_prefix {σ : Type} (R : Refprop σ) (env : Env) (s : Session σ) :
    s.trace <+: (grid R env s).trace := by
  unfold grid
  cases ha : env.value1[0]? with
  | none => exact List.prefix_refl _
  | some a =>
    simp only []
    have h1 := evaluate_trace_prefix R env 1 0 0 a s
    cases he : evaluate R env 1 0 0 a s with
    | error r =>
      rw [he] at h1
      exact h1
    | ok s1 =>
      rw [he] at h1
      simp only []
      have h2 := colLoop_trace_prefix R env 2 0 a (List.range' 1 (env.numelVal2 - 1))
        { s1 with hFld := [' '] }
      cases hc : colLoop R env 2 0 a (List.range' 1 (env.numelVal2 - 1))
          { s1 with hFld := [' '] } with
      | error r =>
        rw [hc] at h2
        exact h1.trans h2
      | ok s2 =>
        rw [hc] at h2
        simp only []
        have h3 := rowLoop_trace_prefix R env (List.range' 1 (env.numelVal1 - 1)) s2
        cases hr : rowLoop R env (List.range' 1 (env.numelVal1 - 1)) s2 with
        | error r =>
          rw [hr] at h3
          exact (h1.trans h2).trans h3
        | ok s3 =>
          rw [hr] at h3
          simp only [List.append_assoc]
          exact ((h1.trans h2).trans h3).trans (List.prefix_append _ _)


/-! ## The order of the cells and their slots -/

theorem flatMap_range_eq_map {α : Type} (f : Nat → Nat → α) (M N : Nat) :
    ((List.range M).flatMap fun r => (List.range N).map (f r)) =
      (List.range (M * N)).map fun k => f (k / N) (k % N) := by
  induction M with
  | zero => simp
  | succ M ih =>
    rw [List.range_succ, List.flatMap_append, ih, Nat.succ_mul, List.range_add, List.map_append,
      List.map_map]
    congr 1
    simp only [List.flatMap_cons, List.flatMap_nil, List.append_nil]
    apply List.map_congr_left
    intro j hj
    have hjN : j < N := List.mem_range.mp hj
    have hN : 0 < N := by omega
    simp only [Function.comp]
    rw [Nat.mul_comm M N, Nat.mul_add_div hN, Nat.mul_add_mod, Nat.div_eq_of_lt hjN,
      Nat.mod_eq_of_lt hjN, Nat.add_zero]

theorem range_eq_cons (n : Nat) (h : 1 ≤ n) : List.range n = 0 :: List.range' 1 (n - 1) := by
  rw [List.range_eq_range']
  obtain ⟨m, rfl⟩ : ∃ m, n = m + 1 := ⟨n - 1, by omega⟩
  rfl

/-- The cells in row-major order: cell number `k` is the cell of row `k / N`
and column `k % N`; its slot in the buffer is `M * (k % N) + k / N`; its
evaluation is given the fluid text for `k = 0` and the blank text after. -/
theorem gridCells_eq (env : Env) (hFld : List Char) (hM : 1 ≤ env.numelVal1)
    (hN : 1 ≤ env.numelVal2) :
    gridCells env hFld =
      (List.range (env.numelVal1 * env.numelVal2)).map fun k =>
        (callIn env (if k = 0 then hFld else [' ']) (env.value1.getD (k / env.numelVal2) 0)
            (env.value2.getD (k % env.numelVal2) 0),
          env.numelVal1 * (k % env.numelVal2) + k / env.numelVal2) := by
  have hblank := flatMap_range_eq_map
    (fun r c => (callIn env [' '] (env.value1.getD r 0) (env.value2.getD c 0),
      env.numelVal1 * c + r)) env.numelVal1 env.numelVal2
  have hMN : 1 ≤ env.numelVal1 * env.numelVal2 := Nat.mul_pos hM hN
  rw [range_eq_cons _ hM, List.flatMap_cons, range_eq_cons env.numelVal2 hN, List.map_cons,
    range_eq_cons _ hMN, List.map_cons, ← range_eq_cons env.numelVal2 hN] at hblank
  simp only [List.cons_append] at hblank
  injection hblank with _ htail
  unfold gridCells
  rw [range_eq_cons _ hMN, List.map_cons]
  simp only [List.singleton_append, List.cons_append, List.append_assoc]
  have hzero : (0 : Nat) / env.numelVal2 = 0 := Nat.zero_div _
  have hzero2 : (0 : Nat) % env.numelVal2 = 0 := Nat.zero_mod _
  rw [hzero, hzero2]
  simp only [if_true]
  congr 1
  rw [htail]
  apply List.map_congr_left
  intro k hk
  have hk1 : 1 ≤ k := by
    rw [List.mem_range'_1] at hk
    exact hk.1
  have hk0 : k ≠ 0 := by omega
  simp only [hk0, if_false]

theorem slot_injective (M N k1 k2 : Nat) (h1 : k1 < M * N) (h2 : k2 < M * N)
    (h : M * (k1 % N) + k1 / N = M * (k2 % N) + k2 / N) : k1 = k2 := by
  have hd1 : k1 / N < M := Nat.div_lt_of_lt_mul (by rw [Nat.mul_comm]; exact h1)
  have hd2 : k2 / N < M := Nat.div_lt_of_lt_mul (by rw [Nat.mul_comm]; exact h2)
  have hM : 0 < M := Nat.pos_of_ne_zero (fun h0 => by rw [h0] at hd1; exact Nat.not_lt_zero _ hd1)
  have hmod : (M * (k1 % N) + k1 / N) % M = (M * (k2 % N) + k2 / N) % M := by rw [h]
  rw [Nat.mul_add_mod, Nat.mul_add_mod, Nat.mod_eq_of_lt hd1, Nat.mod_eq_of_lt hd2] at hmod
  have hdiv : (M * (k1 % N) + k1 / N) / M = (M * (k2 % N) + k2 / N) / M := by rw [h]
  rw [Nat.mul_add_div hM, Nat.mul_add_div hM, Nat.div_eq_of_lt hd1, Nat.div_eq_of_lt hd2,
    Nat.add_zero, Nat.add_zero] at hdiv
  rw [← Nat.div_add_mod k1 N, ← Nat.div_add_mod k2 N, hmod, hdiv]

theorem slot_lt (M N k : Nat) (h : k < M * N) : M * (k % N) + k / N < M * N := by
  have hN : 0 < N := by
    rcases Nat.eq_zero_or_pos N with h0 | h0
    · rw [h0] at h; simp at h
    · exact h0
  have hd : k / N < M := Nat.div_lt_of_lt_mul (by rw [Nat.mul_comm]; exact h)
  have hm : k % N < N := Nat.mod_lt _ hN
  calc M * (k % N) + k / N < M * (k % N) + M := by omega
    _ = M * (k % N + 1) := by ring
    _ ≤ M * N := Nat.mul_le_mul_left _ hm

theorem stores_getElem?_of_not_mem (buf : List ℚ) (ws : List (Nat × ℚ)) (j : Nat)
    (hj : j ∉ ws.map Prod.fst) : (stores buf ws)[j]? = buf[j]? := by
  induction ws generalizing buf with
  | nil => rfl
  | cons w rest ih =>
    obtain ⟨i, v⟩ := w
    simp only [List.map_cons, List.mem_cons, not_or] at hj
    simp only [stores]
    rw [ih _ hj.2, List.getElem?_set_ne (Ne.symm hj.1)]

/-- After stores into pairwise distinct slots inside the buffer, every slot
stored into holds the value stored there. -/
theorem stores_getElem? (buf : List ℚ) (ws : List (Nat × ℚ)) (hnd : (ws.map Prod.fst).Nodup)
    (hb : ∀ w ∈ ws, w.1 < buf.length) : ∀ w ∈ ws, (stores buf ws)[w.1]? = some w.2 := by
  induction ws generalizing buf with
  | nil => intro w hw; cases hw
  | cons w0 rest ih =>
    obtain ⟨i, v⟩ := w0
    rw [List.map_cons, List.nodup_cons] at hnd
    intro w hw
    simp only [stores]
    rcases List.mem_cons.mp hw with h | h
    · subst h
      rw [stores_getElem?_of_not_mem _ _ _ hnd.1]
      exact List.getElem?_set_self (hb _ (List.mem_cons_self _ _))
    · apply ih _ hnd.2 _ w h
      intro w' hw'
      rw [List.length_set]
      exact hb w' (List.mem_cons_of_mem _ hw')


/-! ## Runs without undefined behaviour -/

theorem find_cases (s pat : List Char) (pos : Nat) :
    find s pat pos = npos ∨ (find s pat pos ≤ s.length ∧ pat <+: s.drop (find s pat pos)) := by
  unfold find
  cases h : (List.range (s.length + 1)).find?
      (fun i => decide (pos ≤ i) && pat.isPrefixOf (s.drop i)) with
  | none => exact Or.inl rfl
  | some k =>
    right
    have hp := List.find?_some h
    have hm := List.mem_of_find?_eq_some h
    simp only [List.mem_range] at hm
    simp only [Bool.and_eq_true, decide_eq_true_eq] at hp
    exact ⟨by show k ≤ s.length; omega, List.isPrefixOf_iff_prefix.mp hp.2⟩

theorem next_bgn_le (parsed : List Char) (bgn : Nat) :
    (find parsed [';'] bgn + 1) % SIZE_MOD ≤ parsed.length := by
  rcases find_cases parsed [';'] bgn with h | ⟨hle, hpre⟩
  · rw [h]
    simp [npos, SIZE_MOD]
  · have hl := hpre.length_le
    simp only [List.length_cons, List.length_nil, List.length_drop] at hl
    exact le_trans (Nat.mod_le _ _) (by omega)

theorem compositionLoop_isSome (parsed : List Char) (z x y x3 : List ℚ) (fuel itrcmp bgn : Nat)
    (hz : itrcmp + fuel ≤ z.length) (hbgn : bgn ≤ parsed.length) :
    ∃ lines, compositionLoop parsed z x y x3 fuel itrcmp bgn = some lines := by
  induction fuel generalizing itrcmp bgn with
  | zero => exact ⟨[], rfl⟩
  | succ fuel ih =>
    unfold compositionLoop
    have hlt : itrcmp < z.length := by omega
    rw [List.getElem?_eq_getElem hlt]
    simp only []
    by_cases hzi : z[itrcmp] > literal_0_000000001
    · rw [if_pos hzi]
      have hsub : substr parsed bgn (find parsed [';'] bgn) =
          some ((parsed.drop bgn).take (find parsed [';'] bgn)) := by
        unfold substr
        rw [if_pos hbgn]
      simp only [hsub]
      obtain ⟨more, hmore⟩ := ih (itrcmp + 1) ((find parsed [';'] bgn + 1) % SIZE_MOD)
        (by omega) (next_bgn_le parsed bgn)
      rw [hmore]
      exact ⟨_, rfl⟩
    · rw [if_neg hzi]
      exact ⟨[], rfl⟩

theorem debugBlock_isSome (env : Env) (itr itc : Nat) (inp : RefpropIn) (out : RefpropOut)
    (hz : 20 ≤ env.z.length) : ∃ lines, debugBlock env itr itc inp out = some lines := by
  unfold debugBlock
  obtain ⟨lines, h⟩ := compositionLoop_isSome env.fluid env.z out.x out.y out.x3 20 0 0
    (by omega) (Nat.zero_le _)
  rw [h]
  exact ⟨_, rfl⟩

theorem Summary_ok_length {σ : Type} {env : Env} {s s1 : Session σ}
    {cells : List (RefpropIn × Nat)} (h : Summary env s cells (.ok s1)) :
    s1.propReqOut.length = s.propReqOut.length := by
  obtain ⟨L, _, _, _, _, _, _, hst⟩ := h
  rw [hst, stores_length]

theorem evaluate_defined {σ : Type} (R : Refprop σ) (env : Env) (site itr itc : Nat) (a : ℚ)
    (s : Session σ) (hc : itc < env.value2.length)
    (hidx : env.numelVal1 * itc + itr < s.propReqOut.length)
    (hdbg : env.DebugOut = true → 20 ≤ env.z.length) :
    ∀ r, evaluate R env site itr itc a s = .error r → r.outcome ≠ .undefined := by
  intro r hr
  unfold evaluate at hr
  rw [List.getElem?_eq_getElem hc] at hr
  simp only [] at hr
  split_ifs at hr with h1 h2
  · injection hr with hr
    rw [← hr]
    simp
  · obtain ⟨lines, hl⟩ := debugBlock_isSome env itr itc
      ⟨s.hFld, env.hIn, env.hOut, env.iUnits, env.iMass, env.mixFlag, a, env.value2[itc], env.z⟩
      (R.REFPROPdll s.lib
        ⟨s.hFld, env.hIn, env.hOut, env.iUnits, env.iMass, env.mixFlag, a, env.value2[itc],
          env.z⟩).1 (hdbg h2)
    rw [hl] at hr
    cases hr

theorem colLoop_defined {σ : Type} (R : Refprop σ) (env : Env) (site itr : Nat) (a : ℚ)
    (cols : List Nat) (s : Session σ)
    (hc : ∀ c ∈ cols, c < env.value2.length ∧ env.numelVal1 * c + itr < s.propReqOut.length)
    (hdbg : env.DebugOut = true → 20 ≤ env.z.length) :
    ∀ r, colLoop R env site itr a cols s = .error r → r.outcome ≠ .undefined := by
  induction cols generalizing s with
  | nil =>
    intro r hr
    simp [colLoop] at hr
  | cons c rest ih =>
    intro r hr
    simp only [colLoop] at hr
    have hc0 := hc c (List.mem_cons_self _ _)
    have h1 := evaluate_summary R env site itr c a s
    cases he : evaluate R env site itr c a s with
    | error r1 =>
      rw [he] at hr
      injection hr with hr
      rw [← hr]
      exact evaluate_defined R env site itr c a s hc0.1 hc0.2 hdbg r1 he
    | ok s1 =>
      rw [he] at hr h1
      simp only [] at hr
      refine ih s1 ?_ r hr
      intro c' hc'
      rw [Summary_ok_length h1]
      exact hc c' (List.mem_cons_of_mem _ hc')

theorem rowLoop_defined {σ : Type} (R : Refprop σ) (env : Env) (rows : List Nat)
    (s : Session σ)
    (hr : ∀ r ∈ rows, r < env.value1.length ∧
      ∀ c < env.numelVal2, c < env.value2.length ∧ env.numelVal1 * c + r < s.propReqOut.length)
    (hdbg : env.DebugOut = true → 20 ≤ env.z.length) :
    ∀ r, rowLoop R env rows s = .error r → r.outcome ≠ .undefined := by
  induction rows generalizing s with
  | nil =>
    intro r h
    simp [rowLoop] at h
  | cons r0 rest ih =>
    intro r h
    simp only [rowLoop] at h
    have h0 := hr r0 (List.mem_cons_self _ _)
    rw [List.getElem?_eq_getElem h0.1] at h
    simp only [] at h
    have h1 := colLoop_summary R env 3 r0 env.value1[r0] (List.range env.numelVal2) s
    cases hc : colLoop R env 3 r0 env.value1[r0] (List.range env.numelVal2) s with
    | error r1 =>
      rw [hc] at h
      injection h with h
      rw [← h]
      exact colLoop_defined R env 3 r0 _ _ s
        (fun c hc' => h0.2 c (List.mem_range.mp hc')) hdbg r1 hc
    | ok s1 =>
      rw [hc] at h h1
      simp only [] at h
      refine ih s1 ?_ r h
      intro r' hr'
      rw [Summary_ok_length h1]
      exact hr r' (List.mem_cons_of_mem _ hr')

theorem grid_defined {σ : Type} (R : Refprop σ) (env : Env) (s : Session σ)
    (hM : 1 ≤ env.numelVal1) (hN : 1 ≤ env.numelVal2)
    (h1 : env.value1.length = env.numelVal1) (h2 : env.value2.length = env.numelVal2)
    (hbuf : s.propReqOut.length = env.numelVal1 * env.numelVal2)
    (hdbg : env.DebugOut = true → 20 ≤ env.z.length) :
    (grid R env s).outcome ≠ .undefined := by
  have hslot : ∀ r c, r < env.numelVal1 → c < env.numelVal2 →
      env.numelVal1 * c + r < env.numelVal1 * env.numelVal2 := by
    intro r c hr hc
    calc env.numelVal1 * c + r < env.numelVal1 * c + env.numelVal1 := by omega
      _ = env.numelVal1 * (c + 1) := by ring
      _ ≤ env.numelVal1 * env.numelVal2 := Nat.mul_le_mul_left _ hc
  unfold grid
  rw [List.getElem?_eq_getElem (by omega : 0 < env.value1.length)]
  simp only []
  have s1sum := evaluate_summary R env 1 0 0 env.value1[0] s
  cases he : evaluate R env 1 0 0 env.value1[0] s with
  | error r =>
    exact evaluate_defined R env 1 0 0 _ s (by omega) (by rw [hbuf]; exact hslot 0 0 hM hN)
      hdbg r he
  | ok s1 =>
    rw [he] at s1sum
    have hl1 := Summary_ok_length s1sum
    simp only []
    have s2sum := colLoop_summary R env 2 0 env.value1[0] (List.range' 1 (env.numelVal2 - 1))
      { s1 with hFld := [' '] }
    cases hc : colLoop R env 2 0 env.value1[0] (List.range' 1 (env.numelVal2 - 1))
        { s1 with hFld := [' '] } with
    | error r =>
      refine colLoop_defined R env 2 0 _ _ { s1 with hFld := [' '] } ?_ hdbg r hc
      intro c hc'
      rw [List.mem_range'_1] at hc'
      have hcN : c < env.numelVal2 := by omega
      refine ⟨by omega, ?_⟩
      show env.numelVal1 * c + 0 < s1.propReqOut.length
      rw [hl1, hbuf]
      exact hslot 0 c hM hcN
    | ok s2 =>
      rw [hc] at s2sum
      have hl2 : s2.propReqOut.length = s1.propReqOut.length :=
        Summary_ok_length (s := { s1 with hFld := [' '] }) s2sum
      simp only []
      cases hr : rowLoop R env (List.range' 1 (env.numelVal1 - 1)) s2 with
      | error r =>
        refine rowLoop_defined R env _ s2 ?_ hdbg r hr
        intro r' hr'
        rw [List.mem_range'_1] at hr'
        have hrM : r' < env.numelVal1 := by omega
        refine ⟨by omega, ?_⟩
        intro c hcN
        refine ⟨by omega, ?_⟩
        rw [hl2, hl1, hbuf]
        exact hslot r' c hrM hcN
      | ok s3 =>
        simp


/-! ## From `mexFunction` to the walk over the grid -/

theorem gridEvaluator_load_failed {σ : Type} (R : Refprop σ) (lib : σ) (v : Arguments)
    (hload : (R.load_REFPROP lib v.path DLL_name).1 = false) :
    gridEvaluator R lib v =
      ⟨[Event.load_REFPROP v.path DLL_name false, Event.printfLoad v.path DLL_name],
        .returned ⟨v.numelVal1, v.numelVal2, List.replicate (v.numelVal1 * v.numelVal2) 0⟩⟩ := by
  unfold gridEvaluator
  simp [hload]

theorem gridEvaluator_fluid_failed {σ : Type} (R : Refprop σ) (lib : σ) (v : Arguments)
    (hload : (R.load_REFPROP lib v.path DLL_name).1 = true)
    (hfs : (setupFluid R lib v).ierr ≠ 0) :
    gridEvaluator R lib v =
      ⟨[Event.load_REFPROP v.path DLL_name true, Event.SETPATHdll v.path] ++
          (setupFluid R lib v).events,
        .raised (.fluidFailed v.fluid (setupFluid R lib v).ierr)⟩ := by
  unfold setupFluid at hfs
  unfold gridEvaluator setupFluid
  simp [hload, hfs]

theorem gridEvaluator_enum_failed {σ : Type} (R : Refprop σ) (lib : σ) (v : Arguments)
    (hload : (R.load_REFPROP lib v.path DLL_name).1 = true)
    (hfs : (setupFluid R lib v).ierr = 0) (hen : (setupEnum R lib v).1.2.1 ≠ 0) :
    gridEvaluator R lib v =
      ⟨setupTrace R lib v,
        .raised (.enumFailed v.unit_char (setupEnum R lib v).1.2.1 (setupEnum R lib v).1.2.2)⟩ := by
  unfold setupEnum setupFluid at hen
  unfold setupFluid at hfs
  unfold gridEvaluator setupTrace setupEnum setupFluid
  simp [hload, hfs, hen]

theorem gridEvaluator_grid {σ : Type} (R : Refprop σ) (lib : σ) (v : Arguments)
    (hload : (R.load_REFPROP lib v.path DLL_name).1 = true)
    (hfs : (setupFluid R lib v).ierr = 0) (hen : (setupEnum R lib v).1.2.1 = 0)
    (hfl : v.fluid_len = v.fluid.length + 1) (hsl : v.spec_len = v.specSum.length + 1)
    (hpl : v.propReq_len = v.propReq.length + 1)
    (hf : v.fluid.length < 255) (hs : v.specSum.length < 255) (hp : v.propReq.length < 255) :
    gridEvaluator R lib v = grid R (gridEnv R lib v) (gridSession R lib v) := by
  unfold setupEnum setupFluid at hen
  unfold setupFluid at hfs
  have h1 : strncpy 255 v.fluid v.fluid_len = some v.fluid := by
    unfold strncpy
    rw [if_pos ⟨by omega, by omega⟩]
  have h2 : strncpy 255 v.specSum v.spec_len = some v.specSum := by
    unfold strncpy
    rw [if_pos ⟨by omega, by omega⟩]
  have h3 : strncpy 255 v.propReq v.propReq_len = some v.propReq := by
    unfold strncpy
    rw [if_pos ⟨by omega, by omega⟩]
  unfold gridEvaluator gridEnv gridSession setupTrace setupEnum setupFluid
  simp [hload, hfs, hen, h1, h2, h3]

theorem setFluid_failed_event {σ : Type} (R : Refprop σ) (lib : σ) (fluid : List Char)
    (z : List ℚ) (h : (setFluid R lib fluid z).ierr ≠ 0) :
    ∃ e ∈ (setFluid R lib fluid z).events, e.failed = true := by
  unfold setFluid at h ⊢
  simp only [] at h ⊢
  split_ifs at h ⊢
  · exact ⟨_, List.mem_cons_of_mem _ (List.mem_singleton_self _), by simpa [Event.failed] using h⟩
  · exact ⟨_, List.mem_cons_of_mem _ (List.mem_singleton_self _), by simpa [Event.failed] using h⟩
  · exact ⟨_, List.mem_singleton_self _, by simpa [Event.failed] using h⟩

theorem setFluid_events_calls {σ : Type} (R : Refprop σ) (lib : σ) (fluid : List Char)
    (z : List ℚ) :
    refpropCalls (setFluid R lib fluid z).events = [] ∧
      unloadCalls (setFluid R lib fluid z).events = 0 ∧
      ∀ iFlag u iUnits ierr herr,
        Event.GETENUMdll iFlag u iUnits ierr herr ∉ (setFluid R lib fluid z).events := by
  unfold setFluid
  simp only []
  split_ifs <;> simp [refpropCalls, unloadCalls]

theorem setFluid_z_length {σ : Type} (R : Refprop σ) (lib : σ) (fluid : List Char)
    (z : List ℚ) : (setFluid R lib fluid z).z.length = z.length := by
  unfold setFluid
  simp only []
  split_ifs
  · simp only [overwrite, List.length_append, List.length_take, List.length_drop]
    omega
  · rfl
  · rfl

theorem setupTrace_calls {σ : Type} (R : Refprop σ) (lib : σ) (v : Arguments) :
    refpropCalls (setupTrace R lib v) = [] ∧ unloadCalls (setupTrace R lib v) = 0 := by
  have h := setFluid_events_calls R
    (R.SETPATHdll (R.load_REFPROP lib v.path DLL_name).2 v.path) v.fluid v.z
  unfold setupTrace setupFluid
  simp [refpropCalls_append, unloadCalls_append, refpropCalls, unloadCalls, h.1, h.2.1]

/-- A run of `gridEvaluator` in which no call of the library reports failure
has loaded the library, set the fluid and resolved the units. -/
theorem setup_ok_of_no_failure {σ : Type} (R : Refprop σ) (lib : σ) (v : Arguments)
    (hok : ∀ e ∈ (gridEvaluator R lib v).trace, e.failed = false) :
    (R.load_REFPROP lib v.path DLL_name).1 = true ∧ (setupFluid R lib v).ierr = 0 ∧
      (setupEnum R lib v).1.2.1 = 0 := by
  have hload : (R.load_REFPROP lib v.path DLL_name).1 = true := by
    by_contra hl
    have hl' : (R.load_REFPROP lib v.path DLL_name).1 = false := by simpa using hl
    rw [gridEvaluator_load_failed R lib v hl'] at hok
    have := hok (Event.load_REFPROP v.path DLL_name false) (by simp)
    simp [Event.failed] at this
  have hfs : (setupFluid R lib v).ierr = 0 := by
    by_contra hf
    rw [gridEvaluator_fluid_failed R lib v hload hf] at hok
    obtain ⟨e, he, hfail⟩ := setFluid_failed_event R _ v.fluid v.z hf
    have := hok e (by
      simp only [List.mem_append]
      exact Or.inr he)
    rw [this] at hfail
    cases hfail
  refine ⟨hload, hfs, ?_⟩
  by_contra hen
  rw [gridEvaluator_enum_failed R lib v hload hfs hen] at hok
  have := hok (Event.GETENUMdll 0 v.unit_char (setupEnum R lib v).1.1 (setupEnum R lib v).1.2.1
    (setupEnum R lib v).1.2.2) (by simp [setupTrace])
  simp only [Event.failed, bne_eq_false_iff_eq] at this
  exact hen this

theorem mxIsChar_iff (a : mxArray) : mxIsChar a = true ↔ ∃ t, a = .char t := by
  cases a <;> simp [mxIsChar]

theorem mxIsDouble_iff (a : mxArray) : mxIsDouble a = true ↔ ∃ p, a = .double p := by
  cases a <;> simp [mxIsDouble]

/-- What `checkArguments` has established when it passes. -/
theorem checkArguments_pass_inv {numOutArg numInArg : Int} {inputs : Nat → mxArray}
    (h : checkArguments numOutArg numInArg inputs = .pass) :
    numOutArg = 1 ∧ numInArg = 10 ∧ typesOk inputs ∧ checkMassOrMolar (inputs 5) = .pass ∧
      checkDebugOutput (inputs 9) = .pass := by
  have h0 : numOutArg = 1 := by
    by_contra hne
    have : checkArguments numOutArg numInArg inputs = .raise .nlhs := by
      simp [checkArguments, expectedOut, hne]
    rw [this] at h
    cases h
  subst h0
  have h1 : numInArg = 10 := by
    by_contra hne
    have : checkArguments 1 numInArg inputs = .raise (.nrhs numInArg expectedIn) := by
      simp [checkArguments, expectedOut, expectedIn, hne]
    rw [this] at h
    cases h
  subst h1
  have ht : typesOk inputs := by
    by_contra hnt
    have hex : ∃ i, i < 10 ∧ typeOk i (inputs i) = false := by
      unfold typesOk at hnt
      push_neg at hnt
      obtain ⟨i, hi, hb⟩ := hnt
      exact ⟨i, hi, by simpa using hb⟩
    have hspec := Nat.find_spec hex
    have hmin : ∀ j < Nat.find hex, typeOk j (inputs j) = true := by
      intro j hj
      have := Nat.find_min hex hj
      have hj10 : j < 10 := lt_trans hj hspec.1
      simp only [hj10, true_and, Bool.not_eq_false] at this
      exact this
    rw [checkArguments_first_wrong_type inputs _ hspec.1 hspec.2 hmin] at h
    cases h
  rw [checkArguments_pass_iff_tests ht] at h
  exact ⟨rfl, rfl, ht, h.1, h.2⟩


theorem checkMassOrMolar_pass_scalar {input : mxArray} (h : checkMassOrMolar input = .pass) :
    ∃ n, (mxGetScalar input).bind toInt = some n := by
  unfold checkMassOrMolar at h
  cases hs : mxGetScalar input with
  | none => simp [hs] at h
  | some d =>
    simp only [hs] at h
    cases ht : toInt d with
    | none => simp [ht] at h
    | some n => exact ⟨n, by simp [ht]⟩

theorem checkDebugOutput_pass_scalar {input : mxArray} (h : checkDebugOutput input = .pass) :
    ∃ d, mxGetScalar input = some d := by
  unfold checkDebugOutput at h
  cases hs : mxGetScalar input with
  | none => simp [hs] at h
  | some d => exact ⟨d, rfl⟩

/-- Once `checkArguments` has passed, `mexFunction` is `gridEvaluator` on the
unpacked arguments. -/
theorem mexFunction_of_pass {σ : Type} (R : Refprop σ) (lib : σ) {numOutArg numInArg : Int}
    {inputs : Nat → mxArray} (h : checkArguments numOutArg numInArg inputs = .pass) :
    ∃ v, unpack inputs = some v ∧ Unpacked inputs v ∧
      mexFunction R lib numOutArg numInArg inputs = gridEvaluator R lib v := by
  obtain ⟨_, _, ht, hm, hd⟩ := checkArguments_pass_inv h
  obtain ⟨n, hn⟩ := checkMassOrMolar_pass_scalar hm
  obtain ⟨d, hd2⟩ := checkDebugOutput_pass_scalar hd
  have h0 := ht 0 (by norm_num)
  have h1 := ht 1 (by norm_num)
  have h2 := ht 2 (by norm_num)
  have h3 := ht 3 (by norm_num)
  have h4 := ht 4 (by norm_num)
  simp only [typeOk] at h0 h1 h2 h3 h4
  norm_num at h0 h1 h2 h3 h4
  obtain ⟨t0, e0⟩ := (mxIsChar_iff _).mp h0
  obtain ⟨t1, e1⟩ := (mxIsChar_iff _).mp h1
  obtain ⟨p2, e2⟩ := (mxIsDouble_iff _).mp h2
  obtain ⟨p3, e3⟩ := (mxIsDouble_iff _).mp h3
  obtain ⟨t4, e4⟩ := (mxIsChar_iff _).mp h4
  have hu : unpack inputs = some
      { propReq := mxArrayToString (inputs 0)
        specSum := mxArrayToString (inputs 1)
        value1 := mxGetPr (inputs 2)
        value2 := mxGetPr (inputs 3)
        fluid := mxArrayToString (inputs 4)
        iMass := n
        z := mxGetPr (inputs 6)
        unit_char := mxArrayToString (inputs 7)
        path := mxArrayToString (inputs 8)
        DebugOut := decide (d ≠ 0)
        propReq_len := mxGetMN (inputs 0) + 1
        spec_len := mxGetMN (inputs 1) + 1
        numelVal1 := mxGetNumberOfElements (inputs 2)
        numelVal2 := mxGetNumberOfElements (inputs 3)
        fluid_len := mxGetMN (inputs 4) + 1 } := by
    unfold unpack
    rw [hn, hd2]
  refine ⟨_, hu, ?_, ?_⟩
  · refine ⟨rfl, rfl, rfl, rfl, rfl, hn, rfl, rfl, rfl, ⟨d, hd2, rfl⟩, ?_, ?_, ?_, ?_, ?_⟩
    · simp only [e0, mxGetMN, mxArrayToString]
    · simp only [e1, mxGetMN, mxArrayToString]
    · simp only [e2, mxGetNumberOfElements, mxGetPr]
    · simp only [e3, mxGetNumberOfElements, mxGetPr]
    · simp only [e4, mxGetMN, mxArrayToString]
  · unfold mexFunction
    rw [h]
    simp only [hu]

/-! ## Failure while the fluid or the units are set -/

/-- C10: once the library has loaded, a non-zero error code from the call that
sets the fluid (`SETMIXTUREdll` or `SETFLUIDSdll`) or from `GETENUMdll` ends
`mexFunction` in an error, with no evaluation made, nothing unloaded and no
matrix returned; when setting the fluid fails, `GETENUMdll` is not called. -/
theorem mexFunction_setup_failure {σ : Type} (R : Refprop σ) (lib : σ)
    (numOutArg numInArg : Int) (inputs : Nat → mxArray) (v : Arguments)
    (hcheck : checkArguments numOutArg numInArg inputs = .pass) (hv : unpack inputs = some v)
    (hload : (R.load_REFPROP lib v.path DLL_name).1 = true)
    (hfail : (setupFluid R lib v).ierr ≠ 0 ∨ (setupEnum R lib v).1.2.1 ≠ 0) :
    (∃ e, (mexFunction R lib numOutArg numInArg inputs).outcome = .raised e) ∧
    refpropCalls (mexFunction R lib numOutArg numInArg inputs).trace = [] ∧
    unloadCalls (mexFunction R lib numOutArg numInArg inputs).trace = 0 ∧
    ((setupFluid R lib v).ierr ≠ 0 →
      (mexFunction R lib numOutArg numInArg inputs).outcome =
        .raised (.fluidFailed v.fluid (setupFluid R lib v).ierr) ∧
      ∀ iFlag u iUnits ierr herr, Event.GETENUMdll iFlag u iUnits ierr herr ∉
        (mexFunction R lib numOutArg numInArg inputs).trace) ∧
    ((setupFluid R lib v).ierr = 0 →
      (mexFunction R lib numOutArg numInArg inputs).outcome =
        .raised (.enumFailed v.unit_char (setupEnum R lib v).1.2.1 (setupEnum R lib v).1.2.2)) := by
  obtain ⟨v', hv', _, hrun⟩ := mexFunction_of_pass R lib hcheck
  rw [hv] at hv'
  injection hv' with hv'
  subst hv'
  rw [hrun]
  have hev := setFluid_events_calls R
    (R.SETPATHdll (R.load_REFPROP lib v.path DLL_name).2 v.path) v.fluid v.z
  by_cases hfs : (setupFluid R lib v).ierr = 0
  · have hen : (setupEnum R lib v).1.2.1 ≠ 0 := by
      rcases hfail with h | h
      · exact absurd hfs h
      · exact h
    rw [gridEvaluator_enum_failed R lib v hload hfs hen]
    refine ⟨⟨_, rfl⟩, (setupTrace_calls R lib v).1, (setupTrace_calls R lib v).2, ?_, ?_⟩
    · intro h
      exact absurd hfs h
    · intro _
      rfl
  · rw [gridEvaluator_fluid_failed R lib v hload hfs]
    refine ⟨⟨_, rfl⟩, ?_, ?_, ?_, ?_⟩
    · simp only [refpropCalls_append, setupFluid, hev.1]
      rfl
    · simp only [unloadCalls_append, setupFluid, hev.2.1]
      rfl
    · intro _
      refine ⟨rfl, ?_⟩
      intro iFlag u iUnits ierr herr hmem
      simp only [List.mem_append, List.mem_cons, List.mem_singleton, List.not_mem_nil,
        or_false] at hmem
      rcases hmem with (h | h) | h
      · cases h
      · cases h
      · exact hev.2.2 iFlag u iUnits ierr herr h
    · intro h
      exact absurd h hfs


/-! ## The evaluations of a run -/

theorem strncpy_cases (cap : Nat) (src : List Char) (n : Nat) :
    strncpy cap src n = some src ∨ strncpy cap src n = none := by
  unfold strncpy
  split_ifs
  · exact Or.inl rfl
  · exact Or.inr rfl

theorem gridEvaluator_setup_ok {σ : Type} (R : Refprop σ) (lib : σ) (v : Arguments)
    (hload : (R.load_REFPROP lib v.path DLL_name).1 = true)
    (hfs : (setupFluid R lib v).ierr = 0) (hen : (setupEnum R lib v).1.2.1 = 0) :
    gridEvaluator R lib v = grid R (gridEnv R lib v) (gridSession R lib v) ∨
      gridEvaluator R lib v = ⟨setupTrace R lib v, .undefined⟩ := by
  unfold setupEnum setupFluid at hen
  unfold setupFluid at hfs
  unfold gridEvaluator gridEnv gridSession setupTrace setupEnum setupFluid
  rcases strncpy_cases 255 v.fluid v.fluid_len with h1 | h1 <;>
    rcases strncpy_cases 255 v.specSum v.spec_len with h2 | h2 <;>
    rcases strncpy_cases 255 v.propReq v.propReq_len with h3 | h3 <;>
    simp [hload, hfs, hen, h1, h2, h3]

/-- The evaluations of a run of `gridEvaluator`: either none reported an
error, or the last one did, and then the run ended in the error of that
evaluation with nothing unloaded. The arguments of the evaluations made are
those of the first cells of the grid, in the order of `gridCells`. -/
theorem gridEvaluator_calls {σ : Type} (R : Refprop σ) (lib : σ) (v : Arguments) :
    ((refpropCalls (gridEvaluator R lib v).trace).map Prod.fst <+:
      (gridCells (gridEnv R lib v) v.fluid).map Prod.fst) ∧
    ((∀ io ∈ refpropCalls (gridEvaluator R lib v).trace, io.2.ierr = 0) ∨
     (∃ L0 io site, refpropCalls (gridEvaluator R lib v).trace = L0 ++ [io] ∧
        (∀ x ∈ L0, x.2.ierr = 0) ∧ io.2.ierr ≠ 0 ∧
        (gridEvaluator R lib v).outcome =
          .raised (.refpropFailed site v.unit_char io.2.ierr io.2.herr) ∧
        unloadCalls (gridEvaluator R lib v).trace = 0)) := by
  have hnone : ∀ run : Run, refpropCalls run.trace = [] →
      ((refpropCalls run.trace).map Prod.fst <+:
        (gridCells (gridEnv R lib v) v.fluid).map Prod.fst) ∧
      ((∀ io ∈ refpropCalls run.trace, io.2.ierr = 0) ∨
       (∃ L0 io site, refpropCalls run.trace = L0 ++ [io] ∧
          (∀ x ∈ L0, x.2.ierr = 0) ∧ io.2.ierr ≠ 0 ∧
          run.outcome = .raised (.refpropFailed site v.unit_char io.2.ierr io.2.herr) ∧
          unloadCalls run.trace = 0)) := by
    intro run h
    rw [h]
    exact ⟨List.nil_prefix, Or.inl (by simp)⟩
  have hev := setFluid_events_calls R
    (R.SETPATHdll (R.load_REFPROP lib v.path DLL_name).2 v.path) v.fluid v.z
  by_cases hload : (R.load_REFPROP lib v.path DLL_name).1 = true
  swap
  · have hl : (R.load_REFPROP lib v.path DLL_name).1 = false := by simpa using hload
    rw [gridEvaluator_load_failed R lib v hl]
    exact hnone _ rfl
  by_cases hfs : (setupFluid R lib v).ierr = 0
  swap
  · rw [gridEvaluator_fluid_failed R lib v hload hfs]
    apply hnone
    simp only [refpropCalls_append, setupFluid, hev.1]
    rfl
  by_cases hen : (setupEnum R lib v).1.2.1 = 0
  swap
  · rw [gridEvaluator_enum_failed R lib v hload hfs hen]
    exact hnone _ (setupTrace_calls R lib v).1
  rcases gridEvaluator_setup_ok R lib v hload hfs hen with h | h
  swap
  · rw [h]
    exact hnone _ (setupTrace_calls R lib v).1
  rw [h]
  obtain ⟨L, hc, hp, hm⟩ := grid_summary R (gridEnv R lib v) (gridSession R lib v)
  have hs0 : refpropCalls (gridSession R lib v).trace = [] := (setupTrace_calls R lib v).1
  have hu0 : unloadCalls (gridSession R lib v).trace = 0 := (setupTrace_calls R lib v).2
  rw [hs0, List.nil_append] at hc
  rw [hc]
  refine ⟨hp, ?_⟩
  cases ho : (grid R (gridEnv R lib v) (gridSession R lib v)).outcome with
  | returned m =>
    rw [ho] at hm
    exact Or.inl hm.2.1
  | undefined =>
    rw [ho] at hm
    exact Or.inl hm.1
  | raised e =>
    rw [ho] at hm
    obtain ⟨⟨L0, io, site, hL, hok0, hio, he⟩, hu⟩ := hm
    right
    refine ⟨L0, io, site, hL, hok0, hio, ?_, ?_⟩
    · rw [he]
      rfl
    · rw [hu, hu0]

/-- The same for `mexFunction`. -/
theorem mexFunction_calls {σ : Type} (R : Refprop σ) (lib : σ) (numOutArg numInArg : Int)
    (inputs : Nat → mxArray) :
    (∀ io ∈ refpropCalls (mexFunction R lib numOutArg numInArg inputs).trace, io.2.ierr = 0) ∨
    (∃ L0 io site u, refpropCalls (mexFunction R lib numOutArg numInArg inputs).trace =
          L0 ++ [io] ∧
        (∀ x ∈ L0, x.2.ierr = 0) ∧ io.2.ierr ≠ 0 ∧
        (mexFunction R lib numOutArg numInArg inputs).outcome =
          .raised (.refpropFailed site u io.2.ierr io.2.herr) ∧
        unloadCalls (mexFunction R lib numOutArg numInArg inputs).trace = 0) := by
  cases hcheck : checkArguments numOutArg numInArg inputs with
  | raise e =>
    left
    simp [mexFunction, hcheck, refpropCalls]
  | undefined =>
    left
    simp [mexFunction, hcheck, refpropCalls]
  | pass =>
    obtain ⟨v, _, _, hrun⟩ := mexFunction_of_pass R lib hcheck
    rw [hrun]
    rcases (gridEvaluator_calls R lib v).2 with h | ⟨L0, io, site, h⟩
    · exact Or.inl h
    · exact Or.inr ⟨L0, io, site, v.unit_char, h⟩

/-- In a list whose entries all succeeded but the last, a failed entry is the
last one. -/
theorem failed_call_is_last {L0 : List (RefpropIn × RefpropOut)} {io x : RefpropIn × RefpropOut}
    {k : Nat} (hok : ∀ y ∈ L0, y.2.ierr = 0) (hk : (L0 ++ [io])[k]? = some x)
    (hx : x.2.ierr ≠ 0) : k = L0.length ∧ x = io := by
  by_cases hlt : k < L0.length
  · rw [List.getElem?_append_left hlt] at hk
    have hmem : x ∈ L0 := List.getElem?_mem hk
    exact absurd (hok x hmem) hx
  · have hge : L0.length ≤ k := by omega
    rw [List.getElem?_append_right hge] at hk
    have hk0 : k - L0.length = 0 := by
      by_contra hne
      have hpos : 0 < k - L0.length := Nat.pos_of_ne_zero hne
      have : ([io] : List (RefpropIn × RefpropOut))[k - L0.length]? = none := by
        apply List.getElem?_eq_none
        simp only [List.length_singleton]
        omega
      rw [this] at hk
      cases hk
    rw [hk0] at hk
    simp only [List.getElem?_cons_zero, Option.some.injEq] at hk
    exact ⟨by omega, hk.symm⟩


theorem stores_zip_getElem? (buf : List ℚ) (idxs : List Nat) (vals : List ℚ)
    (hnd : idxs.Nodup) (hb : ∀ i ∈ idxs, i < buf.length) (k i : Nat) (val : ℚ)
    (hi : idxs[k]? = some i) (hv : vals[k]? = some val) :
    (stores buf (idxs.zip vals))[i]? = some val := by
  induction idxs generalizing vals buf k with
  | nil => simp at hi
  | cons i0 is ih =>
    cases vals with
    | nil => simp at hv
    | cons v0 vs =>
      rw [List.nodup_cons] at hnd
      rw [List.zip_cons_cons]
      simp only [stores]
      cases k with
      | zero =>
        simp only [List.getElem?_cons_zero, Option.some.injEq] at hi hv
        subst hi
        subst hv
        have hnot : i0 ∉ (is.zip vs).map Prod.fst := by
          intro hmem
          obtain ⟨p, hp, hpe⟩ := List.mem_map.mp hmem
          have := (List.of_mem_zip (a := p.1) (b := p.2) hp).1
          rw [hpe] at this
          exact hnd.1 this
        rw [stores_getElem?_of_not_mem _ _ _ hnot]
        exact List.getElem?_set_self (hb _ (List.mem_cons_self _ _))
      | succ k =>
        simp only [List.getElem?_cons_succ] at hi hv
        apply ih _ vs hnd.2 _ k hi hv
        intro j hj
        rw [List.length_set]
        exact hb j (List.mem_cons_of_mem _ hj)

theorem prefix_getElem? {α : Type} {l1 l2 : List α} (h : l1 <+: l2) {j : Nat} {a : α}
    (hj : l1[j]? = some a) : l2[j]? = some a := by
  obtain ⟨t, rfl⟩ := h
  have hlt : j < l1.length := by
    rw [List.getElem?_eq_some_iff] at hj
    exact hj.1
  rw [List.getElem?_append_left hlt]
  exact hj

/-- The mixture flag after the fluid has been set. -/
theorem setFluid_mixFlag {σ : Type} (R : Refprop σ) (lib : σ) (fluid : List Char) (z : List ℚ)
    (hlen : fluid.length < SIZE_MOD) :
    (setFluid R lib fluid z).mixFlag =
      if ((fluid.map tolower).length > 4 ∧ ['.', 'm', 'i', 'x'] <:+ fluid.map tolower) ∨
          ';' ∈ fluid then 1 else 0 := by
  have hlen2 : (fluid.map tolower).length < SIZE_MOD := by simpa using hlen
  have hmix := mix_test_iff (fluid.map tolower) hlen2
  have hsem := (semicolon_test_iff (fluid.map tolower) hlen2).trans
    (semicolon_mem_map_tolower fluid)
  unfold setFluid
  simp only []
  by_cases h1 : (fluid.map tolower).length > 4 ∧
      (rfind (fluid.map tolower) ['.', 'm', 'i', 'x'] + 4) % SIZE_MOD =
        (fluid.map tolower).length
  · rw [if_pos h1, if_pos (Or.inl (hmix.mp h1))]
  · rw [if_neg h1]
    by_cases h2 : rfind (fluid.map tolower) [';'] < (fluid.map tolower).length
    · rw [if_pos h2, if_pos (Or.inr (hsem.mp h2))]
    · rw [if_neg h2, if_neg]
      rintro (h | h)
      · exact h1 (hmix.mpr h)
      · exact h2 (hsem.mpr h)

/-- The arguments of evaluation number `j` of a run: those of cell `j` in
row-major order. -/
theorem gridEvaluator_call_inputs {σ : Type} (R : Refprop σ) (lib : σ) (v : Arguments)
    (hM : 1 ≤ v.numelVal1) (hN : 1 ≤ v.numelVal2) (j : Nat) (x : RefpropIn × RefpropOut)
    (hj : (refpropCalls (gridEvaluator R lib v).trace)[j]? = some x) :
    j < v.numelVal1 * v.numelVal2 ∧
    x.1 = callIn (gridEnv R lib v) (if j = 0 then v.fluid else [' '])
      (v.value1.getD (j / v.numelVal2) 0) (v.value2.getD (j % v.numelVal2) 0) := by
  have hp := (gridEvaluator_calls R lib v).1
  have hcells := gridCells_eq (gridEnv R lib v) v.fluid hM hN
  rw [hcells, List.map_map] at hp
  have hj1 : ((refpropCalls (gridEvaluator R lib v).trace).map Prod.fst)[j]? = some x.1 := by
    rw [List.getElem?_map, hj]
    rfl
  have hj2 := prefix_getElem? hp hj1
  rw [List.getElem?_map] at hj2
  have hlt : j < (gridEnv R lib v).numelVal1 * (gridEnv R lib v).numelVal2 := by
    by_contra hge
    rw [List.getElem?_eq_none (by simp only [List.length_range]; omega)] at hj2
    cases hj2
  rw [List.getElem?_range hlt] at hj2
  simp only [Option.map_some', Function.comp, Option.some.injEq] at hj2
  exact ⟨hlt, hj2.symm⟩


/-- A run of `gridEvaluator` on a grid with at least one row and one column,
with texts that fit their buffers, in which no call of the library reports
failure: the matrix is returned, every cell has been evaluated, once, and slot
`M * (k % N) + k / N` of the matrix holds the first output value of evaluation
number `k`. -/
theorem gridEvaluator_success {σ : Type} (R : Refprop σ) (lib : σ) (v : Arguments)
    (hn1 : v.numelVal1 = v.value1.length) (hn2 : v.numelVal2 = v.value2.length)
    (hfl : v.fluid_len = v.fluid.length + 1) (hsl : v.spec_len = v.specSum.length + 1)
    (hpl : v.propReq_len = v.propReq.length + 1)
    (hf : v.fluid.length < 255) (hs : v.specSum.length < 255) (hp : v.propReq.length < 255)
    (hM : 1 ≤ v.numelVal1) (hN : 1 ≤ v.numelVal2)
    (hdbg : v.DebugOut = true → 20 ≤ v.z.length)
    (hok : ∀ e ∈ (gridEvaluator R lib v).trace, e.failed = false) :
    ∃ buf, (gridEvaluator R lib v).outcome = .returned ⟨v.numelVal1, v.numelVal2, buf⟩ ∧
      buf.length = v.numelVal1 * v.numelVal2 ∧
      (refpropCalls (gridEvaluator R lib v).trace).length = v.numelVal1 * v.numelVal2 ∧
      unloadCalls (gridEvaluator R lib v).trace = 1 ∧
      setupTrace R lib v <+: (gridEvaluator R lib v).trace ∧
      (setupEnum R lib v).1.2.1 = 0 ∧
      ∀ k, k < v.numelVal1 * v.numelVal2 →
        ∃ io, (refpropCalls (gridEvaluator R lib v).trace)[k]? = some io ∧ io.2.ierr = 0 ∧
          buf[v.numelVal1 * (k % v.numelVal2) + k / v.numelVal2]? =
            some (io.2.hOutput.getD 0 0) := by
  obtain ⟨hload, hfs, hen⟩ := setup_ok_of_no_failure R lib v hok
  have hg := gridEvaluator_grid R lib v hload hfs hen hfl hsl hpl hf hs hp
  rw [hg] at hok ⊢
  have hz : (gridEnv R lib v).z.length = v.z.length := setFluid_z_length R _ v.fluid v.z
  have hdef := grid_defined R (gridEnv R lib v) (gridSession R lib v) hM hN hn1.symm hn2.symm
    (by simp [gridSession, gridEnv]) (by rw [hz]; exact hdbg)
  have hpre := grid_trace_prefix R (gridEnv R lib v) (gridSession R lib v)
  obtain ⟨L, hc, hp, hm⟩ := grid_summary R (gridEnv R lib v) (gridSession R lib v)
  have hs0 : refpropCalls (gridSession R lib v).trace = [] := (setupTrace_calls R lib v).1
  have hu0 : unloadCalls (gridSession R lib v).trace = 0 := (setupTrace_calls R lib v).2
  rw [hs0, List.nil_append] at hc
  cases ho : (grid R (gridEnv R lib v) (gridSession R lib v)).outcome with
  | undefined => exact absurd ho hdef
  | raised e =>
    rw [ho] at hm
    obtain ⟨⟨L0, io, site, hL, _, hio, _⟩, _⟩ := hm
    exfalso
    have hmem : io ∈ refpropCalls (grid R (gridEnv R lib v) (gridSession R lib v)).trace := by
      rw [hc, hL]
      simp
    have hev := (@mem_refpropCalls _ io.1 io.2).mp hmem
    have := hok _ hev
    simp only [Event.failed, bne_eq_false_iff_eq] at this
    exact hio this
  | returned mat =>
    rw [ho] at hm
    obtain ⟨hlen, hLok, hb, hu, hmat⟩ := hm
    have hcells := gridCells_eq (gridEnv R lib v) (gridSession R lib v).hFld hM hN
    have hclen : (gridCells (gridEnv R lib v) (gridSession R lib v).hFld).length =
        v.numelVal1 * v.numelVal2 := by
      rw [hcells]
      simp [gridEnv]
    have hidx : (gridCells (gridEnv R lib v) (gridSession R lib v).hFld).map Prod.snd =
        (List.range (v.numelVal1 * v.numelVal2)).map fun k =>
          v.numelVal1 * (k % v.numelVal2) + k / v.numelVal2 := by
      rw [hcells, List.map_map]
      rfl
    have hnd : ((gridCells (gridEnv R lib v) (gridSession R lib v).hFld).map Prod.snd).Nodup := by
      rw [hidx]
      apply List.Nodup.map_on _ (List.nodup_range _)
      intro a ha b hb' hab
      exact slot_injective _ _ a b (List.mem_range.mp ha) (List.mem_range.mp hb') hab
    have hbnd : ∀ i ∈ (gridCells (gridEnv R lib v) (gridSession R lib v).hFld).map Prod.snd,
        i < (gridSession R lib v).propReqOut.length := by
      intro i hi
      obtain ⟨c, hc', rfl⟩ := List.mem_map.mp hi
      exact hb c hc'
    refine ⟨mat.data, ?_, ?_, ?_, ?_, hpre, hen, ?_⟩
    · rw [hmat]
      rfl
    · rw [hmat]
      simp [stores_length, gridSession]
    · rw [hc, hlen, hclen]
    · rw [hu, hu0]
    · intro k hk
      have hkL : k < L.length := by rw [hlen, hclen]; exact hk
      refine ⟨L[k], ?_, hLok _ (List.getElem_mem hkL), ?_⟩
      · rw [hc]
        exact List.getElem?_eq_getElem hkL
      · rw [hmat]
        apply stores_zip_getElem? _ _ _ hnd hbnd k
        · rw [hidx, List.getElem?_map, List.getElem?_range hk]
          rfl
        · rw [List.getElem?_map, List.getElem?_eq_getElem hkL]
          rfl


/-! ## The claims about the walk over the grid -/

theorem mexFunction_valid {σ : Type} (R : Refprop σ) (lib : σ) {numOutArg numInArg : Int}
    {inputs : Nat → mxArray} (hvalid : ValidCall numOutArg numInArg inputs) :
    ∃ v, Unpacked inputs v ∧
      mexFunction R lib numOutArg numInArg inputs = gridEvaluator R lib v ∧
      v.fluid.length < 255 ∧ v.specSum.length < 255 ∧ v.propReq.length < 255 ∧
      1 ≤ v.numelVal1 ∧ 1 ≤ v.numelVal2 ∧ (v.DebugOut = true → 20 ≤ v.z.length) := by
  obtain ⟨v, _, hU, hrun⟩ := mexFunction_of_pass R lib hvalid.check
  refine ⟨v, hU, hrun, ?_, ?_, ?_, ?_, ?_, ?_⟩
  · rw [hU.fluid]; exact hvalid.fluid
  · rw [hU.specSum]; exact hvalid.specSum
  · rw [hU.propReq]; exact hvalid.propReq
  · rw [hU.numelVal1, hU.value1]; exact hvalid.rows
  · rw [hU.numelVal2, hU.value2]; exact hvalid.cols
  · intro hD
    obtain ⟨d, hd, hdec⟩ := hU.DebugOut
    rcases hvalid.debug with h0 | h20
    · rw [hd] at h0
      injection h0 with h0
      rw [hdec, h0] at hD
      simp at hD
    · rw [hU.z]; exact h20

theorem getD_of_lt (l : List ℚ) (i : Nat) (h : i < l.length) : l[i]? = some (l.getD i 0) := by
  rw [List.getD_eq_getElem?_getD, List.getElem?_eq_getElem h]
  rfl

theorem cell_div_mod (N r c : Nat) (hc : c < N) : (r * N + c) / N = r ∧ (r * N + c) % N = c := by
  have hN : 0 < N := by omega
  constructor
  · rw [Nat.mul_comm, Nat.mul_add_div hN, Nat.div_eq_of_lt hc, Nat.add_zero]
  · rw [Nat.mul_comm, Nat.mul_add_mod, Nat.mod_eq_of_lt hc]

theorem cell_lt (M N r c : Nat) (hr : r < M) (hc : c < N) : r * N + c < M * N := by
  calc r * N + c < r * N + N := by omega
    _ = (r + 1) * N := by ring
    _ ≤ M * N := Nat.mul_le_mul_right _ hr

/-- C1: for a call inside the domain with `M` values in `value1` and `N` in
`value2` (both at least 1) in which no call of the library reports failure,
`mexFunction` returns a matrix of `M * N` entries, and for `r < M`, `c < N` the
entry at `r + c * M` is the first output value of the evaluation made (as
number `r * N + c`) with `a = value1[r]`, `b = value2[c]`, the unit code
answered by `GETENUMdll`, the mass flag of the call and the mixture flag of
the fluid text. -/
theorem mexFunction_result_grid {σ : Type} (R : Refprop σ) (lib : σ)
    (numOutArg numInArg : Int) (inputs : Nat → mxArray)
    (hvalid : ValidCall numOutArg numInArg inputs)
    (hok : ∀ e ∈ (mexFunction R lib numOutArg numInArg inputs).trace, e.failed = false) :
    ∃ buf,
      (mexFunction R lib numOutArg numInArg inputs).outcome =
        .returned ⟨(mxGetPr (inputs 2)).length, (mxGetPr (inputs 3)).length, buf⟩ ∧
      buf.length = (mxGetPr (inputs 2)).length * (mxGetPr (inputs 3)).length ∧
      ∀ r c, r < (mxGetPr (inputs 2)).length → c < (mxGetPr (inputs 3)).length →
        ∃ inp out,
          (refpropCalls (mexFunction R lib numOutArg numInArg inputs).trace)[
            r * (mxGetPr (inputs 3)).length + c]? = some (inp, out) ∧
          (mxGetPr (inputs 2))[r]? = some inp.a ∧ (mxGetPr (inputs 3))[c]? = some inp.b ∧
          (∃ herr, Event.GETENUMdll 0 (mxArrayToString (inputs 7)) inp.iUnits 0 herr ∈
            (mexFunction R lib numOutArg numInArg inputs).trace) ∧
          (mxGetScalar (inputs 5)).bind toInt = some inp.iMass ∧
          inp.iFlag =
            (if (((mxArrayToString (inputs 4)).map tolower).length > 4 ∧
                  ['.', 'm', 'i', 'x'] <:+ (mxArrayToString (inputs 4)).map tolower) ∨
                ';' ∈ mxArrayToString (inputs 4) then 1 else 0) ∧
          out.ierr = 0 ∧
          buf[r + c * (mxGetPr (inputs 2)).length]? = some (out.hOutput.getD 0 0) := by
  obtain ⟨v, hU, hrun, hf, hs, hp, hM, hN, hdbg⟩ := mexFunction_valid R lib hvalid
  rw [hrun] at hok ⊢
  obtain ⟨buf, ho, hbl, _, _, hpre, hen, hcell⟩ := gridEvaluator_success R lib v hU.numelVal1
    hU.numelVal2 hU.fluid_len hU.spec_len hU.propReq_len hf hs hp hM hN hdbg hok
  have hMe : v.numelVal1 = (mxGetPr (inputs 2)).length := by rw [hU.numelVal1, hU.value1]
  have hNe : v.numelVal2 = (mxGetPr (inputs 3)).length := by rw [hU.numelVal2, hU.value2]
  rw [← hMe, ← hNe]
  refine ⟨buf, ho, hbl, ?_⟩
  intro r c hr hc
  have hk := cell_lt _ _ r c hr hc
  obtain ⟨hdiv, hmod⟩ := cell_div_mod v.numelVal2 r c hc
  obtain ⟨io, hio, hierr, hbuf⟩ := hcell _ hk
  obtain ⟨_, hin⟩ := gridEvaluator_call_inputs R lib v hM hN _ io hio
  rw [hdiv, hmod] at hin hbuf
  refine ⟨io.1, io.2, hio, ?_, ?_, ?_, ?_, ?_, hierr, ?_⟩
  · rw [hin, ← hU.value1]
    exact getD_of_lt _ _ (by rw [← hU.numelVal1]; exact hr)
  · rw [hin, ← hU.value2]
    exact getD_of_lt _ _ (by rw [← hU.numelVal2]; exact hc)
  · refine ⟨(setupEnum R lib v).1.2.2, hpre.subset ?_⟩
    rw [hin, ← hU.unit_char]
    have : Event.GETENUMdll 0 v.unit_char (setupEnum R lib v).1.1 (setupEnum R lib v).1.2.1
        (setupEnum R lib v).1.2.2 ∈ setupTrace R lib v := by simp [setupTrace]
    rw [hen] at this
    exact this
  · rw [hin]
    exact hU.iMass
  · rw [hin, ← hU.fluid]
    exact setFluid_mixFlag R _ v.fluid v.z (lt_trans hf (by norm_num [SIZE_MOD]))
  · rw [Nat.add_comm r, Nat.mul_comm c]
    exact hbuf

/-- C2: for a call inside the domain with `M` values in `value1` and `N` in
`value2` (both at least 1) in which no call of the library reports failure,
`mexFunction` makes exactly `M * N` evaluations; evaluation number `k`
(counted from 0) is given `a = value1[k / N]` and `b = value2[k % N]`, that is
the cells in row-major order from cell (0, 0); the first evaluation is given
the fluid text in `hFld`, every later one the blank text. -/
theorem mexFunction_evaluation_order {σ : Type} (R : Refprop σ) (lib : σ)
    (numOutArg numInArg : Int) (inputs : Nat → mxArray)
    (hvalid : ValidCall numOutArg numInArg inputs)
    (hok : ∀ e ∈ (mexFunction R lib numOutArg numInArg inputs).trace, e.failed = false) :
    (refpropCalls (mexFunction R lib numOutArg numInArg inputs).trace).length =
      (mxGetPr (inputs 2)).length * (mxGetPr (inputs 3)).length ∧
    ∀ k, k < (mxGetPr (inputs 2)).length * (mxGetPr (inputs 3)).length →
      ∃ inp out,
        (refpropCalls (mexFunction R lib numOutArg numInArg inputs).trace)[k]? =
          some (inp, out) ∧
        (mxGetPr (inputs 2))[k / (mxGetPr (inputs 3)).length]? = some inp.a ∧
        (mxGetPr (inputs 3))[k % (mxGetPr (inputs 3)).length]? = some inp.b ∧
        inp.hFld = (if k = 0 then mxArrayToString (inputs 4) else [' ']) := by
  obtain ⟨v, hU, hrun, hf, hs, hp, hM, hN, hdbg⟩ := mexFunction_valid R lib hvalid
  rw [hrun] at hok ⊢
  obtain ⟨buf, _, _, hlen, _, _, _, hcell⟩ := gridEvaluator_success R lib v hU.numelVal1
    hU.numelVal2 hU.fluid_len hU.spec_len hU.propReq_len hf hs hp hM hN hdbg hok
  have hMe : v.numelVal1 = (mxGetPr (inputs 2)).length := by rw [hU.numelVal1, hU.value1]
  have hNe : v.numelVal2 = (mxGetPr (inputs 3)).length := by rw [hU.numelVal2, hU.value2]
  rw [← hMe, ← hNe]
  refine ⟨hlen, ?_⟩
  intro k hk
  obtain ⟨io, hio, _, _⟩ := hcell k hk
  obtain ⟨_, hin⟩ := gridEvaluator_call_inputs R lib v hM hN _ io hio
  have hN0 : 0 < v.numelVal2 := hN
  have hdivlt : k / v.numelVal2 < v.numelVal1 :=
    Nat.div_lt_of_lt_mul (by rw [Nat.mul_comm]; exact hk)
  refine ⟨io.1, io.2, hio, ?_, ?_, ?_⟩
  · rw [hin, ← hU.value1]
    exact getD_of_lt _ _ (by rw [← hU.numelVal1]; exact hdivlt)
  · rw [hin, ← hU.value2]
    exact getD_of_lt _ _ (by rw [← hU.numelVal2]; exact Nat.mod_lt _ hN0)
  · rw [hin, ← hU.fluid]
    rfl

/-- C8: when evaluation number `k` (counted from 0, so the `k + 1`-th) of a
run on a grid with at least one row and one column returns a non-zero error
code, it is the last evaluation of the run (`k + 1` evaluations are made, all
before it successful, in row-major order), and the run ends in the error
raised for that evaluation: no matrix is returned. -/
theorem mexFunction_stops_at_failure {σ : Type} (R : Refprop σ) (lib : σ)
    (numOutArg numInArg : Int) (inputs : Nat → mxArray)
    (hM : 1 ≤ (mxGetPr (inputs 2)).length) (hN : 1 ≤ (mxGetPr (inputs 3)).length)
    (k : Nat) (io : RefpropIn × RefpropOut)
    (hk : (refpropCalls (mexFunction R lib numOutArg numInArg inputs).trace)[k]? = some io)
    (hio : io.2.ierr ≠ 0) :
    (refpropCalls (mexFunction R lib numOutArg numInArg inputs).trace).length = k + 1 ∧
    (∀ j x, j < k →
      (refpropCalls (mexFunction R lib numOutArg numInArg inputs).trace)[j]? = some x →
      x.2.ierr = 0) ∧
    (∀ j x, (refpropCalls (mexFunction R lib numOutArg numInArg inputs).trace)[j]? = some x →
      j < (mxGetPr (inputs 2)).length * (mxGetPr (inputs 3)).length ∧
      (mxGetPr (inputs 2))[j / (mxGetPr (inputs 3)).length]? = some x.1.a ∧
      (mxGetPr (inputs 3))[j % (mxGetPr (inputs 3)).length]? = some x.1.b) ∧
    (∃ site u, (mexFunction R lib numOutArg numInArg inputs).outcome =
      .raised (.refpropFailed site u io.2.ierr io.2.herr)) ∧
    (∀ mat, (mexFunction R lib numOutArg numInArg inputs).outcome ≠ .returned mat) := by
  have hcalls := mexFunction_calls R lib numOutArg numInArg inputs
  rcases hcalls with hall | ⟨L0, io', site, u, hL, hok0, hio', hout, _⟩
  · exact absurd (hall io (List.getElem?_mem hk)) hio
  · rw [hL] at hk
    obtain ⟨hkl, hx⟩ := failed_call_is_last hok0 hk hio
    subst hx
    refine ⟨?_, ?_, ?_, ⟨site, u, hout⟩, ?_⟩
    · rw [hL]
      simp [hkl]
    · intro j x hj hjx
      rw [hL, List.getElem?_append_left (by omega)] at hjx
      exact hok0 x (List.getElem?_mem hjx)
    · intro j x hjx
      cases hcheck : checkArguments numOutArg numInArg inputs with
      | raise e => simp [mexFunction, hcheck, refpropCalls] at hjx
      | undefined => simp [mexFunction, hcheck, refpropCalls] at hjx
      | pass =>
        obtain ⟨v, _, hU, hrun⟩ := mexFunction_of_pass R lib hcheck
        rw [hrun] at hjx
        have hMe : v.numelVal1 = (mxGetPr (inputs 2)).length := by rw [hU.numelVal1, hU.value1]
        have hNe : v.numelVal2 = (mxGetPr (inputs 3)).length := by rw [hU.numelVal2, hU.value2]
        obtain ⟨hlt, hin⟩ := gridEvaluator_call_inputs R lib v (by rw [hMe]; exact hM)
          (by rw [hNe]; exact hN) j x hjx
        rw [← hMe, ← hNe]
        have hN0 : 0 < v.numelVal2 := by rw [hNe]; exact hN
        have hdivlt : j / v.numelVal2 < v.numelVal1 :=
          Nat.div_lt_of_lt_mul (by rw [Nat.mul_comm]; exact hlt)
        refine ⟨hlt, ?_, ?_⟩
        · rw [hin, ← hU.value1]
          exact getD_of_lt _ _ (by rw [← hU.numelVal1]; exact hdivlt)
        · rw [hin, ← hU.value2]
          exact getD_of_lt _ _ (by rw [← hU.numelVal2]; exact Nat.mod_lt _ hN0)
    · intro mat hmat
      rw [hout] at hmat
      cases hmat


/-! ## Worked calls -/

theorem toInt_zero : toInt 0 = some 0 := by
  have h := toInt_intCast (n := 0) (by decide) (by decide)
  simpa using h

theorem checkArguments_waterGrid (value1 value2 : List ℚ) :
    checkArguments 1 10 (waterGrid value1 value2) = .pass := by
  have ht : typesOk (waterGrid value1 value2) := typesOk_args _ _ _ _ _ _ _ _ _ _
  rw [checkArguments_pass_iff_tests ht]
  exact ⟨checkMassOrMolar_zero_one [] (Or.inl rfl), checkDebugOutput_zero_one [] (Or.inl rfl)⟩

theorem unpack_waterGrid (value1 value2 : List ℚ) :
    unpack (waterGrid value1 value2) = some (waterArguments value1 value2) := by
  have h5 : (mxGetScalar (waterGrid value1 value2 5)).bind toInt = some 0 := by
    show (some (0 : ℚ)).bind toInt = some 0
    exact toInt_zero
  have h9 : mxGetScalar (waterGrid value1 value2 9) = some 0 := rfl
  unfold unpack
  rw [h5, h9]
  simp only [ne_eq, not_true_eq_false, decide_False]
  rfl

theorem mexFunction_waterGrid {σ : Type} (R : Refprop σ) (lib : σ) (value1 value2 : List ℚ) :
    mexFunction R lib 1 10 (waterGrid value1 value2) =
      gridEvaluator R lib (waterArguments value1 value2) := by
  unfold mexFunction
  rw [checkArguments_waterGrid]
  simp only [unpack_waterGrid]

theorem validCall_waterGrid (value1 value2 : List ℚ) (h1 : 1 ≤ value1.length)
    (h2 : 1 ≤ value2.length) : ValidCall 1 10 (waterGrid value1 value2) :=
  ⟨checkArguments_waterGrid value1 value2, h1, h2,
    (by decide : "D".toList.length < 255), (by decide : "TP".toList.length < 255),
    (by decide : "WATER".toList.length < 255), Or.inl rfl⟩

theorem setFluid_routing_witness :
    (setFluid (sampleLib none) 0 "R410A.MIX".toList [1]).mixFlag = 1 ∧
    (setFluid (sampleLib none) 0 "R32;R125".toList [1]).mixFlag = 1 ∧
    (setFluid (sampleLib none) 0 "WATER".toList [1]).mixFlag = 0 :=
  ⟨((setFluid_routing (sampleLib none) 0 "R410A.MIX".toList [1] (by decide)).1
      ⟨by decide, ⟨"r410a".toList, by decide⟩⟩).2,
   ((setFluid_routing (sampleLib none) 0 "R32;R125".toList [1] (by decide)).2.1
      (by decide) (by decide)).2,
   ((setFluid_routing (sampleLib none) 0 "WATER".toList [1] (by decide)).2.2.1
      (by decide) (by decide)).2⟩

set_option maxRecDepth 100000 in
theorem mexFunction_result_grid_witness :
    ValidCall 1 10 (waterGrid [300] [101325]) ∧
    (∀ e ∈ (mexFunction (sampleLib none) 0 1 10 (waterGrid [300] [101325])).trace,
      e.failed = false) ∧
    ∃ buf, (mexFunction (sampleLib none) 0 1 10 (waterGrid [300] [101325])).outcome =
        .returned ⟨1, 1, buf⟩ ∧ buf.length = 1 ∧ buf[0]? = some 300 := by
  have hv := validCall_waterGrid [300] [101325] (by decide) (by decide)
  have hok : ∀ e ∈ (mexFunction (sampleLib none) 0 1 10 (waterGrid [300] [101325])).trace,
      e.failed = false := by
    rw [mexFunction_waterGrid]
    decide
  obtain ⟨buf, ho, hl, hcell⟩ := mexFunction_result_grid (sampleLib none) 0 1 10
    (waterGrid [300] [101325]) hv hok
  refine ⟨hv, hok, buf, ho, hl, ?_⟩
  obtain ⟨inp, out, hcall, _, _, _, _, _, _, hbuf⟩ := hcell 0 0 (by decide) (by decide)
  have hcall2 : (refpropCalls (mexFunction (sampleLib none) 0 1 10
      (waterGrid [300] [101325])).trace)[0]? = some (inp, out) := hcall
  rw [mexFunction_waterGrid] at hcall2
  have hval : out.hOutput.getD 0 0 = 300 := by
    have : (refpropCalls (gridEvaluator (sampleLib none) 0
        (waterArguments [300] [101325])).trace)[0]? =
        some (⟨"WATER".toList, "TP".toList, "D".toList, 0, 0, 0, 300, 101325, [1]⟩,
          ⟨[300, 101325], [], 0, [1], [1], [0], 1, 0, []⟩) := by rfl
    rw [this] at hcall2
    injection hcall2 with hcall2
    injection hcall2 with _ hout
    rw [← hout]
    rfl
  rw [← hval]
  exact hbuf

set_option maxRecDepth 100000 in
theorem mexFunction_evaluation_order_witness :
    (refpropCalls (mexFunction (sampleLib none) 0 1 10
      (waterGrid [300, 310, 320] [100000, 200000])).trace).length = 6 ∧
    (refpropCalls (mexFunction (sampleLib none) 0 1 10
      (waterGrid [300] [101325])).trace).length = 1 := by
  have hv1 := validCall_waterGrid [300, 310, 320] [100000, 200000] (by decide) (by decide)
  have hok1 : ∀ e ∈ (mexFunction (sampleLib none) 0 1 10
      (waterGrid [300, 310, 320] [100000, 200000])).trace, e.failed = false := by
    rw [mexFunction_waterGrid]
    decide
  have hv2 := validCall_waterGrid [300] [101325] (by decide) (by decide)
  have hok2 : ∀ e ∈ (mexFunction (sampleLib none) 0 1 10 (waterGrid [300] [101325])).trace,
      e.failed = false := by
    rw [mexFunction_waterGrid]
    decide
  exact ⟨(mexFunction_evaluation_order (sampleLib none) 0 1 10 _ hv1 hok1).1,
    (mexFunction_evaluation_order (sampleLib none) 0 1 10 _ hv2 hok2).1⟩

set_option maxRecDepth 100000 in
theorem mexFunction_stops_at_failure_witness :
    (refpropCalls (mexFunction (sampleLib (some 4)) 0 1 10
      (waterGrid [300, 310, 320] [100000, 200000])).trace).length = 5 ∧
    (∀ mat, (mexFunction (sampleLib (some 4)) 0 1 10
      (waterGrid [300, 310, 320] [100000, 200000])).outcome ≠ .returned mat) := by
  have hk : (refpropCalls (mexFunction (sampleLib (some 4)) 0 1 10
      (waterGrid [300, 310, 320] [100000, 200000])).trace)[4]? =
      some (⟨[' '], "TP".toList, "D".toList, 0, 0, 0, 320, 100000, [1]⟩,
        ⟨[320, 100000], [], 0, [1], [1], [0], 1, 1, []⟩) := by
    rw [mexFunction_waterGrid]
    rfl
  have h := mexFunction_stops_at_failure (sampleLib (some 4)) 0 1 10
    (waterGrid [300, 310, 320] [100000, 200000]) (by decide) (by decide) 4 _ hk (by decide)
  exact ⟨h.1, h.2.2.2.2⟩

set_option maxRecDepth 100000 in
/-- C9, as found in the code: on the 3-by-2 grid whose fifth evaluation
reports error 1, and on the 1-by-1 grid whose only evaluation does, the run
ends in the error of that evaluation and `unload_REFPROP` has not been called:
`mexErrMsgIdAndTxt` stands before the call of `unload_REFPROP` in all three
error branches. -/
theorem unload_skipped_after_failed_evaluation :
    (mexFunction (sampleLib (some 4)) 0 1 10
        (waterGrid [300, 310, 320] [100000, 200000])).outcome =
      .raised (.refpropFailed 3 "SI".toList 1 []) ∧
    unloadCalls (mexFunction (sampleLib (some 4)) 0 1 10
        (waterGrid [300, 310, 320] [100000, 200000])).trace = 0 ∧
    (mexFunction (sampleLib (some 0)) 0 1 10 (waterGrid [300] [101325])).outcome =
      .raised (.refpropFailed 1 "SI".toList 1 []) ∧
    unloadCalls (mexFunction (sampleLib (some 0)) 0 1 10 (waterGrid [300] [101325])).trace = 0 ∧
    unloadCalls (mexFunction (sampleLib none) 0 1 10 (waterGrid [300] [101325])).trace = 1 := by
  simp only [mexFunction_waterGrid]
  exact ⟨rfl, rfl, rfl, rfl, rfl⟩

set_option maxRecDepth 100000 in
theorem mexFunction_setup_failure_witness :
    (mexFunction (faultyLib 5 0) 0 1 10 (waterGrid [300] [101325])).outcome =
      .raised (.fluidFailed "WATER".toList 5) ∧
    refpropCalls (mexFunction (faultyLib 5 0) 0 1 10 (waterGrid [300] [101325])).trace = [] ∧
    unloadCalls (mexFunction (faultyLib 5 0) 0 1 10 (waterGrid [300] [101325])).trace = 0 ∧
    (mexFunction (faultyLib 0 7) 0 1 10 (waterGrid [300] [101325])).outcome =
      .raised (.enumFailed "SI".toList 7 []) := by
  have h1 := mexFunction_setup_failure (faultyLib 5 0) 0 1 10 (waterGrid [300] [101325])
    (waterArguments [300] [101325]) (checkArguments_waterGrid _ _) (unpack_waterGrid _ _) rfl
    (Or.inl (by decide))
  have h2 := mexFunction_setup_failure (faultyLib 0 7) 0 1 10 (waterGrid [300] [101325])
    (waterArguments [300] [101325]) (checkArguments_waterGrid _ _) (unpack_waterGrid _ _) rfl
    (Or.inr (by decide))
  exact ⟨(h1.2.2.2.1 (by decide)).1, h1.2.1, h1.2.2.1, h2.2.2.2.2 (by decide)⟩


/-! ## Calls the gateway does not survive -/

theorem checkArguments_plainCall (fluid : List Char) (composition : List ℚ) (d : ℚ)
    (hd : d = 0 ∨ d = 1) : checkArguments 1 10 (plainCall fluid composition d) = .pass := by
  have ht : typesOk (plainCall fluid composition d) := typesOk_args _ _ _ _ _ _ _ _ _ _
  rw [checkArguments_pass_iff_tests ht]
  exact ⟨checkMassOrMolar_zero_one [] (Or.inl rfl), checkDebugOutput_zero_one [] hd⟩

theorem unpack_plainCall (fluid : List Char) (composition : List ℚ) (d : ℚ) :
    unpack (plainCall fluid composition d) =
      some (plainArguments fluid composition (decide (d ≠ 0))) := by
  have h5 : (mxGetScalar (plainCall fluid composition d 5)).bind toInt = some 0 := by
    show (some (0 : ℚ)).bind toInt = some 0
    exact toInt_zero
  have h9 : mxGetScalar (plainCall fluid composition d 9) = some d := rfl
  unfold unpack
  rw [h5, h9]
  rfl

theorem mexFunction_plainCall {σ : Type} (R : Refprop σ) (lib : σ) (fluid : List Char)
    (composition : List ℚ) (d : ℚ) (hd : d = 0 ∨ d = 1) :
    mexFunction R lib 1 10 (plainCall fluid composition d) =
      gridEvaluator R lib (plainArguments fluid composition (decide (d ≠ 0))) := by
  unfold mexFunction
  rw [checkArguments_plainCall fluid composition d hd]
  simp only [unpack_plainCall]

set_option maxRecDepth 100000 in
/-- C11, as found in the code: when the library does not load, `mexFunction`
prints the failure and returns, and the host receives the matrix created at
line 183 before the loading: on a 2-by-3 grid, six zeros. -/
theorem load_failure_returns_zero_matrix :
    mexFunction noLoadLib 0 1 10 (waterGrid [300, 310] [100000, 200000, 300000]) =
      ⟨[Event.load_REFPROP "refprop".toList DLL_name false,
          Event.printfLoad "refprop".toList DLL_name],
        .returned ⟨2, 3, [0, 0, 0, 0, 0, 0]⟩⟩ := by
  rw [mexFunction_waterGrid]
  rfl

set_option maxRecDepth 100000 in
/-- C12, as found in the code: `checkArguments` accepts an empty `value1` (and
an empty `value2`), and `mexFunction` then reads `value1[0]` (`value2[0]`) for
the first cell, before any loop bound is tested, with `M = 0` (`N = 0`). -/
theorem empty_values_accepted_and_read :
    checkArguments 1 10 (waterGrid [] [101325]) = .pass ∧
    (mxGetPr (waterGrid [] [101325] 2)).length = 0 ∧
    (mexFunction (sampleLib none) 0 1 10 (waterGrid [] [101325])).outcome = .undefined ∧
    checkArguments 1 10 (waterGrid [300] []) = .pass ∧
    (mxGetPr (waterGrid [300] [] 3)).length = 0 ∧
    (mexFunction (sampleLib none) 0 1 10 (waterGrid [300] [])).outcome = .undefined := by
  refine ⟨checkArguments_waterGrid _ _, rfl, ?_, checkArguments_waterGrid _ _, rfl, ?_⟩
  · rw [mexFunction_waterGrid]
    rfl
  · rw [mexFunction_waterGrid]
    rfl

set_option maxRecDepth 100000 in
/-- C13, as found in the code: for a fluid text of 300 characters, which
`checkArguments` accepts, the count handed to `strncpy(hFld, fluid, fluid_len)`
is 301, and `strncpy` writes exactly that many characters into the 255
characters of `hFld`. -/
theorem long_fluid_overflows_hFld :
    checkArguments 1 10 (plainCall (List.replicate 300 'A') [1] 0) = .pass ∧
    unpack (plainCall (List.replicate 300 'A') [1] 0) =
      some (plainArguments (List.replicate 300 'A') [1] false) ∧
    (plainArguments (List.replicate 300 'A') [1] false).fluid_len = 301 ∧
    strncpy 255 (List.replicate 300 'A') 301 = none ∧
    (mexFunction (sampleLib none) 0 1 10 (plainCall (List.replicate 300 'A') [1] 0)).outcome =
      .undefined := by
  refine ⟨checkArguments_plainCall _ _ 0 (Or.inl rfl), ?_, ?_, ?_, ?_⟩
  · rw [unpack_plainCall]
    simp
  · simp [plainArguments]
  · decide
  · rw [mexFunction_plainCall _ _ _ _ 0 (Or.inl rfl)]
    have hd : decide ((0 : ℚ) ≠ 0) = false := by simp
    rw [hd]
    rfl


/-- The composition loop is undefined exactly when one of its reads of `z`
lies past the end of `z`. -/
theorem compositionLoop_none_iff (parsed : List Char) (z x y x3 : List ℚ)
    (fuel itrcmp bgn : Nat) (hbgn : bgn ≤ parsed.length) :
    compositionLoop parsed z x y x3 fuel itrcmp bgn = none ↔
      ∃ i ∈ compositionReads z fuel itrcmp, z.length ≤ i := by
  induction fuel generalizing itrcmp bgn with
  | zero => simp [compositionLoop, compositionReads]
  | succ fuel ih =>
    unfold compositionLoop compositionReads
    cases hz : z[itrcmp]? with
    | none =>
      have hlen : z.length ≤ itrcmp := List.getElem?_eq_none_iff.mp hz
      simp only [List.mem_cons, List.not_mem_nil, or_false, exists_eq_left, true_iff]
      exact hlen
    | some zi =>
      have hlt : itrcmp < z.length := by
        rw [List.getElem?_eq_some_iff] at hz
        exact hz.1
      simp only []
      by_cases hzi : zi > literal_0_000000001
      · rw [if_pos hzi, if_pos hzi]
        have hsub : substr parsed bgn (find parsed [';'] bgn) =
            some ((parsed.drop bgn).take (find parsed [';'] bgn)) := by
          unfold substr
          rw [if_pos hbgn]
        simp only [hsub]
        have ih' := ih (itrcmp + 1) ((find parsed [';'] bgn + 1) % SIZE_MOD)
          (next_bgn_le parsed bgn)
        cases hm : compositionLoop parsed z x y x3 fuel (itrcmp + 1)
            ((find parsed [';'] bgn + 1) % SIZE_MOD) with
        | none =>
          rw [hm] at ih'
          simp only [true_iff] at ih' ⊢
          obtain ⟨i, hi, hle⟩ := ih'
          exact ⟨i, List.mem_cons_of_mem _ hi, hle⟩
        | some more =>
          rw [hm] at ih'
          constructor
          · intro h
            cases h
          · rintro ⟨i, hi, hle⟩
            rcases List.mem_cons.mp hi with h | h
            · omega
            · have := ih'.mpr ⟨i, h, hle⟩
              cases this
      · rw [if_neg hzi, if_neg hzi]
        constructor
        · intro h
          cases h
        · rintro ⟨i, hi, hle⟩
          simp only [List.mem_cons, List.not_mem_nil, or_false] at hi
          omega

set_option maxRecDepth 100000 in
/-- C14, as found in the code: for the fluid text `A;B;C` with a composition
of three components (in an array of 20 entries) and debug output on, the trace
of the cell has three blocks, labelled `A`, `B;C` and `C`: the second argument
of `substr(bgn, nnd)` is a length, and the code hands it the position `nnd`. -/
theorem second_label_runs_to_the_end :
    forLabels (mexFunction (sampleLib none) 0 1 10
      (plainCall "A;B;C".toList threeComponents 1)).trace =
      ["A".toList, "B;C".toList, "C".toList] ∧
    compositionLoop "A;B;C".toList threeComponents [1] [1] [0] 20 0 0 =
      some [Event.printfFor "A".toList, .printfLiquid 1, .printfVapor 1,
        .printfFor "B;C".toList, .printfLiquid 0, .printfVapor 0,
        .printfFor "C".toList, .printfLiquid 0, .printfVapor 0] := by
  constructor
  · rw [mexFunction_plainCall _ _ _ _ 1 (Or.inr rfl)]
    have hd : decide ((1 : ℚ) ≠ 0) = true := by simp
    rw [hd]
    decide!
  · decide!

set_option maxRecDepth 100000 in
/-- C16, as found in the code: with debug output on and the composition `[1]`
of a pure fluid (length 1), the loop over the composition reads `z[0]` and
then `z[1]`, past the end of the array; line 166 calls `z` an array of max
size 20, and the loop is bounded by 20 only. -/
theorem composition_read_past_the_end :
    compositionReads [1] 20 0 = [0, 1] ∧ ¬ 1 < ([1] : List ℚ).length ∧
    checkArguments 1 10 (plainCall "WATER".toList [1] 1) = .pass ∧
    (mexFunction (sampleLib none) 0 1 10 (plainCall "WATER".toList [1] 1)).outcome =
      .undefined := by
  refine ⟨by decide!, by decide, checkArguments_plainCall _ _ 1 (Or.inr rfl), ?_⟩
  rw [mexFunction_plainCall _ _ _ _ 1 (Or.inr rfl)]
  have hd : decide ((1 : ℚ) ≠ 0) = true := by simp
  rw [hd]
  decide!


/-! ## Every slot of the result is written once -/

theorem flatIndex_lt (M N r c : Nat) (hr : r < M) (hc : c < N) : flatIndex M r c < M * N := by
  unfold flatIndex
  calc M * c + r < M * c + M := by omega
    _ = M * (c + 1) := by ring
    _ ≤ M * N := Nat.mul_le_mul_left _ hc

theorem flatIndex_injective (M N r c r2 c2 : Nat) (hr : r < M) (hr2 : r2 < M)
    (h : flatIndex M r c = flatIndex M r2 c2) : r = r2 ∧ c = c2 := by
  have _ := N
  unfold flatIndex at h
  have hM : 0 < M := by omega
  have hmod : (M * c + r) % M = (M * c2 + r2) % M := by rw [h]
  rw [Nat.mul_add_mod, Nat.mul_add_mod, Nat.mod_eq_of_lt hr, Nat.mod_eq_of_lt hr2] at hmod
  have hdiv : (M * c + r) / M = (M * c2 + r2) / M := by rw [h]
  rw [Nat.mul_add_div hM, Nat.mul_add_div hM, Nat.div_eq_of_lt hr, Nat.div_eq_of_lt hr2,
    Nat.add_zero, Nat.add_zero] at hdiv
  exact ⟨hmod, hdiv⟩

theorem flatIndex_surjective (M N i : Nat) (hi : i < M * N) :
    ∃ r c, r < M ∧ c < N ∧ flatIndex M r c = i := by
  have hM : 0 < M := by
    rcases Nat.eq_zero_or_pos M with h0 | h0
    · rw [h0] at hi
      simp at hi
    · exact h0
  refine ⟨i % M, i / M, Nat.mod_lt _ hM, Nat.div_lt_of_lt_mul hi, ?_⟩
  unfold flatIndex
  exact Nat.div_add_mod i M

theorem perm_range_of_nodup {l : List Nat} {n : Nat} (hnd : l.Nodup) (hlt : ∀ i ∈ l, i < n)
    (hlen : l.length = n) : l.Perm (List.range n) := by
  apply (List.subperm_of_subset hnd ?_).perm_of_length_le
  · rw [List.length_range, hlen]
  · intro i hi
    exact List.mem_range.mpr (hlt i hi)

/-- The slots of the cells in the order of the walk. -/
theorem gridCells_slots (env : Env) (hFld : List Char) (hM : 1 ≤ env.numelVal1)
    (hN : 1 ≤ env.numelVal2) :
    (gridCells env hFld).map Prod.snd =
      (List.range (env.numelVal1 * env.numelVal2)).map fun k =>
        flatIndex env.numelVal1 (k / env.numelVal2) (k % env.numelVal2) := by
  rw [gridCells_eq env hFld hM hN, List.map_map]
  rfl

theorem slots_perm (M N : Nat) :
    ((List.range (M * N)).map fun k => flatIndex M (k / N) (k % N)).Perm
      (List.range (M * N)) := by
  apply perm_range_of_nodup
  · apply List.Nodup.map_on _ (List.nodup_range _)
    intro a ha b hb hab
    exact slot_injective _ _ a b (List.mem_range.mp ha) (List.mem_range.mp hb) hab
  · intro i hi
    obtain ⟨k, hk, rfl⟩ := List.mem_map.mp hi
    exact slot_lt _ _ k (List.mem_range.mp hk)
  · simp

/-- The matrix returned by a successful run of `gridEvaluator`, as the zero
matrix after the stores of the walk. -/
theorem gridEvaluator_writes {σ : Type} (R : Refprop σ) (lib : σ) (v : Arguments)
    (hn1 : v.numelVal1 = v.value1.length) (hn2 : v.numelVal2 = v.value2.length)
    (hfl : v.fluid_len = v.fluid.length + 1) (hsl : v.spec_len = v.specSum.length + 1)
    (hpl : v.propReq_len = v.propReq.length + 1)
    (hf : v.fluid.length < 255) (hs : v.specSum.length < 255) (hp : v.propReq.length < 255)
    (hM : 1 ≤ v.numelVal1) (hN : 1 ≤ v.numelVal2)
    (hdbg : v.DebugOut = true → 20 ≤ v.z.length)
    (hok : ∀ e ∈ (gridEvaluator R lib v).trace, e.failed = false) :
    (refpropCalls (gridEvaluator R lib v).trace).length = v.numelVal1 * v.numelVal2 ∧
    (gridEvaluator R lib v).outcome =
      .returned ⟨v.numelVal1, v.numelVal2,
        stores (List.replicate (v.numelVal1 * v.numelVal2) 0)
          (((List.range (v.numelVal1 * v.numelVal2)).map fun k =>
              flatIndex v.numelVal1 (k / v.numelVal2) (k % v.numelVal2)).zip
            ((refpropCalls (gridEvaluator R lib v).trace).map
              fun io => io.2.hOutput.getD 0 0))⟩ := by
  obtain ⟨buf, ho, _, hlen, _, _, _, _⟩ := gridEvaluator_success R lib v hn1 hn2 hfl hsl hpl hf hs
    hp hM hN hdbg hok
  refine ⟨hlen, ?_⟩
  obtain ⟨hload, hfs, hen⟩ := setup_ok_of_no_failure R lib v hok
  have hg := gridEvaluator_grid R lib v hload hfs hen hfl hsl hpl hf hs hp
  rw [hg] at ho ⊢
  obtain ⟨L, hc, _, hm⟩ := grid_summary R (gridEnv R lib v) (gridSession R lib v)
  have hs0 : refpropCalls (gridSession R lib v).trace = [] := (setupTrace_calls R lib v).1
  rw [hs0, List.nil_append] at hc
  rw [ho] at hm
  obtain ⟨_, _, _, _, hmat⟩ := hm
  have hslots := gridCells_slots (gridEnv R lib v) (gridSession R lib v).hFld hM hN
  rw [hslots, ← hc] at hmat
  rw [ho, hmat]
  rfl

/-- C15: for `M ≥ 1` and `N ≥ 1` the index `(r, c) ↦ r + c * M` of the stores
into the result is a bijection from `[0, M) × [0, N)` onto `[0, M * N)`; and
on a run inside the domain in which no call of the library reports failure,
the matrix returned is the zero matrix after `M * N` stores, one per
evaluation and in the order of the walk (first cell, rest of the first row,
other rows), whose slots are the slots `0 .. M * N - 1`, each exactly once. -/
theorem result_slots_written_once :
    (∀ M N, 1 ≤ M → 1 ≤ N →
      (∀ r c, r < M → c < N → flatIndex M r c = r + c * M ∧ flatIndex M r c < M * N) ∧
      (∀ r c r2 c2, r < M → c < N → r2 < M → c2 < N →
        flatIndex M r c = flatIndex M r2 c2 → r = r2 ∧ c = c2) ∧
      (∀ i, i < M * N → ∃ r c, r < M ∧ c < N ∧ flatIndex M r c = i)) ∧
    (∀ {σ : Type} (R : Refprop σ) (lib : σ) (numOutArg numInArg : Int)
      (inputs : Nat → mxArray), ValidCall numOutArg numInArg inputs →
      (∀ e ∈ (mexFunction R lib numOutArg numInArg inputs).trace, e.failed = false) →
      ∃ writes : List (Nat × ℚ),
        (mexFunction R lib numOutArg numInArg inputs).outcome =
          .returned ⟨(mxGetPr (inputs 2)).length, (mxGetPr (inputs 3)).length,
            stores (List.replicate ((mxGetPr (inputs 2)).length * (mxGetPr (inputs 3)).length) 0)
              writes⟩ ∧
        writes.length = (mxGetPr (inputs 2)).length * (mxGetPr (inputs 3)).length ∧
        (writes.map Prod.fst).Perm
          (List.range ((mxGetPr (inputs 2)).length * (mxGetPr (inputs 3)).length)) ∧
        ∀ k, k < (mxGetPr (inputs 2)).length * (mxGetPr (inputs 3)).length →
          ∃ io, (refpropCalls (mexFunction R lib numOutArg numInArg inputs).trace)[k]? =
              some io ∧
            writes[k]? = some
              (flatIndex (mxGetPr (inputs 2)).length (k / (mxGetPr (inputs 3)).length)
                (k % (mxGetPr (inputs 3)).length), io.2.hOutput.getD 0 0)) := by
  constructor
  · intro M N _ _
    refine ⟨?_, ?_, ?_⟩
    · intro r c hr hc
      refine ⟨?_, flatIndex_lt M N r c hr hc⟩
      unfold flatIndex
      rw [Nat.add_comm, Nat.mul_comm]
    · intro r c r2 c2 hr _ hr2 _ h
      exact flatIndex_injective M N r c r2 c2 hr hr2 h
    · intro i hi
      exact flatIndex_surjective M N i hi
  · intro σ R lib numOutArg numInArg inputs hvalid hok
    obtain ⟨v, hU, hrun, hf, hs, hp, hM, hN, hdbg⟩ := mexFunction_valid R lib hvalid
    rw [hrun] at hok ⊢
    obtain ⟨hlen, hout⟩ := gridEvaluator_writes R lib v hU.numelVal1 hU.numelVal2 hU.fluid_len
      hU.spec_len hU.propReq_len hf hs hp hM hN hdbg hok
    have hMe : v.numelVal1 = (mxGetPr (inputs 2)).length := by rw [hU.numelVal1, hU.value1]
    have hNe : v.numelVal2 = (mxGetPr (inputs 3)).length := by rw [hU.numelVal2, hU.value2]
    rw [← hMe, ← hNe]
    have hfst : (((List.range (v.numelVal1 * v.numelVal2)).map fun k =>
          flatIndex v.numelVal1 (k / v.numelVal2) (k % v.numelVal2)).zip
        ((refpropCalls (gridEvaluator R lib v).trace).map
          fun io => io.2.hOutput.getD 0 0)).map Prod.fst =
        (List.range (v.numelVal1 * v.numelVal2)).map fun k =>
          flatIndex v.numelVal1 (k / v.numelVal2) (k % v.numelVal2) := by
      apply List.map_fst_zip
      simp [hlen]
    refine ⟨_, hout, ?_, ?_, ?_⟩
    · simp [List.length_zip, hlen]
    · rw [hfst]
      exact slots_perm _ _
    · intro k hk
      have hkL : k < (refpropCalls (gridEvaluator R lib v).trace).length := by
        rw [hlen]
        exact hk
      refine ⟨(refpropCalls (gridEvaluator R lib v).trace)[k], List.getElem?_eq_getElem hkL, ?_⟩
      rw [List.getElem?_zip_eq_some]
      constructor
      · rw [List.getElem?_map, List.getElem?_range hk]
        rfl
      · rw [List.getElem?_map, List.getElem?_eq_getElem hkL]
        rfl

set_option maxRecDepth 100000 in
theorem result_slots_written_once_witness :
    (flatIndex 3 2 1 = 2 + 1 * 3 ∧ flatIndex 3 2 1 < 3 * 2) ∧
    ∃ writes : List (Nat × ℚ),
      (mexFunction (sampleLib none) 0 1 10
          (waterGrid [300, 310, 320] [100000, 200000])).outcome =
        .returned ⟨3, 2, stores (List.replicate 6 0) writes⟩ ∧
      writes.length = 6 ∧ (writes.map Prod.fst).Perm (List.range 6) := by
  have hv := validCall_waterGrid [300, 310, 320] [100000, 200000] (by decide) (by decide)
  have hok : ∀ e ∈ (mexFunction (sampleLib none) 0 1 10
      (waterGrid [300, 310, 320] [100000, 200000])).trace, e.failed = false := by
    rw [mexFunction_waterGrid]
    decide
  obtain ⟨writes, ho, hl, hperm, _⟩ := result_slots_written_once.2 (sampleLib none) 0 1 10
    (waterGrid [300, 310, 320] [100000, 200000]) hv hok
  exact ⟨(result_slots_written_once.1 3 2 (by decide) (by decide)).1 2 1 (by decide)
    (by decide), writes, ho, hl, hperm⟩

end HiLevelMexC
